import Mathlib

/-!
Verification of the analytics core of the `portal` repository
(`backend/app/analytics/`): deterministic ChartSpec hashing and cache keys
(`hashing.py`), the ChartSpec validator (`contracts.py`), the spec → SQL
compiler (`compiler.py`), the table router (`router.py`) and the execution
engine with result normalisation and surge detection (`engine.py`).

The Python data is shallowly embedded: JSON-like dictionaries become the
`Json` inductive below (numbers restricted to integers, which covers every
scalar the analytics payloads use), `pandas` frames become lists of typed
rows, float arithmetic in the surge detector is modelled exactly over `ℚ`
(with the one square root expressed through an equivalent decidable test,
proved equal to the `Real.sqrt` formulation), and the TTL cache becomes an
association list keyed by the cache-key string (wall-clock expiry is outside
the model).  SQL text is reproduced with normalised whitespace; per the
repository the indentation of the emitted SQL is not contractual.
-/

set_option linter.unusedVariables false
set_option autoImplicit false

namespace Portal

/-- A single-quote character (codepoint 39), used when building SQL text. -/
def sqChar : Char := Char.ofNat 39

/-- A single-quote string, used when building SQL text and error messages. -/
def sq : String := String.singleton sqChar

/-! ## JSON values

`Json` models the JSON-like Python dictionaries the analytics code passes
around.  Objects are insertion-ordered association lists, exactly like
Python dicts; numbers are integers (the payloads hashed and validated by the
analytics core only carry ints, strings, booleans, nulls, arrays and
objects). -/

inductive Json where
  | null : Json
  | bool (b : Bool) : Json
  | num (n : Int) : Json
  | str (s : String) : Json
  | arr (items : List Json) : Json
  | obj (fields : List (String × Json)) : Json
deriving Repr

namespace Json

mutual

/-- Decidable equality for `Json` (the derive handler cannot treat the
nested lists, so it is spelled out). -/
def decEqJson : (a b : Json) → Decidable (a = b)
  | .null, .null => isTrue rfl
  | .bool a, .bool b =>
    match decEq a b with
    | isTrue h => isTrue (by rw [h])
    | isFalse h => isFalse (by intro hh; injection hh; contradiction)
  | .num a, .num b =>
    match decEq a b with
    | isTrue h => isTrue (by rw [h])
    | isFalse h => isFalse (by intro hh; injection hh; contradiction)
  | .str a, .str b =>
    match decEq a b with
    | isTrue h => isTrue (by rw [h])
    | isFalse h => isFalse (by intro hh; injection hh; contradiction)
  | .arr a, .arr b =>
    match decEqJsonList a b with
    | isTrue h => isTrue (by rw [h])
    | isFalse h => isFalse (by intro hh; injection hh; contradiction)
  | .obj a, .obj b =>
    match decEqJsonFields a b with
    | isTrue h => isTrue (by rw [h])
    | isFalse h => isFalse (by intro hh; injection hh; contradiction)
  | .null, .bool _ => isFalse Json.noConfusion
  | .null, .num _ => isFalse Json.noConfusion
  | .null, .str _ => isFalse Json.noConfusion
  | .null, .arr _ => isFalse Json.noConfusion
  | .null, .obj _ => isFalse Json.noConfusion
  | .bool _, .null => isFalse Json.noConfusion
  | .bool _, .num _ => isFalse Json.noConfusion
  | .bool _, .str _ => isFalse Json.noConfusion
  | .bool _, .arr _ => isFalse Json.noConfusion
  | .bool _, .obj _ => isFalse Json.noConfusion
  | .num _, .null => isFalse Json.noConfusion
  | .num _, .bool _ => isFalse Json.noConfusion
  | .num _, .str _ => isFalse Json.noConfusion
  | .num _, .arr _ => isFalse Json.noConfusion
  | .num _, .obj _ => isFalse Json.noConfusion
  | .str _, .null => isFalse Json.noConfusion
  | .str _, .bool _ => isFalse Json.noConfusion
  | .str _, .num _ => isFalse Json.noConfusion
  | .str _, .arr _ => isFalse Json.noConfusion
  | .str _, .obj _ => isFalse Json.noConfusion
  | .arr _, .null => isFalse Json.noConfusion
  | .arr _, .bool _ => isFalse Json.noConfusion
  | .arr _, .num _ => isFalse Json.noConfusion
  | .arr _, .str _ => isFalse Json.noConfusion
  | .arr _, .obj _ => isFalse Json.noConfusion
  | .obj _, .null => isFalse Json.noConfusion
  | .obj _, .bool _ => isFalse Json.noConfusion
  | .obj _, .num _ => isFalse Json.noConfusion
  | .obj _, .str _ => isFalse Json.noConfusion
  | .obj _, .arr _ => isFalse Json.noConfusion

/-- Decidable equality for arrays of `Json`. -/
def decEqJsonList : (a b : List Json) → Decidable (a = b)
  | [], [] => isTrue rfl
  | [], _ :: _ => isFalse List.noConfusion
  | _ :: _, [] => isFalse List.noConfusion
  | a :: as, b :: bs =>
    match decEqJson a b with
    | isFalse h => isFalse (by intro hh; injection hh; contradiction)
    | isTrue h1 =>
      match decEqJsonList as bs with
      | isTrue h2 => isTrue (by rw [h1, h2])
      | isFalse h => isFalse (by intro hh; injection hh; contradiction)

/-- Decidable equality for object field lists. -/
def decEqJsonFields : (a b : List (String × Json)) → Decidable (a = b)
  | [], [] => isTrue rfl
  | [], _ :: _ => isFalse List.noConfusion
  | _ :: _, [] => isFalse List.noConfusion
  | (k, v) :: as, (k', v') :: bs =>
    match decEq k k' with
    | isFalse h => isFalse (by intro hh; injection hh with h1 h2; exact h (congrArg Prod.fst h1))
    | isTrue hk =>
      match decEqJson v v' with
      | isFalse h => isFalse (by intro hh; injection hh with h1 h2; exact h (congrArg Prod.snd h1))
      | isTrue hv =>
        match decEqJsonFields as bs with
        | isTrue h2 => isTrue (by rw [hk, hv, h2])
        | isFalse h => isFalse (by intro hh; injection hh; contradiction)

end

instance : DecidableEq Json := decEqJson

/-- Dictionary lookup, first match wins (Python dicts never hold a key
twice, so this is exact on well-formed objects). -/
def lookupKey : List (String × Json) → String → Option Json
  | [], _ => none
  | (k, v) :: rest, key => if k = key then some v else lookupKey rest key

/-- `d.get(key)` on an object: `none` when the key is absent (and on
non-objects). -/
def jGet : Json → String → Option Json
  | .obj fields, key => lookupKey fields key
  | _, _ => none

/-- `d.get(key)` as used in `is not None` / truthiness tests: Python cannot
tell a missing key from a key holding `None`, so a stored `null` also maps
to `none`. -/
def pyGet (j : Json) (key : String) : Option Json :=
  match jGet j key with
  | some .null => none
  | other => other

/-- Python truthiness of a JSON value (`if value:`). -/
def truthy : Json → Bool
  | .null => false
  | .bool b => b
  | .num n => n != 0
  | .str s => s ≠ ""
  | .arr [] => false
  | .arr (_ :: _) => true
  | .obj [] => false
  | .obj (_ :: _) => true

end Json

/-! ## `hashing.py` — canonical serialisation and cache keys -/

namespace Hashing

open Json

/-- Lexicographic order on character lists by codepoint — exactly how
Python compares `str` values when `sorted` ranks dictionary keys. -/
def charListLe : List Char → List Char → Bool
  | [], _ => true
  | _ :: _, [] => false
  | u :: us, w :: ws =>
    if u.toNat < w.toNat then true
    else if w.toNat < u.toNat then false
    else charListLe us ws

/-- String comparison used by `sorted` on keys. -/
def strLe (a b : String) : Bool := charListLe a.data b.data

/-- Key order used by `sorted(obj)` / `json.dumps(..., sort_keys=True)`:
compare the keys of two fields. -/
def keyLe (a b : String × Json) : Prop := strLe a.1 b.1 = true

instance : DecidableRel keyLe := fun a b => inferInstanceAs (Decidable (strLe a.1 b.1 = true))

instance : IsTotal (String × Json) keyLe :=
  ⟨fun a b => by
    unfold keyLe strLe
    generalize a.1.data = as
    generalize b.1.data = bs
    induction as generalizing bs with
    | nil => left; rfl
    | cons c cs ih =>
      cases bs with
      | nil => right; rfl
      | cons d ds =>
        rcases Nat.lt_trichotomy c.toNat d.toNat with h | h | h
        · left; simp [charListLe, h]
        · rcases ih ds with h' | h'
          · left; simp [charListLe, h, h']
          · right; simp [charListLe, h, h']
        · right; simp [charListLe, h, Nat.lt_asymm h]⟩

instance : IsTrans (String × Json) keyLe :=
  ⟨fun a b c => by
    unfold keyLe strLe
    generalize a.1.data = as
    generalize b.1.data = bs
    generalize c.1.data = cs
    induction as generalizing bs cs with
    | nil => intro _ _; rfl
    | cons x xs ih =>
      cases bs with
      | nil => intro h; cases h
      | cons y ys =>
        cases cs with
        | nil => intro _ h; cases h
        | cons z zs =>
          intro h₁ h₂
          rcases Nat.lt_trichotomy x.toNat y.toNat with hxy | hxy | hxy <;>
            rcases Nat.lt_trichotomy y.toNat z.toNat with hyz | hyz | hyz <;>
            simp_all [charListLe, Nat.lt_asymm] <;>
            first
              | (exact absurd (hxy.trans hyz) (by omega))
              | (have : x.toNat < z.toNat := by omega
                 simp_all [Nat.lt_asymm this])
              | (exact ih ys zs h₁ h₂)⟩

/-- Sort an object's fields by key, as `sorted(obj)` does in `_normalize`
and as `json.dumps(..., sort_keys=True)` does while serialising. -/
def sortKeys (fields : List (String × Json)) : List (String × Json) :=
  fields.insertionSort keyLe

mutual

/-- `hashing._normalize`: recursively sort every object's keys, leave array
order and scalars untouched. -/
def normalize : Json → Json
  | .null => .null
  | .bool b => .bool b
  | .num n => .num n
  | .str s => .str s
  | .arr items => .arr (normalizeList items)
  | .obj fields => .obj (sortKeys (normalizeFields fields))

/-- `_normalize` mapped over the items of an array. -/
def normalizeList : List Json → List Json
  | [] => []
  | j :: rest => normalize j :: normalizeList rest

/-- `_normalize` mapped over the values of an object's fields. -/
def normalizeFields : List (String × Json) → List (String × Json)
  | [] => []
  | (k, v) :: rest => (k, normalize v) :: normalizeFields rest

end

/-! ### Compact JSON serialisation (`json.dumps(..., separators=(",", ":"), sort_keys=True)`)

`serChars` is the plain compact serialiser; the key sorting performed by
`sort_keys=True` is expressed by serialising `normalize j` (which is exactly
the recursive key sort).  Escaping follows `json.dumps`' default
`ensure_ascii=True` encoder. -/

/-- Lowercase hex digit. -/
def hexChar (n : Nat) : Char :=
  if n < 10 then Char.ofNat (48 + n) else Char.ofNat (87 + n)

/-- Four lowercase hex digits, most significant first (`\uXXXX`). -/
def hex4 (n : Nat) : List Char :=
  [hexChar (n / 4096 % 16), hexChar (n / 256 % 16), hexChar (n / 16 % 16), hexChar (n % 16)]

/-- Escape one character the way `json.dumps` (with `ensure_ascii=True`)
does: `"` and `\` get a backslash escape, the five control shorthands are
used where they exist, every other character outside printable ASCII is
emitted as `\uXXXX` (a surrogate pair for codepoints above `0xFFFF`). -/
def escChar (c : Char) : List Char :=
  let n := c.toNat
  if n = 34 then ['\\', '"']
  else if n = 92 then ['\\', '\\']
  else if n = 8 then ['\\', 'b']
  else if n = 9 then ['\\', 't']
  else if n = 10 then ['\\', 'n']
  else if n = 12 then ['\\', 'f']
  else if n = 13 then ['\\', 'r']
  else if 32 ≤ n ∧ n ≤ 126 then [c]
  else if n < 65536 then '\\' :: 'u' :: hex4 n
  else
    let m := n - 65536
    '\\' :: 'u' :: hex4 (55296 + m / 1024) ++ '\\' :: 'u' :: hex4 (56320 + m % 1024)

/-- Escape a whole string (the part between the quotes). -/
def escStr (s : String) : List Char :=
  (s.data.map escChar).flatten

/-- Decimal digits of a positive natural, fuel-driven so that the kernel can
evaluate it. -/
def natCharsAux : Nat → Nat → List Char
  | 0, _ => []
  | fuel + 1, n =>
    if n = 0 then []
    else natCharsAux fuel (n / 10) ++ [Char.ofNat (48 + n % 10)]

/-- Decimal representation of a natural number. -/
def natChars (n : Nat) : List Char :=
  if n = 0 then ['0'] else natCharsAux n n

/-- `str(int)` in Python: optional minus sign then decimal digits. -/
def intChars : Int → List Char
  | .ofNat n => natChars n
  | .negSucc n => '-' :: natChars (n + 1)

mutual

/-- Compact JSON serialisation of a value, as a character list. -/
def serChars : Json → List Char
  | .null => ['\x6e', 'u', 'l', 'l']
  | .bool true => ['\x74', 'r', 'u', 'e']
  | .bool false => ['\x66', 'a', 'l', 's', 'e']
  | .num n => intChars n
  | .str s => '"' :: escStr s ++ ['"']
  | .arr items => '[' :: serList items ++ [']']
  | .obj fields => '\x7b' :: serFields fields ++ ['\x7d']

/-- Array items, comma separated. -/
def serList : List Json → List Char
  | [] => []
  | [j] => serChars j
  | j :: rest => serChars j ++ ',' :: serList rest

/-- Object fields, comma separated, each as `"key":value`. -/
def serFields : List (String × Json) → List Char
  | [] => []
  | [(k, v)] => '"' :: escStr k ++ '"' :: ':' :: serChars v
  | (k, v) :: rest => ('"' :: escStr k ++ '"' :: ':' :: serChars v) ++ ',' :: serFields rest

end

/-- `json.dumps(j, separators=(",", ":"), sort_keys=True)`: the key sorting
of `sort_keys=True` is the recursive key sort `normalize`. -/
def dumps (j : Json) : String :=
  ⟨serChars (normalize j)⟩

/-! ### SHA-256 (`hashlib.sha256(payload.encode("utf-8")).hexdigest()`) -/

/-- UTF-8 bytes of one character. -/
def utf8Char (c : Char) : List Nat :=
  let n := c.toNat
  if n < 128 then [n]
  else if n < 2048 then [192 + n / 64, 128 + n % 64]
  else if n < 65536 then [224 + n / 4096, 128 + n / 64 % 64, 128 + n % 64]
  else [240 + n / 262144, 128 + n / 4096 % 64, 128 + n / 64 % 64, 128 + n % 64]

/-- `payload.encode("utf-8")` as a list of bytes. -/
def utf8Bytes (s : String) : List Nat :=
  (s.data.map utf8Char).flatten

/-- 32-bit rotate right. -/
def rotr (n x : Nat) : Nat :=
  ((x >>> n) ||| (x <<< (32 - n))) % 4294967296

/-- The 64 SHA-256 round constants. -/
def shaK : List Nat :=
  [1116352408, 1899447441, 3049323471, 3921009573, 961987163,
   1508970993, 2453635748, 2870763221, 3624381080, 310598401,
   607225278, 1426881987, 1925078388, 2162078206, 2614888103,
   3248222580, 3835390401, 4022224774, 264347078, 604807628,
   770255983, 1249150122, 1555081692, 1996064986, 2554220882,
   2821834349, 2952996808, 3210313671, 3336571891, 3584528711,
   113926993, 338241895, 666307205, 773529912, 1294757372,
   1396182291, 1695183700, 1986661051, 2177026350, 2456956037,
   2730485921, 2820302411, 3259730800, 3345764771, 3516065817,
   3600352804, 4094571909, 275423344, 430227734, 506948616,
   659060556, 883997877, 958139571, 1322822218, 1537002063,
   1747873779, 1955562222, 2024104815, 2227730452, 2361852424,
   2428436474, 2756734187, 3204031479, 3329325298]

/-- Initial SHA-256 hash state. -/
def shaH0 : List Nat :=
  [1779033703, 3144134277, 1013904242, 2773480762,
   1359893119, 2600822924, 528734635, 1541459225]

/-- Pad a byte message to a multiple of 64 bytes: `0x80`, zeros, then the
bit length as eight big-endian bytes. -/
def shaPad (msg : List Nat) : List Nat :=
  let len := msg.length
  let zeros := (119 - len % 64) % 64
  let bitLen := len * 8
  msg ++ 128 :: List.replicate zeros 0 ++
    [bitLen / 72057594037927936 % 256, bitLen / 281474976710656 % 256,
     bitLen / 1099511627776 % 256, bitLen / 4294967296 % 256,
     bitLen / 16777216 % 256, bitLen / 65536 % 256,
     bitLen / 256 % 256, bitLen % 256]

/-- Group a padded byte list into 32-bit big-endian words. -/
def bytesToWords : List Nat → List Nat
  | b0 :: b1 :: b2 :: b3 :: rest =>
    (b0 * 16777216 + b1 * 65536 + b2 * 256 + b3) :: bytesToWords rest
  | _ => []

/-- Split a word list into 16-word blocks (fuel-driven structural recursion
so that the kernel can evaluate it; one unit of fuel per block suffices). -/
def wordsToBlocksAux : Nat → List Nat → List (List Nat)
  | 0, _ => []
  | _ + 1, [] => []
  | fuel + 1, w :: ws => ((w :: ws).take 16) :: wordsToBlocksAux fuel ((w :: ws).drop 16)

/-- Split a word list into 16-word blocks. -/
def wordsToBlocks (ws : List Nat) : List (List Nat) :=
  wordsToBlocksAux ws.length ws

/-- Extend a 16-word block to the 64-word message schedule. -/
def shaSchedule : Nat → List Nat → List Nat
  | 0, w => w
  | fuel + 1, w =>
    if w.length ≥ 64 then w
    else
      let i := w.length
      let w15 := w.getD (i - 15) 0
      let w2 := w.getD (i - 2) 0
      let s0 := rotr 7 w15 ^^^ rotr 18 w15 ^^^ (w15 >>> 3)
      let s1 := rotr 17 w2 ^^^ rotr 19 w2 ^^^ (w2 >>> 10)
      shaSchedule fuel (w ++ [(w.getD (i - 16) 0 + s0 + w.getD (i - 7) 0 + s1) % 4294967296])

/-- One SHA-256 compression round. -/
def shaRound (st : List Nat) (kw : Nat × Nat) : List Nat :=
  match st with
  | [va, vb, vc, vd, ve, vf, vg, vh] =>
    let s1 := rotr 6 ve ^^^ rotr 11 ve ^^^ rotr 25 ve
    let ch := (ve &&& vf) ^^^ ((4294967295 - ve) &&& vg)
    let t1 := (vh + s1 + ch + kw.1 + kw.2) % 4294967296
    let s0 := rotr 2 va ^^^ rotr 13 va ^^^ rotr 22 va
    let mj := (va &&& vb) ^^^ (va &&& vc) ^^^ (vb &&& vc)
    let t2 := (s0 + mj) % 4294967296
    [(t1 + t2) % 4294967296, va, vb, vc, (vd + t1) % 4294967296, ve, vf, vg]
  | other => other

/-- Compress one 16-word block into the running hash state. -/
def shaCompress (h : List Nat) (block : List Nat) : List Nat :=
  let w := shaSchedule 48 block
  let st := (shaK.zip w).foldl shaRound h
  (h.zip st).map fun p => (p.1 + p.2) % 4294967296

/-- Hex rendering of one 32-bit word. -/
def wordHex (w : Nat) : List Char :=
  [hexChar (w / 268435456 % 16), hexChar (w / 16777216 % 16),
   hexChar (w / 1048576 % 16), hexChar (w / 65536 % 16),
   hexChar (w / 4096 % 16), hexChar (w / 256 % 16),
   hexChar (w / 16 % 16), hexChar (w % 16)]

/-- `hashlib.sha256(s.encode("utf-8")).hexdigest()`. -/
def sha256hex (s : String) : String :=
  let blocks := wordsToBlocks (bytesToWords (shaPad (utf8Bytes s)))
  let final := blocks.foldl shaCompress shaH0
  ⟨(final.map wordHex).flatten⟩

/-- The canonical payload the hash is taken over:
`json.dumps(_normalize(spec), separators=(",", ":"), sort_keys=True)`. -/
def canonicalPayload (spec : Json) : String :=
  dumps (normalize spec)

/-- `hashing.hash_spec`. -/
def hash_spec (spec : Json) : String :=
  sha256hex (canonicalPayload spec)

/-- `hashing.build_cache_key`. -/
def build_cache_key (spec : Json) (table_name : String) : String :=
  table_name ++ ":" ++ hash_spec spec

/-! ### Well-formedness and key-order permutation

`wellFormed` states that every object in the value has pairwise-distinct
keys — automatically true of anything built from a Python dict.
`PermEquiv` relates two values that differ only in the order of mapping
keys, at any nesting depth: arrays keep their element order (order there is
semantic), objects may permute their fields. -/

mutual

/-- Every object of the value has pairwise-distinct keys. -/
def wellFormed : Json → Bool
  | .null => true
  | .bool _ => true
  | .num _ => true
  | .str _ => true
  | .arr items => wellFormedList items
  | .obj fields => (fields.map Prod.fst).Nodup && wellFormedFields fields

/-- `wellFormed` over an array's items. -/
def wellFormedList : List Json → Bool
  | [] => true
  | j :: rest => wellFormed j && wellFormedList rest

/-- `wellFormed` over an object's field values. -/
def wellFormedFields : List (String × Json) → Bool
  | [] => true
  | (_, v) :: rest => wellFormed v && wellFormedFields rest

end

mutual

/-- Two JSON values differing only in the order of object keys, at any
depth. -/
inductive PermEquiv : Json → Json → Prop where
  | null : PermEquiv .null .null
  | bool (b : Bool) : PermEquiv (.bool b) (.bool b)
  | num (n : Int) : PermEquiv (.num n) (.num n)
  | str (s : String) : PermEquiv (.str s) (.str s)
  | arr {l₁ l₂ : List Json} : PermEquivList l₁ l₂ → PermEquiv (.arr l₁) (.arr l₂)
  | obj {f₁ g f₂ : List (String × Json)} :
      PermEquivFields f₁ g → g.Perm f₂ → PermEquiv (.obj f₁) (.obj f₂)

/-- Pointwise `PermEquiv` on arrays — element order is preserved. -/
inductive PermEquivList : List Json → List Json → Prop where
  | nil : PermEquivList [] []
  | cons {a b : Json} {l₁ l₂ : List Json} :
      PermEquiv a b → PermEquivList l₁ l₂ → PermEquivList (a :: l₁) (b :: l₂)

/-- Pointwise `PermEquiv` on field lists — same keys in the same order,
values related. -/
inductive PermEquivFields : List (String × Json) → List (String × Json) → Prop where
  | nil : PermEquivFields [] []
  | cons (k : String) {v₁ v₂ : Json} {f₁ f₂ : List (String × Json)} :
      PermEquiv v₁ v₂ → PermEquivFields f₁ f₂ → PermEquivFields ((k, v₁) :: f₁) ((k, v₂) :: f₂)

end

/-- Replace the value stored under an existing key, keeping its position —
how a spec "differing only in the order of the `measures` list" is built
from the original. -/
def setKey (fields : List (String × Json)) (key : String) (value : Json) :
    List (String × Json) :=
  fields.map fun kv => if kv.1 = key then (key, value) else kv

end Hashing

/-! ## Sizes

A structural size measure for `Json`, used as recursion fuel where the
Python code walks through dictionary lookups (which the structural
termination checker cannot follow). -/

mutual

/-- Structural size of a JSON value. -/
def jsize : Json → Nat
  | .null => 1
  | .bool b => 1
  | .num n => 1
  | .str s => 1
  | .arr items => jsizeList items + 1
  | .obj fields => jsizeFields fields + 1

/-- Structural size of an array's items. -/
def jsizeList : List Json → Nat
  | [] => 0
  | j :: rest => jsize j + jsizeList rest

/-- Structural size of an object's fields. -/
def jsizeFields : List (String × Json) → Nat
  | [] => 0
  | (_, v) :: rest => jsize v + jsizeFields rest

end

/-! ## Errors

One error type covers every exception the analytics core raises:
`ValidationError` (contracts/compiler), `UnsupportedChartError` and
`UnsupportedMeasureError` (compiler), `UnknownOrganisationError` and
`ValueError` (router), `BigQueryDataFrameError` (executor adapter),
`UnsupportedChartExecution` and dictionary `KeyError`s (engine), plus
`typeError` standing for the `TypeError`/`AttributeError` a Python value of
the wrong shape would raise. -/

/-- The typed executor failure (`bigquery_client.BigQueryDataFrameError`);
`job_id` carries the warehouse job identifier when available. -/
structure BigQueryDataFrameError where
  message : String
  job_id : Option String := none
deriving DecidableEq, Repr

/-- Every exception the analytics core can raise, as one sum type. -/
inductive EngineError where
  | validationError (msg : String)
  | unsupportedChart (msg : String)
  | unsupportedMeasure (aggregation : String)
  | unknownOrganisation (org : String)
  | valueError (msg : String)
  | bigquery (e : BigQueryDataFrameError)
  | unsupportedChartExecution (chartType : String)
  | keyError (key : String)
  | typeError
deriving DecidableEq, Repr

/-! ## `contracts.py` — ChartSpec validation -/

namespace Contracts

open Json

/-- `contracts.CHART_TYPES`. -/
def CHART_TYPES : List String :=
  ["composed_time", "categorical", "heatmap", "retention", "single_value"]

/-- `contracts.TIME_BUCKETS`. -/
def TIME_BUCKETS : List String :=
  ["RAW", "5_MIN", "15_MIN", "30_MIN", "HOUR", "DAY", "WEEK", "MONTH"]

/-- `contracts.MEASURE_AGGREGATIONS`. -/
def MEASURE_AGGREGATIONS : List String :=
  ["occupancy_recursion", "count", "activity_rate", "dwell_mean", "dwell_p90",
   "sessions", "demographic_count", "retention_rate"]

/-- `contracts.FILTER_OPERATORS`. -/
def FILTER_OPERATORS : List String :=
  ["equals", "not_equals", "in", "not_in", "between", "gte", "lte", "gt", "lt",
   "contains", "starts_with", "ends_with"]

/-- `contracts.INTERACTION_EXPORTS`. -/
def INTERACTION_EXPORTS : List String := ["png", "csv", "xlsx"]

/-- `contracts.AXES`. -/
def AXES : List String := ["Y1", "Y2", "Y3"]

/-- `contracts.GEOMETRIES`. -/
def GEOMETRIES : List String :=
  ["line", "area", "column", "bar", "heatmap", "scatter", "metric"]

/-- `contracts._ensure`: raise `ValidationError(message)` unless the
condition holds. -/
def ensure (condition : Bool) (message : String) : Except EngineError Unit :=
  if condition then .ok () else .error (.validationError message)

/-- Membership of a JSON value in a set of strings (Python `value in
  \x7b"a", "b"\x7d`): only equal strings match. -/
def strMem (j : Json) (options : List String) : Bool :=
  match j with
  | .str s => options.contains s
  | _ => false

/-- `ev in (0, 1)` under Python equality, where `True == 1` and
`False == 0`. -/
def eventTypeOk (j : Json) : Bool :=
  match j with
  | .num 0 => true
  | .num 1 => true
  | .bool _ => true
  | _ => false

/-- `isinstance(v, (str, int, float, bool))` — scalar filter values (`bool`
is a subclass of `int` in Python). -/
def isScalar (j : Json) : Bool :=
  match j with
  | .str _ => true
  | .num _ => true
  | .bool _ => true
  | _ => false

/-- `contracts._validate_filter_condition`. -/
def validate_filter_condition (condition : Json) : Except EngineError Unit := do
  ensure (match condition with | .obj _ => true | _ => false) "Filter condition must be object"
  ensure (match jGet condition "field" with | some (.str _) => true | _ => false)
    "Filter condition field must be string"
  ensure (strMem ((jGet condition "op").getD .null) FILTER_OPERATORS)
    "Unsupported filter operator"
  match jGet condition "value" with
  | none => .ok ()
  | some value => do
    ensure (isScalar value || (match value with | .arr _ => true | _ => false))
      "Filter value must be scalar or list"
    match value with
    | .arr items => ensure (items.all isScalar) "List values must be scalar"
    | _ => .ok ()

/-- `contracts._validate_filter_group`; the fuel only bounds the nesting
depth the structural checker cannot see through (`jsize` of the group is
always enough, and fuel exhaustion cannot occur on such budgets). -/
def validate_filter_group : Nat → Json → Except EngineError Unit
  | 0, _ => .error .typeError
  | fuel + 1, group => do
    match group with
    | .obj _ => .ok ()
    | _ => .error .typeError
    ensure (strMem ((pyGet group "logic").getD .null) ["AND", "OR"]) "Invalid filter logic"
    match jGet group "conditions" with
    | some (.arr (c :: cs)) =>
      (c :: cs).foldlM
        (fun _ condition =>
          match condition with
          | .obj fields =>
            match lookupKey fields "logic" with
            | some _ => validate_filter_group fuel condition
            | none => validate_filter_condition condition
          | _ => validate_filter_condition condition)
        ()
    | _ => .error (.validationError "Filter group requires conditions")

/-- `contracts.validate_chart_spec`. -/
def validate_chart_spec (payload : Json) : Except EngineError Unit := do
  ensure (match jGet payload "dataset" with | some (.str "events") => true | _ => false)
    (s!"Dataset must be {sq}events{sq}")
  ensure (strMem ((jGet payload "chartType").getD .null) CHART_TYPES) "Invalid chart type"
  match jGet payload "measures" with
  | some (.arr (m :: ms)) =>
    (m :: ms).foldlM
      (fun _ measure => do
        match measure with
        | .obj _ => .ok ()
        | _ => .error .typeError
        ensure (match jGet measure "id" with | some (.str s) => s ≠ "" | _ => false)
          "Measure id required"
        ensure (strMem ((jGet measure "aggregation").getD .null) MEASURE_AGGREGATIONS)
          "Invalid measure aggregation"
        match jGet measure "eventTypes" with
        | none => .ok ()
        | some eventTypes => do
          ensure (match eventTypes with | .arr _ => true | _ => false) "eventTypes must be list"
          match eventTypes with
          | .arr evs => ensure (evs.all eventTypeOk) "eventTypes must contain 0/1"
          | _ => .ok ())
      ()
  | _ => .error (.validationError "Measures required")
  match jGet payload "dimensions" with
  | some (.arr (d :: ds)) =>
    (d :: ds).foldlM
      (fun _ dimension => do
        match dimension with
        | .obj _ => .ok ()
        | _ => .error .typeError
        ensure (match jGet dimension "id" with | some (.str _) => true | _ => false)
          "Dimension id required"
        ensure (match jGet dimension "column" with | some (.str _) => true | _ => false)
          "Dimension column required"
        match pyGet dimension "bucket" with
        | none => .ok ()
        | some bucket => ensure (strMem bucket TIME_BUCKETS) "Invalid dimension bucket")
      ()
  | _ => .error (.validationError "Dimensions required")
  match pyGet payload "splits" with
  | some splits =>
    if truthy splits then
      match splits with
      | .arr items =>
        items.foldlM
          (fun _ split => do
            match split with
            | .obj _ => .ok ()
            | _ => .error .typeError
            ensure (match jGet split "id" with | some (.str _) => true | _ => false)
              "Split id required"
            ensure (match jGet split "column" with | some (.str _) => true | _ => false)
              "Split column required")
          ()
      | _ => .error .typeError
    else .ok ()
  | none => .ok ()
  match pyGet payload "filters" with
  | some filters =>
    if truthy filters then
      match filters with
      | .arr groups => groups.foldlM (fun _ group => validate_filter_group (jsize group) group) ()
      | _ => .error .typeError
    else .ok ()
  | none => .ok ()
  match jGet payload "timeWindow" with
  | some (.obj twFields) => do
    ensure (match lookupKey twFields "from" with | some (.str _) => true | _ => false)
      "timeWindow.from must be string"
    ensure (match lookupKey twFields "to" with | some (.str _) => true | _ => false)
      "timeWindow.to must be string"
    match pyGet (.obj twFields) "bucket" with
    | none => .ok ()
    | some bucket => ensure (strMem bucket TIME_BUCKETS) "Invalid timeWindow bucket"
  | _ => .error (.validationError "timeWindow is required")
  match pyGet payload "interactions" with
  | some interactions =>
    if truthy interactions then
      match interactions with
      | .obj _ =>
        match pyGet interactions "export" with
        | none => .ok ()
        | some exports => do
          ensure (match exports with | .arr _ => true | _ => false)
            "interactions.export must be list"
          match exports with
          | .arr items => ensure (items.all (strMem · INTERACTION_EXPORTS)) "Unsupported export type"
          | _ => .ok ()
      | _ => .error .typeError
    else .ok ()
  | none => .ok ()

end Contracts

/-! ## `compiler.py` — spec → SQL compilation

The SQL fragments reproduce the source's text with the indentation
normalised away (per §4.7 of the repository's own contract the emitted
indentation is not contractual; `_assemble_sql` already rewrites
whitespace). -/

namespace Compiler

open Json Contracts

/-- `compiler.CompilerContext`. -/
structure CompilerContext where
  table_name : String
  timezone : String := "UTC"
deriving DecidableEq, Repr

/-- `compiler.CompiledQuery`.  `params` and `measures` are the two
insertion-ordered dictionaries. -/
structure CompiledQuery where
  sql : String
  params : List (String × Json)
  measures : List (String × String)
  bucket : String
deriving Repr

/-- `compiler.MeasureCompilation`. -/
structure MeasureCompilation where
  ctes : List String
  select_sql : String
deriving Repr

/-- Python dictionary assignment `d[k] = v`: update in place when the key
exists (keeping its position), append otherwise.  Used for `params`, the
`OrderedDict` CTE registry and the measure map. -/
def dictInsert {α : Type} : List (String × α) → String → α → List (String × α)
  | [], k, v => [(k, v)]
  | (k', v') :: rest, k, v =>
    if k' = k then (k, v) :: rest else (k', v') :: dictInsert rest k v

/-- Keys of `compiler._BUCKET_SECONDS` (`RAW` and `MONTH` hold `None`). -/
def BUCKET_SECONDS : List (String × Option Nat) :=
  [("RAW", none), ("5_MIN", some 300), ("15_MIN", some 900), ("30_MIN", some 1800),
   ("HOUR", some 3600), ("DAY", some 86400), ("WEEK", some 604800), ("MONTH", none)]

/-- `bucket in _BUCKET_SECONDS`. -/
def bucketKnown (bucket : String) : Bool :=
  (BUCKET_SECONDS.map Prod.fst).contains bucket

/-- `compiler._bucket_trunc_expression`. -/
def bucket_trunc_expression (bucket : String) : Except EngineError String :=
  if bucket = "5_MIN" then .ok "TIMESTAMP_TRUNC(@start_ts, MINUTE, 5)"
  else if bucket = "15_MIN" then .ok "TIMESTAMP_TRUNC(@start_ts, MINUTE, 15)"
  else if bucket = "30_MIN" then .ok "TIMESTAMP_TRUNC(@start_ts, MINUTE, 30)"
  else if bucket = "HOUR" then .ok "TIMESTAMP_TRUNC(@start_ts, HOUR)"
  else if bucket = "DAY" then .ok "TIMESTAMP_TRUNC(@start_ts, DAY)"
  else if bucket = "WEEK" then .ok "TIMESTAMP_TRUNC(@start_ts, WEEK)"
  else if bucket = "MONTH" then .ok "TIMESTAMP_TRUNC(@start_ts, MONTH)"
  else .error (.validationError s!"Unsupported bucket for truncation: {bucket}")

/-- `compiler._bucket_interval_expression`. -/
def bucket_interval_expression (bucket : String) : Except EngineError String :=
  if bucket = "5_MIN" then .ok "INTERVAL 5 MINUTE"
  else if bucket = "15_MIN" then .ok "INTERVAL 15 MINUTE"
  else if bucket = "30_MIN" then .ok "INTERVAL 30 MINUTE"
  else if bucket = "HOUR" then .ok "INTERVAL 1 HOUR"
  else if bucket = "DAY" then .ok "INTERVAL 1 DAY"
  else if bucket = "WEEK" then .ok "INTERVAL 1 WEEK"
  else if bucket = "MONTH" then .ok "INTERVAL 1 MONTH"
  else .error (.validationError s!"Unsupported bucket for interval: {bucket}")

/-- `compiler._retention_cohort_trunc`. -/
def retention_cohort_trunc (bucket : String) : Except EngineError String :=
  if bucket = "WEEK" then .ok "TIMESTAMP_TRUNC(timestamp, WEEK(MONDAY))"
  else if bucket = "MONTH" then .ok "TIMESTAMP_TRUNC(timestamp, MONTH)"
  else .error (.validationError s!"Unsupported retention bucket: {bucket}")

/-- `compiler._retention_max_lag_expr`. -/
def retention_max_lag_expr (bucket : String) : Except EngineError String :=
  if bucket = "WEEK" then
    .ok "CAST(DIV(TIMESTAMP_DIFF(window_end, aligned_start, SECOND) + 604800 - 1, 604800) AS INT64)"
  else if bucket = "MONTH" then
    .ok "CAST(DATE_DIFF(DATE(window_end), DATE(aligned_start), MONTH) AS INT64)"
  else .error (.validationError s!"Unsupported retention bucket: {bucket}")

/-- `compiler._retention_lag_expression`. -/
def retention_lag_expression (bucket : String) : Except EngineError String :=
  if bucket = "WEEK" then
    .ok "CAST(FLOOR(TIMESTAMP_DIFF(later.visit_ts, first.visit_ts, DAY) / 7) AS INT64)"
  else if bucket = "MONTH" then
    .ok "CAST(DATE_DIFF(DATE(later.visit_ts), DATE(first.visit_ts), MONTH) AS INT64)"
  else .error (.validationError s!"Unsupported retention bucket: {bucket}")

/-- Does `s` start with `pat`? -/
def startsWithChars : List Char → List Char → Bool
  | [], _ => true
  | _ :: _, [] => false
  | p :: ps, c :: cs => p = c && startsWithChars ps cs

/-- `key.startswith(base)` on strings. -/
def strStarts (base s : String) : Bool := startsWithChars base.data s.data

/-- Does `pat` occur anywhere in the character list? -/
def hasSubAux (pat : List Char) : List Char → Bool
  | [] => startsWithChars pat []
  | c :: cs => startsWithChars pat (c :: cs) || hasSubAux pat cs

/-- `pat in s` — substring occurrence. -/
def hasSubstring (s pat : String) : Bool := hasSubAux pat.data s.data

/-- Characters of `s` strictly before the first occurrence of `pat` (all of
`s` when `pat` never occurs) — the `split(pat, 1)[0]` part. -/
def takeUntilSub (pat : String) : List Char → List Char
  | [] => []
  | c :: cs =>
    if startsWithChars pat.data (c :: cs) then [] else c :: takeUntilSub pat cs

/-- ASCII whitespace, as `str.strip` sees it. -/
def isSpaceChar (c : Char) : Bool := c = ' ' || c = '\n' || c = '\t' || c = '\r'

/-- `s.strip()`. -/
def stripStr (s : String) : String :=
  ⟨((s.data.dropWhile isSpaceChar).reverse.dropWhile isSpaceChar).reverse⟩

/-- `fragment.split(" AS", 1)[0].strip()` — the registry name of a CTE
fragment. -/
def cteName (fragment : String) : String :=
  stripStr ⟨takeUntilSub " AS" fragment.data⟩

/-- Decimal rendering of a natural number (for parameter indices and lag
labels). -/
def natStr (n : Nat) : String := ⟨Hashing.natChars n⟩

/-- The characters Python's `re.sub(r"[^0-9A-Za-z_]", "_", field)` keeps. -/
def sanitizeChar (c : Char) : Char :=
  if (48 ≤ c.toNat ∧ c.toNat ≤ 57) ∨ (65 ≤ c.toNat ∧ c.toNat ≤ 90) ∨
      (97 ≤ c.toNat ∧ c.toNat ≤ 122) ∨ c.toNat = 95 then c else '_'

/-- Parameter-name base derived from the filter field. -/
def paramBase (field : String) : String := ⟨field.data.map sanitizeChar⟩

/-- `sum(1 for key in params if key.startswith(param_base))`. -/
def countPrefixed (params : List (String × Json)) (base : String) : Nat :=
  (params.filter fun kv => strStarts base kv.1).length

/-- `str(value)` as it appears inside the unsupported-operator f-string
(compound values take a Python-`repr`-like rendering; the claims only reach
string operators). -/
def pyStr : Json → String
  | .null => "None"
  | .bool true => "True"
  | .bool false => "False"
  | .num n => ⟨Hashing.intChars n⟩
  | .str s => s
  | .arr _ => "[...]"
  | .obj _ => "\x7b...\x7d"

/-- Is the operator value this exact string? -/
def opIs (operator : Json) (name : String) : Bool :=
  match operator with
  | .str s => s = name
  | _ => false

/-- `compiler.SpecCompiler._compile_condition`.  Returns the rendered SQL
predicate together with the updated parameter dictionary. -/
def compile_condition (condition : Json) (params : List (String × Json)) :
    Except EngineError (String × List (String × Json)) := do
  let field ← match jGet condition "field" with
    | some f => .ok f
    | none => .error (.keyError "field")
  let fieldStr ← match field with
    | .str s => .ok s
    | _ => .error .typeError
  let field_expr :=
    if fieldStr = "sex" ∨ fieldStr = "age_bucket" then
      s!"COALESCE({fieldStr}, {sq}Unknown{sq})"
    else fieldStr
  let operator ← match jGet condition "op" with
    | some op => .ok op
    | none => .error (.keyError "op")
  let value := (jGet condition "value").getD .null
  let param_base := paramBase fieldStr
  let index := countPrefixed params param_base
  let param_name := param_base ++ "_" ++ natStr index
  if opIs operator "equals" then
    .ok (s!"{field_expr} = @{param_name}", dictInsert params param_name value)
  else if opIs operator "not_equals" then
    .ok (s!"{field_expr} != @{param_name}", dictInsert params param_name value)
  else if opIs operator "in" then
    .ok (s!"{field_expr} IN UNNEST(@{param_name})", dictInsert params param_name value)
  else if opIs operator "not_in" then
    .ok (s!"{field_expr} NOT IN UNNEST(@{param_name})", dictInsert params param_name value)
  else if opIs operator "contains" then
    .ok (s!"STRPOS(CAST({field_expr} AS STRING), @{param_name}) > 0",
      dictInsert params param_name value)
  else if opIs operator "starts_with" then
    .ok (s!"STARTS_WITH(CAST({field_expr} AS STRING), @{param_name})",
      dictInsert params param_name value)
  else if opIs operator "ends_with" then
    .ok (s!"ENDS_WITH(CAST({field_expr} AS STRING), @{param_name})",
      dictInsert params param_name value)
  else if opIs operator "between" &&
      (match value with | .arr items => items.length == 2 | _ => false) then
    match value with
    | .arr [lo, hi] =>
      let lower_name := param_base ++ "_" ++ natStr index ++ "_lower"
      let upper_name := param_base ++ "_" ++ natStr index ++ "_upper"
      let params := dictInsert params lower_name lo
      let params := dictInsert params upper_name hi
      .ok (s!"{field_expr} BETWEEN @{lower_name} AND @{upper_name}", params)
    | _ => .error .typeError
  else if opIs operator "gte" then
    .ok (s!"{field_expr} >= @{param_name}", dictInsert params param_name value)
  else if opIs operator "lte" then
    .ok (s!"{field_expr} <= @{param_name}", dictInsert params param_name value)
  else if opIs operator "gt" then
    .ok (s!"{field_expr} > @{param_name}", dictInsert params param_name value)
  else if opIs operator "lt" then
    .ok (s!"{field_expr} < @{param_name}", dictInsert params param_name value)
  else
    .error (.validationError ("Unsupported filter operator: " ++ pyStr operator))

/-- `compiler.SpecCompiler._compile_group`; the fuel bounds the nesting
depth exactly as in `validate_filter_group`. -/
def compile_group : Nat → Json → List (String × Json) →
    Except EngineError (String × List (String × Json))
  | 0, _, _ => .error .typeError
  | fuel + 1, group, params => do
    let logic ← match (jGet group "logic").getD (.str "AND") with
      | .str s => .ok s.toUpper
      | _ => .error .typeError
    let conditions := (jGet group "conditions").getD (.arr [])
    match conditions with
    | .arr conds => do
      let (compiled, params) ← conds.foldlM
        (fun (acc : List String × List (String × Json)) condition => do
          let (compiled, params) := acc
          match condition with
          | .obj fields =>
            match lookupKey fields "logic" with
            | some _ => do
              let (nested, params) ← compile_group fuel condition params
              if nested ≠ "" then
                .ok (compiled ++ [s!"({nested})"], params)
              else
                .ok (compiled, params)
            | none => do
              let (sql, params) ← compile_condition condition params
              if sql ≠ "" then
                .ok (compiled ++ [sql], params)
              else
                .ok (compiled, params)
          | _ => .ok (compiled, params))
        ([], params)
      if compiled = [] then
        .ok ("", params)
      else
        .ok (String.intercalate (" " ++ logic ++ " ") compiled, params)
    | _ => .error .typeError

/-- `compiler.SpecCompiler._build_filters`. -/
def build_filters (groups : Json) (params : List (String × Json)) :
    Except EngineError (String × List (String × Json)) := do
  if ¬ truthy groups then
    .ok ("", params)
  else
    match groups with
    | .arr gs => do
      let (clauses, params) ← gs.foldlM
        (fun (acc : List String × List (String × Json)) group => do
          let (clauses, params) := acc
          let (clause, params) ← compile_group (jsize group) group params
          .ok (clauses ++ [clause], params))
        ([], params)
      let filtered := clauses.filter (· ≠ "")
      if filtered = [] then
        .ok ("", params)
      else
        .ok (String.join (filtered.map fun clause => "\n                AND (" ++ clause ++ ")"),
          params)
    | _ => .error .typeError

/-- `compiler._UNKNOWN_DIMENSION_VALUE`. -/
def UNKNOWN_DIMENSION_VALUE : String := "Unknown"

/-- `compiler._RETENTION_MIN_COHORT`. -/
def RETENTION_MIN_COHORT : Nat := 100

/-- `compiler.WINDOW_BOUNDS_CTE`. -/
def WINDOW_BOUNDS_CTE : String := "window_bounds"

/-- `compiler.RETENTION_WINDOW_CTE`. -/
def RETENTION_WINDOW_CTE : String := "retention_window_bounds"

/-- `compiler.SpecCompiler._render_scoped`. -/
def render_scoped (table_name : String) (filters_sql : String) : String :=
  String.intercalate "\n"
    ["scoped AS (",
     "SELECT",
     "timestamp,",
     "event_type,",
     "IFNULL(index, 0) AS event_index,",
     "site_id,",
     "cam_id,",
     "track_no,",
     s!"COALESCE(sex, {sq}{UNKNOWN_DIMENSION_VALUE}{sq}) AS sex,",
     s!"COALESCE(age_bucket, {sq}{UNKNOWN_DIMENSION_VALUE}{sq}) AS age_bucket",
     s!"FROM `{table_name}`",
     s!"WHERE timestamp BETWEEN @start_ts AND @end_ts{filters_sql}",
     ")"]

/-- `compiler.SpecCompiler._render_calendar`. -/
def render_calendar (bucket : String) : Except EngineError String := do
  if bucket = "RAW" then
    .error (.validationError "Calendar requires bucketed time series")
  let trunc_expr ← bucket_trunc_expression bucket
  let interval_expr ← bucket_interval_expression bucket
  let add_expr := s!"TIMESTAMP_ADD(bucket_start, {interval_expr})"
  .ok (String.intercalate "\n"
    ["calendar AS (",
     s!"WITH {WINDOW_BOUNDS_CTE} AS (",
     "SELECT",
     "@start_ts AS window_start,",
     "@end_ts AS window_end,",
     s!"{trunc_expr} AS aligned_start",
     ")",
     "SELECT",
     "bucket_start,",
     s!"LEAST({add_expr}, window_end) AS bucket_end,",
     "GREATEST(",
     s!"TIMESTAMP_DIFF(LEAST({add_expr}, window_end), bucket_start, SECOND),",
     "0",
     ") AS bucket_seconds,",
     "GREATEST(",
     "TIMESTAMP_DIFF(",
     s!"LEAST({add_expr}, window_end),",
     "GREATEST(bucket_start, window_start),",
     "SECOND",
     "),",
     "0",
     ") AS window_seconds",
     s!"FROM {WINDOW_BOUNDS_CTE},",
     "UNNEST(",
     "GENERATE_TIMESTAMP_ARRAY(",
     "aligned_start,",
     "window_end,",
     s!"{interval_expr}",
     ")",
     ") AS bucket_start",
     "WHERE bucket_start < window_end",
     ")"])

/-- `compiler.SpecCompiler._render_occupancy`. -/
def render_occupancy (measure : Json) (bucket : String) (params : List (String × Json)) :
    Except EngineError (MeasureCompilation × List (String × Json)) := do
  if bucket = "RAW" then
    .error (.validationError "occupancy_recursion requires bucketed time series")
  let measure_id ← match jGet measure "id" with
    | some (.str s) => .ok s
    | some _ => .error .typeError
    | none => .error (.keyError "id")
  let pfx := s!"{measure_id}_occupancy"
  let ordered := String.intercalate "\n"
    [s!"{pfx}_ordered AS (",
     "SELECT",
     "timestamp,",
     "event_index,",
     "site_id,",
     "cam_id,",
     "event_type,",
     "IF(event_type = 1, 1, -1) AS delta,",
     "SUM(IF(event_type = 1, 1, -1)) OVER (",
     "PARTITION BY site_id, cam_id",
     "ORDER BY timestamp, event_index",
     ") AS running_total",
     "FROM scoped",
     ")"]
  let clamped := String.intercalate "\n"
    [s!"{pfx}_clamped AS (",
     "SELECT",
     "*,",
     "GREATEST(running_total, 0) AS occupancy,",
     "running_total < 0 AS seeded_by_exit",
     s!"FROM {pfx}_ordered",
     ")"]
  let bucket_bounds := String.intercalate "\n"
    [s!"{pfx}_bucket_bounds AS (",
     "SELECT",
     "bucket_start,",
     "bucket_end,",
     "bucket_seconds,",
     "window_seconds",
     "FROM calendar",
     ")"]
  let occupancy_buckets := String.intercalate "\n"
    [s!"{pfx}_buckets AS (",
     "SELECT",
     "bounds.bucket_start,",
     "bounds.bucket_end,",
     "bounds.bucket_seconds,",
     "bounds.window_seconds,",
     "COUNT(clamped.timestamp) AS event_count,",
     "LOGICAL_OR(clamped.seeded_by_exit) AS seeded_by_exit,",
     "ANY_VALUE(clamped.occupancy ORDER BY clamped.timestamp DESC, clamped.event_index DESC) AS occupancy_end",
     s!"FROM {pfx}_bucket_bounds AS bounds",
     s!"LEFT JOIN {pfx}_clamped AS clamped",
     "ON clamped.timestamp >= bounds.bucket_start",
     "AND clamped.timestamp < bounds.bucket_end",
     "GROUP BY bounds.bucket_start, bounds.bucket_end, bounds.bucket_seconds, bounds.window_seconds",
     "ORDER BY bounds.bucket_start",
     ")"]
  let occupancy_filled := String.intercalate "\n"
    [s!"{pfx}_filled AS (",
     "SELECT",
     "bucket_start,",
     "bucket_seconds,",
     "window_seconds,",
     "event_count,",
     "seeded_by_exit,",
     "COALESCE(",
     "occupancy_end,",
     "LAST_VALUE(occupancy_end IGNORE NULLS) OVER (",
     "ORDER BY bucket_start",
     "ROWS BETWEEN UNBOUNDED PRECEDING AND CURRENT ROW",
     "),",
     "0",
     ") AS value,",
     "occupancy_end IS NOT NULL AS has_events",
     s!"FROM {pfx}_buckets",
     ")"]
  let series := String.intercalate "\n"
    [s!"{pfx}_series AS (",
     "SELECT",
     "bucket_start,",
     "value,",
     "CASE",
     "WHEN bucket_seconds = 0 THEN 0.0",
     "WHEN NOT has_events THEN 0.0",
     "WHEN seeded_by_exit THEN LEAST(0.5, SAFE_DIVIDE(window_seconds, bucket_seconds))",
     "ELSE SAFE_DIVIDE(window_seconds, bucket_seconds)",
     "END AS coverage,",
     "event_count AS raw_count",
     s!"FROM {pfx}_filled",
     ")"]
  let select_sql :=
    s!"SELECT {sq}{measure_id}{sq} AS measure_id, bucket_start, value, coverage, raw_count FROM {pfx}_series"
  .ok (⟨[ordered, clamped, bucket_bounds, occupancy_buckets, occupancy_filled, series], select_sql⟩,
    params)

/-- `compiler.SpecCompiler._activity_counts_cte`. -/
def activity_counts_cte (measure : Json) (params : List (String × Json)) :
    Except EngineError (String × String × List (String × Json)) := do
  let measure_id ← match jGet measure "id" with
    | some (.str s) => .ok s
    | some _ => .error .typeError
    | none => .error (.keyError "id")
  let pfx := s!"{measure_id}_activity_counts"
  let event_types := (pyGet measure "eventTypes").getD .null
  let (filter_sql, params) :=
    if truthy event_types then
      let param_name := s!"{measure_id}_event_types"
      (s!" AND scoped.event_type IN UNNEST(@{param_name})",
       dictInsert params param_name event_types)
    else ("", params)
  let counts_cte := String.intercalate "\n"
    [s!"{pfx} AS (",
     "SELECT",
     "calendar.bucket_start,",
     "calendar.bucket_seconds,",
     "calendar.window_seconds,",
     "COUNT(scoped.timestamp) AS event_count",
     "FROM calendar",
     "LEFT JOIN scoped",
     "ON scoped.timestamp >= calendar.bucket_start",
     s!"AND scoped.timestamp < calendar.bucket_end{filter_sql}",
     "GROUP BY calendar.bucket_start, calendar.bucket_seconds, calendar.window_seconds",
     "ORDER BY calendar.bucket_start",
     ")"]
  .ok (pfx, counts_cte, params)

/-- `compiler.SpecCompiler._render_activity`. -/
def render_activity (measure : Json) (bucket : String) (params : List (String × Json)) :
    Except EngineError (MeasureCompilation × List (String × Json)) := do
  if bucket = "RAW" then
    .error (.validationError "count requires bucketed time series")
  let measure_id ← match jGet measure "id" with
    | some (.str s) => .ok s
    | some _ => .error .typeError
    | none => .error (.keyError "id")
  let (counts_cte_name, counts_cte_sql, params) ← activity_counts_cte measure params
  let series := String.intercalate "\n"
    [s!"{measure_id}_activity_series AS (",
     "SELECT",
     "bucket_start,",
     "event_count AS value,",
     "CASE",
     "WHEN bucket_seconds = 0 THEN 0.0",
     "WHEN event_count = 0 THEN 0.0",
     "ELSE SAFE_DIVIDE(window_seconds, bucket_seconds)",
     "END AS coverage,",
     "event_count AS raw_count",
     s!"FROM {counts_cte_name}",
     ")"]
  let select_sql :=
    s!"SELECT {sq}{measure_id}{sq} AS measure_id, bucket_start, value, coverage, raw_count FROM {measure_id}_activity_series"
  .ok (⟨[counts_cte_sql, series], select_sql⟩, params)

/-- `compiler.SpecCompiler._render_activity_rate`. -/
def render_activity_rate (measure : Json) (bucket : String) (params : List (String × Json)) :
    Except EngineError (MeasureCompilation × List (String × Json)) := do
  if bucket = "RAW" then
    .error (.validationError "activity_rate requires bucketed time series")
  let measure_id ← match jGet measure "id" with
    | some (.str s) => .ok s
    | some _ => .error .typeError
    | none => .error (.keyError "id")
  let (counts_cte_name, counts_cte_sql, params) ← activity_counts_cte measure params
  let series := String.intercalate "\n"
    [s!"{measure_id}_activity_rate_series AS (",
     "SELECT",
     "bucket_start,",
     "CASE",
     "WHEN window_seconds = 0 THEN NULL",
     "ELSE SAFE_DIVIDE(event_count * 60.0, window_seconds)",
     "END AS value,",
     "CASE",
     "WHEN bucket_seconds = 0 THEN 0.0",
     "WHEN event_count = 0 THEN 0.0",
     "ELSE SAFE_DIVIDE(window_seconds, bucket_seconds)",
     "END AS coverage,",
     "event_count AS raw_count",
     s!"FROM {counts_cte_name}",
     ")"]
  let select_sql :=
    s!"SELECT {sq}{measure_id}{sq} AS measure_id, bucket_start, value, coverage, raw_count FROM {measure_id}_activity_rate_series"
  .ok (⟨[counts_cte_sql, series], select_sql⟩, params)

/-- `compiler.SpecCompiler._render_dwell`. -/
def render_dwell (measure : Json) (bucket : String) (params : List (String × Json)) :
    Except EngineError (MeasureCompilation × List (String × Json)) := do
  if bucket = "RAW" then
    .error (.validationError "dwell metrics require bucketed time series")
  let aggregation ← match jGet measure "aggregation" with
    | some (.str s) => .ok s
    | some _ => .error .typeError
    | none => .error (.keyError "aggregation")
  let measure_id ← match jGet measure "id" with
    | some (.str s) => .ok s
    | some _ => .error .typeError
    | none => .error (.keyError "id")
  let pfx := s!"{measure_id}_dwell"
  let entrances := String.intercalate "\n"
    [s!"{pfx}_entrances AS (",
     "SELECT",
     "site_id,",
     "cam_id,",
     "track_no,",
     "timestamp AS entrance_ts,",
     "ROW_NUMBER() OVER (",
     "PARTITION BY site_id, cam_id, track_no",
     "ORDER BY timestamp, index",
     ") AS rn",
     "FROM scoped",
     "WHERE event_type = 1",
     ")"]
  let exits := String.intercalate "\n"
    [s!"{pfx}_exits AS (",
     "SELECT",
     "site_id,",
     "cam_id,",
     "track_no,",
     "timestamp AS exit_ts,",
     "ROW_NUMBER() OVER (",
     "PARTITION BY site_id, cam_id, track_no",
     "ORDER BY timestamp, index",
     ") AS rn",
     "FROM scoped",
     "WHERE event_type = 0",
     ")"]
  let sessions := String.intercalate "\n"
    [s!"{pfx}_sessions AS (",
     "SELECT",
     "e.site_id,",
     "e.cam_id,",
     "e.track_no,",
     "e.entrance_ts,",
     "x.exit_ts,",
     "TIMESTAMP_DIFF(x.exit_ts, e.entrance_ts, SECOND) / 60.0 AS dwell_minutes",
     s!"FROM {pfx}_entrances AS e",
     s!"LEFT JOIN {pfx}_exits AS x",
     "ON e.site_id = x.site_id",
     "AND e.cam_id = x.cam_id",
     "AND e.track_no = x.track_no",
     "AND e.rn = x.rn",
     "WHERE x.exit_ts IS NOT NULL",
     "AND TIMESTAMP_DIFF(x.exit_ts, e.entrance_ts, MINUTE) BETWEEN 0 AND 360",
     ")"]
  let bucketed := String.intercalate "\n"
    [s!"{pfx}_bucketed AS (",
     "SELECT",
     "calendar.bucket_start,",
     "calendar.bucket_seconds,",
     "calendar.window_seconds,",
     "COUNT(sessions.dwell_minutes) AS session_count,",
     "AVG(sessions.dwell_minutes) AS dwell_mean,",
     "APPROX_QUANTILES(sessions.dwell_minutes, 101)[OFFSET(90)] AS dwell_p90",
     "FROM calendar",
     s!"LEFT JOIN {pfx}_sessions AS sessions",
     "ON sessions.entrance_ts >= calendar.bucket_start",
     "AND sessions.entrance_ts < calendar.bucket_end",
     "GROUP BY calendar.bucket_start, calendar.bucket_seconds, calendar.window_seconds",
     "ORDER BY calendar.bucket_start",
     ")"]
  let value_column :=
    if aggregation = "dwell_mean" then "dwell_mean"
    else if aggregation = "dwell_p90" then "dwell_p90"
    else "session_count"
  let value_expression :=
    if aggregation = "dwell_mean" ∨ aggregation = "dwell_p90" then
      s!"CASE WHEN session_count = 0 THEN NULL ELSE {value_column} END"
    else "session_count"
  let series := String.intercalate "\n"
    [s!"{pfx}_series AS (",
     "SELECT",
     "bucket_start,",
     s!"{value_expression} AS value,",
     "CASE",
     "WHEN bucket_seconds = 0 THEN 0.0",
     "WHEN session_count = 0 THEN 0.0",
     "ELSE SAFE_DIVIDE(window_seconds, bucket_seconds)",
     "END AS coverage,",
     "session_count AS raw_count",
     s!"FROM {pfx}_bucketed",
     ")"]
  let select_sql :=
    s!"SELECT {sq}{measure_id}{sq} AS measure_id, bucket_start, value, coverage, raw_count FROM {pfx}_series"
  .ok (⟨[entrances, exits, sessions, bucketed, series], select_sql⟩, params)

/-- `compiler.SpecCompiler._render_retention_calendar`. -/
def render_retention_calendar (bucket : String) : Except EngineError String := do
  let trunc_expr ←
    if bucket = "WEEK" then .ok "TIMESTAMP_TRUNC(@start_ts, WEEK(MONDAY))"
    else if bucket = "MONTH" then .ok "TIMESTAMP_TRUNC(@start_ts, MONTH)"
    else .error (.validationError s!"Unsupported retention bucket: {bucket}")
  let interval_expr ← bucket_interval_expression bucket
  let max_lag_expr ← retention_max_lag_expr bucket
  .ok (String.intercalate "\n"
    ["retention_calendar AS (",
     s!"WITH {RETENTION_WINDOW_CTE} AS (",
     "SELECT",
     s!"{trunc_expr} AS aligned_start,",
     "@end_ts AS window_end,",
     s!"{max_lag_expr} AS max_lag",
     ")",
     "SELECT",
     "cohort_start AS bucket_start,",
     "lag_index AS lag_weeks",
     s!"FROM {RETENTION_WINDOW_CTE},",
     "UNNEST(",
     "GENERATE_TIMESTAMP_ARRAY(",
     "aligned_start,",
     "window_end,",
     s!"{interval_expr}",
     ")",
     ") AS cohort_start,",
     "UNNEST(GENERATE_ARRAY(0, GREATEST(max_lag, 0))) AS lag_index",
     "WHERE cohort_start < window_end",
     ")"])

/-- `compiler.SpecCompiler._render_retention`. -/
def render_retention (measure : Json) (bucket : String) (params : List (String × Json)) :
    Except EngineError (MeasureCompilation × List (String × Json)) := do
  let measure_id ← match jGet measure "id" with
    | some (.str s) => .ok s
    | some _ => .error .typeError
    | none => .error (.keyError "id")
  let pfx := s!"{measure_id}_retention"
  let cohort_trunc ← retention_cohort_trunc bucket
  let lag_expression ← retention_lag_expression bucket
  let entrances := String.intercalate "\n"
    [s!"{pfx}_entrances AS (",
     "SELECT",
     "site_id,",
     "track_no,",
     "timestamp,",
     "LAG(timestamp) OVER (",
     "PARTITION BY site_id, track_no",
     "ORDER BY timestamp, index",
     ") AS prev_timestamp",
     "FROM scoped",
     "WHERE event_type = 1",
     ")"]
  let visits := String.intercalate "\n"
    [s!"{pfx}_visits AS (",
     "SELECT",
     "site_id,",
     "track_no,",
     "timestamp AS visit_ts,",
     s!"{cohort_trunc} AS cohort_week",
     s!"FROM {pfx}_entrances",
     "WHERE prev_timestamp IS NULL",
     "OR TIMESTAMP_DIFF(timestamp, prev_timestamp, MINUTE) >= 30",
     ")"]
  let cohort_sizes := String.intercalate "\n"
    [s!"{pfx}_cohort_sizes AS (",
     "SELECT",
     "cohort_week,",
     "COUNT(DISTINCT track_no) AS cohort_size",
     s!"FROM {pfx}_visits",
     "GROUP BY cohort_week",
     ")"]
  let returns := String.intercalate "\n"
    [s!"{pfx}_returns AS (",
     "SELECT",
     "first.cohort_week,",
     s!"{lag_expression} AS lag_weeks,",
     "later.track_no",
     s!"FROM {pfx}_visits AS first",
     s!"JOIN {pfx}_visits AS later",
     "ON first.site_id = later.site_id",
     "AND first.track_no = later.track_no",
     "AND later.visit_ts >= first.visit_ts",
     ")"]
  let counts := String.intercalate "\n"
    [s!"{pfx}_counts AS (",
     "SELECT",
     "cohort_week,",
     "lag_weeks,",
     "COUNT(DISTINCT track_no) AS returning",
     s!"FROM {pfx}_returns",
     "WHERE lag_weeks BETWEEN 0 AND 52",
     "GROUP BY cohort_week, lag_weeks",
     ")"]
  let matrix := String.intercalate "\n"
    [s!"{pfx}_matrix AS (",
     "SELECT",
     "calendar.bucket_start,",
     "calendar.lag_weeks,",
     "IFNULL(counts.returning, 0) AS returning,",
     "IFNULL(sizes.cohort_size, 0) AS cohort_size",
     "FROM retention_calendar AS calendar",
     s!"LEFT JOIN {pfx}_counts AS counts",
     "ON counts.cohort_week = calendar.bucket_start",
     "AND counts.lag_weeks = calendar.lag_weeks",
     s!"LEFT JOIN {pfx}_cohort_sizes AS sizes",
     "ON sizes.cohort_week = calendar.bucket_start",
     ")"]
  let series := String.intercalate "\n"
    [s!"{pfx}_series AS (",
     "SELECT",
     "bucket_start,",
     "lag_weeks,",
     "CASE",
     "WHEN cohort_size = 0 THEN NULL",
     "ELSE SAFE_DIVIDE(returning, cohort_size)",
     "END AS value,",
     "CASE",
     "WHEN cohort_size = 0 THEN 0.0",
     s!"ELSE LEAST(SAFE_DIVIDE(cohort_size, {natStr RETENTION_MIN_COHORT}), 1.0)",
     "END AS coverage,",
     "returning AS raw_count",
     s!"FROM {pfx}_matrix",
     ")"]
  let select_sql :=
    s!"SELECT {sq}{measure_id}{sq} AS measure_id, bucket_start, lag_weeks, value, coverage, raw_count FROM {pfx}_series"
  .ok (⟨[entrances, visits, cohort_sizes, returns, counts, matrix, series], select_sql⟩, params)

/-- `compiler.SpecCompiler._assemble_sql` (whitespace already normal, so
the final line-by-line cleanup is the identity here). -/
def assemble_sql (base_ctes : List String) (measure_ctes : List String)
    (select_statements : List String) (order_by : String) : String :=
  let union_selects := String.intercalate "\nUNION ALL\n" select_statements
  let final_cte := "final AS (\n" ++ union_selects ++ "\n)"
  let cte_block := String.intercalate ",\n" (base_ctes ++ measure_ctes ++ [final_cte])
  "WITH\n" ++ cte_block ++ "\nSELECT *\nFROM final\nORDER BY " ++ order_by

/-- The measure loop shared by both compile paths: dispatch each measure to
its renderer, register the CTE fragments by name (first insertion wins the
position, assignment replaces the value) and collect the per-measure
selects. -/
def measureLoop (measures : List Json) (bucket : String)
    (dispatch : String → Option (Json → String → List (String × Json) →
      Except EngineError (MeasureCompilation × List (String × Json))))
    (params : List (String × Json)) :
    Except EngineError (List (String × String) × List String × List (String × Json)) :=
  measures.foldlM
    (fun (acc : List (String × String) × List String × List (String × Json)) measure => do
      let (cte_registry, select_statements, params) := acc
      let aggregation ← match jGet measure "aggregation" with
        | some a => .ok a
        | none => .error (.keyError "aggregation")
      let renderer ← match aggregation with
        | .str s =>
          match dispatch s with
          | some r => .ok r
          | none => .error (.unsupportedMeasure s)
        | other => .error (.unsupportedMeasure (pyStr other))
      let (compilation, params) ← renderer measure bucket params
      let cte_registry := compilation.ctes.foldl
        (fun registry fragment => dictInsert registry (cteName fragment) fragment) cte_registry
      .ok (cte_registry, select_statements ++ [compilation.select_sql], params))
    ([], [], params)

/-- `self._time_series_measures` dispatch table. -/
def time_series_measures (aggregation : String) :
    Option (Json → String → List (String × Json) →
      Except EngineError (MeasureCompilation × List (String × Json))) :=
  if aggregation = "occupancy_recursion" then some render_occupancy
  else if aggregation = "count" then some render_activity
  else if aggregation = "activity_rate" then some render_activity_rate
  else if aggregation = "dwell_mean" then some render_dwell
  else if aggregation = "dwell_p90" then some render_dwell
  else if aggregation = "sessions" then some render_dwell
  else none

/-- `self._retention_measures` dispatch table. -/
def retention_measures (aggregation : String) :
    Option (Json → String → List (String × Json) →
      Except EngineError (MeasureCompilation × List (String × Json))) :=
  if aggregation = "retention_rate" then some render_retention
  else none

/-- One entry of the measure-map comprehension: read `id` and
`aggregation` (both must be strings) and assign into the dictionary. -/
def measureMapStep (acc : List (String × String)) (measure : Json) :
    Except EngineError (List (String × String)) := do
  let mid ← match jGet measure "id" with
    | some (.str s) => .ok s
    | some _ => .error .typeError
    | none => .error (.keyError "id")
  let agg ← match jGet measure "aggregation" with
    | some (.str s) => .ok s
    | some _ => .error .typeError
    | none => .error (.keyError "aggregation")
  .ok (dictInsert acc mid agg)

/-- `{measure["id"]: measure["aggregation"] for measure in measures}`. -/
def measure_map (measures : List Json) :
    Except EngineError (List (String × String)) :=
  measures.foldlM measureMapStep []

/-- `compiler.SpecCompiler._compile_retention_chart`. -/
def compile_retention_chart (spec : Json) (context : CompilerContext) :
    Except EngineError CompiledQuery := do
  let time_window ← match jGet spec "timeWindow" with
    | some tw => .ok tw
    | none => .error (.keyError "timeWindow")
  match time_window with
  | .obj _ => .ok ()
  | _ => .error .typeError
  let bucket ← match (jGet time_window "bucket").getD (.str "WEEK") with
    | .str b =>
      if b = "WEEK" ∨ b = "MONTH" then .ok b
      else .error (.validationError "Retention charts require WEEK or MONTH bucket")
    | _ => .error (.validationError "Retention charts require WEEK or MONTH bucket")
  let start_ts ← match jGet time_window "from" with
    | some v => .ok v
    | none => .error (.keyError "from")
  let end_ts ← match jGet time_window "to" with
    | some v => .ok v
    | none => .error (.keyError "to")
  let params := dictInsert (dictInsert [] "start_ts" start_ts) "end_ts" end_ts
  let (filters_sql, params) ← build_filters ((jGet spec "filters").getD (.arr [])) params
  let measures ← match jGet spec "measures" with
    | some (.arr ms) => .ok ms
    | some _ => .error .typeError
    | none => .error (.keyError "measures")
  let retention_calendar ← render_retention_calendar bucket
  let base_ctes := [render_scoped context.table_name filters_sql, retention_calendar]
  let (cte_registry, select_statements, params) ←
    measureLoop measures bucket retention_measures params
  let sql := assemble_sql base_ctes (cte_registry.map Prod.snd) select_statements
    "bucket_start, lag_weeks, measure_id"
  let mm ← measure_map measures
  .ok ⟨sql, params, mm, bucket⟩

/-- `compiler.SpecCompiler.compile`. -/
def compile (spec : Json) (context : CompilerContext) : Except EngineError CompiledQuery := do
  validate_chart_spec spec
  let chart_type ← match jGet spec "chartType" with
    | some ct => .ok ct
    | none => .error (.keyError "chartType")
  let supported := ["composed_time", "categorical", "single_value", "heatmap", "retention"]
  let chartStr ← match chart_type with
    | .str s =>
      if supported.contains s then .ok s
      else .error (.unsupportedChart s!"Unsupported chart type: {s}")
    | other => .error (.unsupportedChart s!"Unsupported chart type: {pyStr other}")
  if chartStr = "heatmap" ∨ chartStr = "retention" then
    compile_retention_chart spec context
  else do
    let time_window ← match jGet spec "timeWindow" with
      | some tw => .ok tw
      | none => .error (.keyError "timeWindow")
    match time_window with
    | .obj _ => .ok ()
    | _ => .error .typeError
    let bucket ← match (jGet time_window "bucket").getD (.str "RAW") with
      | .str b =>
        if bucketKnown b then .ok b
        else .error (.validationError s!"Unsupported bucket value: {b}")
      | other => .error (.validationError s!"Unsupported bucket value: {pyStr other}")
    let start_ts ← match jGet time_window "from" with
      | some v => .ok v
      | none => .error (.keyError "from")
    let end_ts ← match jGet time_window "to" with
      | some v => .ok v
      | none => .error (.keyError "to")
    let params := dictInsert (dictInsert [] "start_ts" start_ts) "end_ts" end_ts
    let (filters_sql, params) ← build_filters ((jGet spec "filters").getD (.arr [])) params
    let measures ← match jGet spec "measures" with
      | some (.arr ms) => .ok ms
      | some _ => .error .typeError
      | none => .error (.keyError "measures")
    let scopedCte := render_scoped context.table_name filters_sql
    let base_ctes ←
      if bucket ≠ "RAW" then do
        let calendar ← render_calendar bucket
        .ok [scopedCte, calendar]
      else .ok [scopedCte]
    let (cte_registry, select_statements, params) ←
      measureLoop measures bucket time_series_measures params
    let sql := assemble_sql base_ctes (cte_registry.map Prod.snd) select_statements
      "bucket_start, measure_id"
    let mm ← measure_map measures
    .ok ⟨sql, params, mm, bucket⟩

end Compiler

/-! ## `engine.py` — execution, normalisation, surge detection

`pandas` frames are lists of typed rows.  Timestamps are carried as their
ISO-8601 UTC rendering, so `_to_iso` is the identity on this
representation.  Floats are modelled exactly over `ℚ`; the one square root
in `_detect_surges` is expressed through an equivalent decidable test (see
`surgeTest`), proved below to coincide with the `Real.sqrt` formulation. -/

namespace Engine

open Json Compiler

/-- One record of the executed frame (`Frame` columns per the §4.8
contract: `measure_id`, `bucket_start`, `value`, `coverage`, `raw_count`,
plus `lag_weeks` for heatmap/retention). -/
structure Row where
  measure_id : String
  bucket_start : String
  value : Option ℚ
  coverage : Option ℚ
  raw_count : Option Int
  lag_weeks : Option Int := none
deriving DecidableEq, Repr

/-- The executed frame, as its list of records. -/
abbrev Frame := List Row

/-- A time-series point of the normalised result. -/
structure Point where
  x : String
  y : Option ℚ
  coverage : Option ℚ
  rawCount : Option Int
deriving DecidableEq, Repr

/-- A heatmap cell of the normalised result (carries `group` and `value`
instead of `y`). -/
structure HeatPoint where
  x : String
  group : String
  value : Option ℚ
  coverage : Option ℚ
  rawCount : Option Int
deriving DecidableEq, Repr

/-- Series data: time-series points or heatmap cells. -/
inductive SeriesData where
  | time (points : List Point)
  | heat (points : List HeatPoint)
deriving DecidableEq, Repr

/-- One output series (`axis` is `none` where the dictionary omits the key
or stores `None` — Python's `.get` cannot tell these apart). -/
structure Series where
  id : String
  label : String
  geometry : String
  axis : Option String
  unit : Option String
  data : SeriesData
deriving DecidableEq, Repr

/-- One surge annotation (`{"measure": ..., "x": ..., "value": ...}`). -/
structure Surge where
  measure : String
  x : String
  value : ℚ
deriving DecidableEq, Repr

/-- One per-bucket coverage entry of `meta.coverage`. -/
structure CoverageEntry where
  x : String
  value : ℚ
deriving DecidableEq, Repr

/-- The `xDimension` section (fields copied verbatim from the spec stay
`Json`). -/
structure XDimension where
  id : Json
  type : String
  bucket : Json
  timezone : Json
deriving Repr

/-- The `meta.summary` section. -/
structure Summary where
  points : Nat
  measures : List String
deriving DecidableEq, Repr

/-- The `meta` section. -/
structure Meta where
  timezone : Json
  coverage : List CoverageEntry
  surges : List Surge
  summary : Summary
deriving Repr

/-- The normalised ChartResult. -/
structure ChartResult where
  chartType : String
  xDimension : XDimension
  series : List Series
  meta : Meta
deriving Repr

/-- `engine._GEOMETRY_MAP`. -/
def GEOMETRY_MAP (aggregation : String) : Option String :=
  if aggregation = "occupancy_recursion" then some "area"
  else if aggregation = "count" then some "column"
  else if aggregation = "activity_rate" then some "line"
  else if aggregation = "dwell_mean" then some "line"
  else if aggregation = "dwell_p90" then some "line"
  else if aggregation = "sessions" then some "column"
  else if aggregation = "retention_rate" then some "heatmap"
  else none

/-- `engine._AXIS_MAP`. -/
def AXIS_MAP (aggregation : String) : Option String :=
  if aggregation = "occupancy_recursion" then some "Y1"
  else if aggregation = "count" then some "Y2"
  else if aggregation = "activity_rate" then some "Y2"
  else if aggregation = "dwell_mean" then some "Y1"
  else if aggregation = "dwell_p90" then some "Y1"
  else if aggregation = "sessions" then some "Y2"
  else none

/-- `engine._UNIT_MAP`. -/
def UNIT_MAP (aggregation : String) : Option String :=
  if aggregation = "occupancy_recursion" then some "people"
  else if aggregation = "count" then some "events"
  else if aggregation = "activity_rate" then some "events/min"
  else if aggregation = "dwell_mean" then some "minutes"
  else if aggregation = "dwell_p90" then some "minutes"
  else if aggregation = "sessions" then some "sessions"
  else if aggregation = "retention_rate" then some "rate"
  else none

/-- `str.title` on the ASCII identifiers the engine labels with: uppercase
the first letter of every alphabetic run, lowercase the rest. -/
def titleCaseGo : Bool → List Char → List Char
  | _, [] => []
  | prevAlpha, c :: cs =>
    let isAl := c.isAlpha
    (if isAl then (if prevAlpha then c.toLower else c.toUpper) else c) :: titleCaseGo isAl cs

/-- `s.title()`. -/
def titleCase (s : String) : String := ⟨titleCaseGo false s.data⟩

/-- `s.replace("_", " ")`. -/
def underscoresToSpaces (s : String) : String :=
  ⟨s.data.map fun c => if c = '_' then ' ' else c⟩

/-- `engine._label_for_series`. -/
def label_for_series (measure_id aggregation : String) : String :=
  if measure_id ≠ "" then titleCase (underscoresToSpaces measure_id)
  else titleCase (underscoresToSpaces aggregation)

/-- `engine._to_iso`: timestamps are already carried as their ISO-8601 UTC
rendering (trailing `Z`), on which the conversion is the identity. -/
def to_iso (value : String) : String := value

/-- `mean = sum(values) / len(values)` in `_detect_surges`. -/
def meanOf (values : List ℚ) : ℚ := values.sum / values.length

/-- `variance = sum((value - mean) ** 2 for value in values) / len(values)`
in `_detect_surges`. -/
def varianceOf (values : List ℚ) : ℚ :=
  ((values.map fun v => (v - meanOf values) ^ 2).sum) / values.length

/-- The threshold comparison of `_detect_surges`, decided exactly over `ℚ`:
when the variance is zero the standard deviation is zero and the code
compares against `mean * 1.1`; otherwise `v ≥ mean + √variance` holds
exactly when `v ≥ mean` and `(v - mean)² ≥ variance` (proved as
`surgeTest_iff_sqrt` below). -/
def surgeTest (mean variance v : ℚ) : Bool :=
  if variance = 0 then decide (v ≥ 11 / 10 * mean)
  else decide (mean ≤ v ∧ variance ≤ (v - mean) ^ 2)

/-- `engine._detect_surges`. -/
def detect_surges (measure_id : String) (points : List Point) : List Surge :=
  let values := points.filterMap Point.y
  if values.length < 2 then []
  else
    points.filterMap fun point =>
      match point.y with
      | none => none
      | some v =>
        if surgeTest (meanOf values) (varianceOf values) v then
          some ⟨measure_id, point.x, v⟩
        else none

/-- The surge criterion exactly as §4.9 words it, over the real numbers:
with `mean` and `stddev = √variance` of the non-null `y` values, the point
value `v` satisfies `v ≥ mean + stddev`, or `v ≥ 1.1·mean` when
`stddev = 0`. -/
def SurgeThresholdMet (values : List ℚ) (v : ℚ) : Prop :=
  (Real.sqrt (varianceOf values) = 0 ∧ (v : ℝ) ≥ 11 / 10 * (meanOf values : ℝ)) ∨
  (Real.sqrt (varianceOf values) ≠ 0 ∧
    (v : ℝ) ≥ (meanOf values : ℝ) + Real.sqrt (varianceOf values))

/-- Insert a string into an ascending list (`strLe` order — codepoint
order, as pandas sorts group keys). -/
def insertSorted (x : String) : List String → List String
  | [] => [x]
  | y :: ys => if Hashing.strLe x y then x :: y :: ys else y :: insertSorted x ys

/-- Ascending sort of strings. -/
def sortStrings (l : List String) : List String := l.foldr insertSorted []

/-- Remove adjacent duplicates of a sorted list (the distinct group keys).
-/
def dedupSorted : List String → List String
  | [] => []
  | [x] => [x]
  | x :: y :: rest =>
    if x = y then dedupSorted (y :: rest) else x :: dedupSorted (y :: rest)

/-- Non-null coverage values of the rows in one `bucket_start` group. -/
def groupCoverages (frame : Frame) (key : String) : List ℚ :=
  frame.filterMap fun r => if r.bucket_start = key then r.coverage else none

/-- Mean of a group's coverage values (pandas `mean` skips nulls; a group
with only nulls — `NaN` in pandas — is modelled as 0, a case no claim
touches). -/
def meanQ (l : List ℚ) : ℚ :=
  if l.isEmpty then 0 else l.sum / l.length

/-- `frame.groupby("bucket_start")["coverage"].mean()` reshaped to
`[{"x": ..., "value": ...}]` — group keys ascending, one entry per distinct
`bucket_start`. -/
def coverage_meta (frame : Frame) : List CoverageEntry :=
  match frame with
  | [] => []
  | _ =>
    (dedupSorted (sortStrings (frame.map Row.bucket_start))).map fun key =>
      ⟨to_iso key, meanQ (groupCoverages frame key)⟩

/-- The data points built for one measure id: the frame rows of that
measure, in frame order. -/
def measurePoints (frame : Frame) (measure_id : String) : List Point :=
  (frame.filter fun r => r.measure_id = measure_id).map fun record =>
    Point.mk (to_iso record.bucket_start) record.value record.coverage record.raw_count

/-- One iteration of the series loop of `_normalise_time_series`: append
the series for one `(measure_id, aggregation)` pair and its surges. -/
def seriesStep (frame : Frame) (acc : List Series × List Surge) (m : String × String) :
    List Series × List Surge :=
  let measure_id := m.1
  let aggregation := m.2
  let data_points := measurePoints frame measure_id
  (acc.1 ++ [⟨measure_id, label_for_series measure_id aggregation,
      (GEOMETRY_MAP aggregation).getD "line", AXIS_MAP aggregation,
      UNIT_MAP aggregation, .time data_points⟩],
   acc.2 ++ detect_surges measure_id data_points)

/-- `AnalyticsEngine._normalise_time_series`. -/
def normalise_time_series (spec : Json) (compiled : CompiledQuery) (frame : Frame) :
    Except EngineError ChartResult := do
  let tw ← match jGet spec "timeWindow" with
    | some t => .ok t
    | none => .error (.keyError "timeWindow")
  match tw with
  | .obj _ => .ok ()
  | _ => .error .typeError
  let timezone := (jGet tw "timezone").getD (.str "UTC")
  let folded := compiled.measures.foldl (seriesStep frame) ([], [])
  let series := folded.1
  let surges := folded.2
  let dimension ← match jGet spec "dimensions" with
    | some (.arr (d :: _)) => .ok d
    | some (.arr []) => .error .typeError
    | some _ => .error .typeError
    | none => .error (.keyError "dimensions")
  match dimension with
  | .obj _ => .ok ()
  | _ => .error .typeError
  let dim_id ← match jGet dimension "id" with
    | some v => .ok v
    | none => .error (.keyError "id")
  let xtype ←
    if truthy ((pyGet dimension "bucket").getD .null) then .ok "time"
    else match jGet dimension "column" with
      | some (.str "timestamp") => .ok "time"
      | some _ => .ok "category"
      | none => .error (.keyError "column")
  let xbucket :=
    match jGet dimension "bucket" with
    | some v => v
    | none => if compiled.bucket ≠ "RAW" then .str compiled.bucket else .null
  .ok ⟨"composed_time",
    ⟨dim_id, xtype, xbucket, timezone⟩,
    series,
    ⟨timezone, coverage_meta frame, surges, ⟨frame.length, compiled.measures.map Prod.fst⟩⟩⟩

/-- `str` rendering of an integer lag. -/
def intStr (n : Int) : String := ⟨Hashing.intChars n⟩

/-- One iteration of the series loop of `_normalise_heatmap`: append the
heat series for one `(measure_id, aggregation)` pair. -/
def heatStep (bucket : String) (frame : Frame) (series : List Series) (m : String × String) :
    List Series :=
  let measure_id := m.1
  let aggregation := m.2
  let subset := frame.filter fun r => r.measure_id = measure_id
  let data_points := subset.map fun record =>
    let lag_value := record.lag_weeks.getD 0
    let group_label :=
      if bucket = "MONTH" then s!"Month {intStr lag_value}"
      else s!"Week {intStr lag_value}"
    HeatPoint.mk (to_iso record.bucket_start) group_label record.value
      record.coverage record.raw_count
  series ++ [⟨measure_id, label_for_series measure_id aggregation,
    (GEOMETRY_MAP aggregation).getD "heatmap", none,
    UNIT_MAP aggregation, .heat data_points⟩]

/-- `AnalyticsEngine._normalise_heatmap`. -/
def normalise_heatmap (spec : Json) (compiled : CompiledQuery) (frame : Frame) :
    Except EngineError ChartResult := do
  let tw ← match jGet spec "timeWindow" with
    | some t => .ok t
    | none => .error (.keyError "timeWindow")
  match tw with
  | .obj _ => .ok ()
  | _ => .error .typeError
  let timezone := (jGet tw "timezone").getD (.str "UTC")
  let series := compiled.measures.foldl (heatStep compiled.bucket frame) []
  let dimension ← match jGet spec "dimensions" with
    | some (.arr (d :: _)) => .ok d
    | some (.arr []) => .error .typeError
    | some _ => .error .typeError
    | none => .error (.keyError "dimensions")
  match dimension with
  | .obj _ => .ok ()
  | _ => .error .typeError
  let dim_id ← match jGet dimension "id" with
    | some v => .ok v
    | none => .error (.keyError "id")
  let xbucket :=
    match jGet dimension "bucket" with
    | some v => v
    | none => if compiled.bucket ≠ "RAW" then .str compiled.bucket else .null
  .ok ⟨"heatmap",
    ⟨dim_id, "matrix", xbucket, timezone⟩,
    series,
    ⟨timezone, coverage_meta frame, [], ⟨frame.length, compiled.measures.map Prod.fst⟩⟩⟩

/-- `AnalyticsEngine._normalise` (raises `UnsupportedChartExecution` on any
other chart type). -/
def normalise (spec : Json) (compiled : CompiledQuery) (frame : Frame) :
    Except EngineError ChartResult := do
  let chart_type ← match jGet spec "chartType" with
    | some ct => .ok ct
    | none => .error (.keyError "chartType")
  match chart_type with
  | .str "composed_time" => normalise_time_series spec compiled frame
  | .str "heatmap" => normalise_heatmap spec compiled frame
  | .str "retention" => normalise_heatmap spec compiled frame
  | other => .error (.unsupportedChartExecution (pyStr other))

/-- `contracts._validate_series_data` on time-series points (the typed
model already fixes `x` as a string and `y`/`rawCount` as numbers, so only
the coverage bound can fail). -/
def validate_point (coverage : Option ℚ) : Except EngineError Unit :=
  match coverage with
  | none => .ok ()
  | some c => Contracts.ensure (decide (0 ≤ c ∧ c ≤ 1)) "coverage must be 0..1"

/-- `contracts.validate_chart_result` over the typed result (isinstance
checks on fields the model types as strings cannot fail and are omitted).
-/
def validate_chart_result (payload : ChartResult) : Except EngineError Unit := do
  Contracts.ensure (Contracts.CHART_TYPES.contains payload.chartType) "Invalid chart result type"
  Contracts.ensure
    (match payload.xDimension.id with | .str _ => true | _ => false) "xDimension id required"
  Contracts.ensure (["time", "category", "matrix", "index"].contains payload.xDimension.type)
    "Invalid xDimension type"
  match payload.xDimension.bucket with
  | .null => .ok ()
  | .str _ => .ok ()
  | _ => .error (.validationError "xDimension bucket must be string")
  Contracts.ensure (¬ payload.series.isEmpty) "Series required"
  payload.series.foldlM
    (fun _ series => do
      Contracts.ensure (Contracts.GEOMETRIES.contains series.geometry) "Invalid series geometry"
      match series.axis with
      | none => .ok ()
      | some axis => Contracts.ensure (Contracts.AXES.contains axis) "Invalid axis"
      match series.data with
      | .time points => points.foldlM (fun _ p => validate_point p.coverage) ()
      | .heat points => points.foldlM (fun _ p => validate_point p.coverage) ())
    ()
  Contracts.ensure
    (match payload.meta.timezone with | .str _ => true | _ => false) "Timezone must be string"
  .ok ()

end Engine

/-! ## `router.py` — tenant table routing -/

namespace Router

/-- Association-list lookup for the router mapping. -/
def lookupAssoc : List (String × String) → String → Option String
  | [], _ => none
  | (k, v) :: rest, key => if k = key then some v else lookupAssoc rest key

/-- `router.TableRouter.resolve`. -/
def resolve (mapping : List (String × String)) (organisation : String) :
    Except EngineError String :=
  match lookupAssoc mapping organisation with
  | none => .error (.unknownOrganisation organisation)
  | some table_name =>
    if (table_name.data.filter (· = '.')).length ≠ 2 then
      .error (.valueError "Table names must be fully-qualified in the form project.dataset.table")
    else .ok table_name

end Router

/-! ## `cache.py` + `AnalyticsEngine.execute`

The cache is its key → value mapping; TTL expiry runs on a monotonic
wall clock and is outside this model (no claim depends on expiry). -/

namespace Engine

open Json Compiler

/-- The cache contents (`SpecCache` over the in-process backend). -/
abbrev Cache := List (String × ChartResult)

/-- `SpecCache.get` via `LocalCacheBackend.get` (an unexpired entry). -/
def cacheGet : Cache → String → Option ChartResult
  | [], _ => none
  | (k, v) :: rest, key => if k = key then some v else cacheGet rest key

/-- `SpecCache.set`: atomically replace the entry under the key. -/
def cacheSet : Cache → String → ChartResult → Cache
  | [], key, value => [(key, value)]
  | (k, v) :: rest, key, value =>
    if k = key then (key, value) :: rest else (k, v) :: cacheSet rest key value

/-- `engine.AnalyticsEngine`: the router mapping plus the warehouse
capability (`query_dataframe(sql, params, job_context)`). -/
structure AnalyticsEngine where
  table_router : List (String × String)
  bigquery_client : String → List (String × Json) → Option Json →
    Except BigQueryDataFrameError Frame

/-- `engine.AnalyticsEngine.execute`.  Returns the outcome together with
the cache contents after the call (`cache_ttl` only parameterises expiry,
which is outside the model). -/
def execute (eng : AnalyticsEngine) (spec : Json) (organisation : String)
    (bypass_cache : Bool) (cache_ttl : Option Nat) (cache : Cache) :
    (Except EngineError ChartResult) × Cache :=
  match Router.resolve eng.table_router organisation with
  | .error e => (.error e, cache)
  | .ok table_name =>
    let cache_key := Hashing.build_cache_key spec table_name
    match (if bypass_cache then none else cacheGet cache cache_key) with
    | some cached => (.ok cached, cache)
    | none =>
      match Compiler.compile spec ⟨table_name, "UTC"⟩ with
      | .error e => (.error e, cache)
      | .ok compiled =>
        match eng.bigquery_client compiled.sql compiled.params (pyGet spec "id") with
        | .error e => (.error (.bigquery e), cache)
        | .ok frame =>
          match normalise spec compiled frame with
          | .error e => (.error e, cache)
          | .ok result =>
            match validate_chart_result result with
            | .error e => (.error e, cache)
            | .ok _ => (.ok result, cacheSet cache cache_key result)

end Engine

/-- Compile a spec and normalise a frame for it — the compile→normalise
slice of `AnalyticsEngine.execute`. -/
def compileAndNormalise (spec : Json) (context : Compiler.CompilerContext)
    (frame : Engine.Frame) : Except EngineError Engine.ChartResult :=
  (Compiler.compile spec context).bind fun compiled => Engine.normalise spec compiled frame

/-- The declared id of one measure entry, when it is a string. -/
def measureIdOf (m : Json) : Option String :=
  match Json.jGet m "id" with
  | some (.str s) => some s
  | _ => none

/-- The ids of the measures a spec declares, in declaration order. -/
def specMeasureIds (spec : Json) : List String :=
  match Json.jGet spec "measures" with
  | some (.arr measures) => measures.filterMap measureIdOf
  | _ => []

/-! ## Concrete inputs used by witnesses and counterexamples -/

namespace Examples

open Json

/-- The `chart_spec` fixture of `test_analytics_engine_phase2.py`. -/
def chartSpec : Json := .obj [
  ("id", .str "live-flow"),
  ("dataset", .str "events"),
  ("chartType", .str "composed_time"),
  ("measures", .arr [
    .obj [("id", .str "occupancy"), ("aggregation", .str "occupancy_recursion")],
    .obj [("id", .str "activity"), ("aggregation", .str "count")]]),
  ("dimensions", .arr [
    .obj [("id", .str "time"), ("column", .str "timestamp"), ("bucket", .str "HOUR")]]),
  ("timeWindow", .obj [
    ("from", .str "2024-01-01T00:00:00Z"),
    ("to", .str "2024-01-01T03:00:00Z"),
    ("bucket", .str "HOUR"),
    ("timezone", .str "UTC")]),
  ("filters", .arr [
    .obj [("logic", .str "AND"), ("conditions", .arr [
      .obj [("field", .str "site_id"), ("op", .str "equals"), ("value", .str "SITE_01")],
      .obj [("field", .str "cam_id"), ("op", .str "in"),
        ("value", .arr [.str "CAM_1", .str "CAM_2"])]])]])]

/-- A pair of specs that differ only in the order of the `measures` list. -/
def c1specA : Json := .obj [
  ("chartType", .str "composed_time"),
  ("measures", .arr [.str "m1", .str "m2"])]

/-- `c1specA` with the two measures swapped. -/
def c1specB : Json := .obj [
  ("chartType", .str "composed_time"),
  ("measures", .arr [.str "m2", .str "m1"])]

/-- A nested spec … -/
def c1permA : Json := .obj [
  ("a", .num 1),
  ("b", .obj [("x", .str "u"), ("y", .null)])]

/-- … and the same spec with object keys reordered at both depths. -/
def c1permB : Json := .obj [
  ("b", .obj [("y", .null), ("x", .str "u")]),
  ("a", .num 1)]

/-- A small spec used for the unknown-field cache-key counterexample. -/
def c2fields : List (String × Json) := [
  ("dataset", .str "events"),
  ("chartType", .str "composed_time")]

/-- `c2fields` with an additional field outside the §3 schema. -/
def c2fieldsExtra : List (String × Json) := c2fields ++ [("unknownField", .num 1)]

/-- One filter condition of the concrete `conditions`-reorder pair. -/
def c1condSite : Json :=
  .obj [("field", .str "site_id"), ("op", .str "equals"), ("value", .str "SITE_01")]

/-- The other filter condition of the concrete `conditions`-reorder pair. -/
def c1condCam : Json :=
  .obj [("field", .str "cam_id"), ("op", .str "equals"), ("value", .str "CAM_1")]

/-- The field list of the one filter group of `c1condA`. -/
def c1group : List (String × Json) :=
  [("logic", .str "AND"), ("conditions", .arr [c1condSite, c1condCam])]

/-- A pair of specs that differ only in the order of
`filters[0].conditions`… -/
def c1condA : Json := .obj [
  ("chartType", .str "composed_time"),
  ("filters", .arr [.obj c1group])]

/-- …with the two conditions swapped inside the nested group. -/
def c1condB : Json := .obj [
  ("chartType", .str "composed_time"),
  ("filters", .arr [.obj [
    ("logic", .str "AND"), ("conditions", .arr [c1condCam, c1condSite])]])]

/-- The router mapping of the engine tests. -/
def mapping : List (String × String) := [("client0", "nigzsu.dataset.client0")]

/-- A typed warehouse failure. -/
def bqError : BigQueryDataFrameError := ⟨"quota exceeded", some "job-42"⟩

/-- A frame like the one of `test_engine_executes_and_caches`. -/
def c4frame : Engine.Frame := [
  ⟨"occupancy", "2024-01-01T00:00:00Z", some 12, some 1, some 4, none⟩,
  ⟨"activity", "2024-01-01T00:00:00Z", some 3, some 1, some 3, none⟩,
  ⟨"occupancy", "2024-01-01T01:00:00Z", some 45, some (4/5), some 1, none⟩]

/-- A series with a single non-null point of value 0. -/
def c5singlePoint : List Engine.Point := [⟨"2024-01-01T00:00:00Z", some 0, some 0, some 0⟩]

/-- A two-point series whose second point meets the `mean + stddev`
threshold. -/
def c5twoPoints : List Engine.Point := [
  ⟨"2024-01-01T00:00:00Z", some 0, some 1, some 0⟩,
  ⟨"2024-01-01T01:00:00Z", some 2, some 1, some 2⟩]

/-- A minimal heatmap spec (for the heatmap-normaliser witnesses). -/
def heatSpec : Json := .obj [
  ("chartType", .str "retention"),
  ("timeWindow", .obj [("from", .str "2024-01-01T00:00:00Z"), ("to", .str "2024-03-01T00:00:00Z")]),
  ("dimensions", .arr [.obj [("id", .str "cohort")]])]

/-- A compiled query with no measures, WEEK bucket. -/
def heatCompiled : Compiler.CompiledQuery := ⟨"", [], [], "WEEK"⟩

/-- The result the heatmap normaliser produces for `heatSpec` on an empty
frame. -/
def heatResult : Engine.ChartResult :=
  ⟨"heatmap",
   ⟨.str "cohort", "matrix", .str "WEEK", .str "UTC"⟩,
   [],
   ⟨.str "UTC", [], [], ⟨0, []⟩⟩⟩

/-- The empty-window spec of scenario §8.2: one `count` measure over an
HOUR-bucketed window. -/
def c6spec : Json := .obj [
  ("dataset", .str "events"),
  ("chartType", .str "composed_time"),
  ("measures", .arr [.obj [("id", .str "m"), ("aggregation", .str "count")]]),
  ("dimensions", .arr [
    .obj [("id", .str "time"), ("column", .str "timestamp"), ("bucket", .str "HOUR")]]),
  ("timeWindow", .obj [
    ("from", .str "2024-01-01T00:00:00Z"),
    ("to", .str "2024-01-01T02:00:00Z"),
    ("bucket", .str "HOUR"),
    ("timezone", .str "UTC")])]

/-- The executed frame of an empty window: every calendar bucket present
with `value=0`, `coverage=0`, `raw_count=0`. -/
def c6frame : Engine.Frame := [
  ⟨"m", "2024-01-01T00:00:00Z", some 0, some 0, some 0, none⟩,
  ⟨"m", "2024-01-01T01:00:00Z", some 0, some 0, some 0, none⟩]

/-- A spec whose only irregularity is a `between` filter whose value has
three elements. -/
def c7spec : Json := .obj [
  ("dataset", .str "events"),
  ("chartType", .str "composed_time"),
  ("measures", .arr [.obj [("id", .str "m"), ("aggregation", .str "count")]]),
  ("dimensions", .arr [
    .obj [("id", .str "time"), ("column", .str "timestamp"), ("bucket", .str "HOUR")]]),
  ("filters", .arr [
    .obj [("logic", .str "AND"), ("conditions", .arr [
      .obj [("field", .str "index"), ("op", .str "between"),
        ("value", .arr [.num 1, .num 2, .num 3])]])]]),
  ("timeWindow", .obj [
    ("from", .str "2024-01-01T00:00:00Z"),
    ("to", .str "2024-01-02T00:00:00Z"),
    ("bucket", .str "HOUR")])]

/-- A spec that fails validation outright (`dataset` missing). -/
def c9spec : Json := .obj [("id", .str "bogus")]

/-- A cached ChartResult. -/
def c9result : Engine.ChartResult :=
  ⟨"composed_time",
   ⟨.str "time", "time", .str "HOUR", .str "UTC"⟩,
   [⟨"occupancy", "Occupancy", "area", some "Y1", some "people", .time []⟩],
   ⟨.str "UTC", [], [], ⟨0, ["occupancy"]⟩⟩⟩

/-- A cache holding `c9result` under `c9spec`'s key. -/
def c9cache : Engine.Cache :=
  [(Hashing.build_cache_key c9spec "nigzsu.dataset.client0", c9result)]

/-- A valid time-series spec with a WEEK bucket. -/
def c8spec : Json := .obj [
  ("dataset", .str "events"),
  ("chartType", .str "composed_time"),
  ("measures", .arr [.obj [("id", .str "m"), ("aggregation", .str "count")]]),
  ("dimensions", .arr [
    .obj [("id", .str "time"), ("column", .str "timestamp"), ("bucket", .str "WEEK")]]),
  ("timeWindow", .obj [
    ("from", .str "2024-01-01T00:00:00Z"),
    ("to", .str "2024-03-01T00:00:00Z"),
    ("bucket", .str "WEEK"),
    ("timezone", .str "UTC")])]

/-- A compiled query carrying one `count` measure, as the time-series
normaliser receives it. -/
def c5compiled : Compiler.CompiledQuery := ⟨"", [], [("m", "count")], "HOUR"⟩

/-- The ChartResult the time-series normaliser produces for `c6spec` with
`c5compiled` on the all-zero frame `c6frame`. -/
def c5tsResult : Engine.ChartResult :=
  match Engine.normalise_time_series c6spec c5compiled c6frame with
  | .ok r => r
  | .error _ => ⟨"", ⟨.null, "", .null, .null⟩, [], ⟨.null, [], [], ⟨0, []⟩⟩⟩

/-- The ChartResult of the compile→normalise pipeline on the engine-test
fixture spec and frame. -/
def c4result : Engine.ChartResult :=
  match compileAndNormalise chartSpec ⟨"nigzsu.analytics.client0", "UTC"⟩ c4frame with
  | .ok r => r
  | .error _ => ⟨"", ⟨.null, "", .null, .null⟩, [], ⟨.null, [], [], ⟨0, []⟩⟩⟩

end Examples

/-! ## Proof-support definitions

Inverse functions used only to prove the canonical serialisation
injective: a decoder for one escaped character unit, and a valuation for
decimal digit runs. -/

namespace Hashing

/-- Value of one lowercase hex digit (0 elsewhere). -/
def hexVal (c : Char) : Nat :=
  if 48 ≤ c.toNat ∧ c.toNat ≤ 57 then c.toNat - 48
  else if 97 ≤ c.toNat ∧ c.toNat ≤ 102 then c.toNat - 87
  else 0

/-- Decode the trailing low-surrogate escape of an astral character. -/
def decodeLow (v : Nat) : List Char → Option (Char × List Char)
  | b :: u :: g1 :: g2 :: g3 :: g4 :: r =>
    if b.toNat = 92 ∧ u.toNat = 117 then
      let w := hexVal g1 * 4096 + hexVal g2 * 256 + hexVal g3 * 16 + hexVal g4
      some (Char.ofNat (65536 + (v - 55296) * 1024 + (w - 56320)), r)
    else none
  | _ => none

/-- Decode a `\uXXXX` escape (with its low surrogate when the lead is a
high surrogate). -/
def decodeHex : List Char → Option (Char × List Char)
  | h1 :: h2 :: h3 :: h4 :: r =>
    let v := hexVal h1 * 4096 + hexVal h2 * 256 + hexVal h3 * 16 + hexVal h4
    if 55296 ≤ v ∧ v < 56320 then decodeLow v r
    else some (Char.ofNat v, r)
  | _ => none

/-- Decode one backslash escape. -/
def decodeEsc : List Char → Option (Char × List Char)
  | [] => none
  | e :: r =>
    if e.toNat = 34 then some ('"', r)
    else if e.toNat = 92 then some ('\\', r)
    else if e.toNat = 98 then some ('\x08', r)
    else if e.toNat = 116 then some ('\t', r)
    else if e.toNat = 110 then some ('\n', r)
    else if e.toNat = 102 then some ('\x0c', r)
    else if e.toNat = 114 then some ('\r', r)
    else if e.toNat = 117 then decodeHex r
    else none

/-- Decode one escaped-character unit; fails on a bare `"` (the string
terminator). -/
def decodeUnit : List Char → Option (Char × List Char)
  | [] => none
  | c :: rest =>
    if c.toNat = 34 then none
    else if c.toNat = 92 then decodeEsc rest
    else some (c, rest)

/-- `escStr` on a raw character list. -/
def escList (l : List Char) : List Char := (l.map escChar).flatten

/-- Valuation of a decimal digit run (inverse of `natChars`). -/
def digitsVal (l : List Char) : Nat :=
  l.foldl (fun acc c => acc * 10 + (c.toNat - 48)) 0

/-- An ASCII decimal digit. -/
def isDigitChar (c : Char) : Prop := 48 ≤ c.toNat ∧ c.toNat ≤ 57

/-- The continuation after a serialised number may not begin with a digit
(inside arrays and objects it begins with `,`, `]` or `\x7d`). -/
def noDigitHead : List Char → Prop
  | [] => True
  | c :: _ => ¬ isDigitChar c

/-- Constructor index of a JSON value (booleans split by value, since they
serialise differently). -/
def ctorIdx : Json → Nat
  | .null => 0
  | .bool true => 1
  | .bool false => 2
  | .num _ => 3
  | .str _ => 4
  | .arr _ => 5
  | .obj _ => 6

/-- Lower bound on the codepoint of the first serialised character. -/
def headLow : Json → Nat
  | .null => 110
  | .bool true => 116
  | .bool false => 102
  | .num _ => 45
  | .str _ => 34
  | .arr _ => 91
  | .obj _ => 123

/-- Upper bound on the codepoint of the first serialised character. -/
def headHigh : Json → Nat
  | .null => 110
  | .bool true => 116
  | .bool false => 102
  | .num _ => 57
  | .str _ => 34
  | .arr _ => 91
  | .obj _ => 123

end Hashing

/-! # Theorems -/

/-! ## Key sorting and key-order permutation -/

namespace Hashing

open Json

theorem char_eq_of_toNat_eq {a b : Char} (h : a.toNat = b.toNat) : a = b := by
  cases a with
  | mk va ha =>
    cases b with
    | mk vb hb =>
      have : va = vb := by
        apply UInt32.eq_of_val_eq
        exact Fin.eq_of_val_eq h
      subst this
      rfl

theorem charListLe_antisymm :
    ∀ {as bs : List Char}, charListLe as bs = true → charListLe bs as = true → as = bs
  | [], [], _, _ => rfl
  | [], _ :: _, _, h₂ => by simp [charListLe] at h₂
  | _ :: _, [], h₁, _ => by simp [charListLe] at h₁
  | a :: as, b :: bs, h₁, h₂ => by
    rcases Nat.lt_trichotomy a.toNat b.toNat with h | h | h
    · simp [charListLe, h, Nat.lt_asymm h] at h₂
    · have hab : a = b := char_eq_of_toNat_eq h
      subst hab
      simp only [charListLe, lt_irrefl, if_false] at h₁ h₂
      rw [charListLe_antisymm h₁ h₂]
    · simp [charListLe, h, Nat.lt_asymm h] at h₁

theorem strLe_antisymm {a b : String} (h₁ : strLe a b = true) (h₂ : strLe b a = true) :
    a = b := by
  cases a with
  | mk as =>
    cases b with
    | mk bs =>
      have : as = bs := charListLe_antisymm h₁ h₂
      rw [this]

/-- Two permuted field lists with no duplicate keys sort to the same list. -/
theorem eq_of_perm_sorted_nodupKeys :
    ∀ {l₁ l₂ : List (String × Json)}, l₁.Perm l₂ →
      l₁.Sorted keyLe → l₂.Sorted keyLe → (l₁.map Prod.fst).Nodup → l₁ = l₂
  | [], l₂, hp, _, _, _ => (hp.nil_eq).symm ▸ rfl
  | a :: as, l₂, hp, hs₁, hs₂, hn => by
    cases l₂ with
    | nil => exact absurd hp.symm.nil_eq (by simp)
    | cons b bs =>
      have hmem_a : a ∈ b :: bs := hp.mem_iff.mp (List.mem_cons_self a as)
      have hmem_b : b ∈ a :: as := hp.mem_iff.mpr (List.mem_cons_self b bs)
      have hs₁' := List.sorted_cons.mp hs₁
      have hs₂' := List.sorted_cons.mp hs₂
      have hab : a = b := by
        rcases List.mem_cons.mp hmem_a with h | ha_bs
        · exact h
        rcases List.mem_cons.mp hmem_b with h | hb_as
        · exact h.symm
        have h₁ : keyLe a b := hs₁'.1 b hb_as
        have h₂ : keyLe b a := hs₂'.1 a ha_bs
        have hkey : a.1 = b.1 := strLe_antisymm h₁ h₂
        exfalso
        have hn' : a.1 ∉ as.map Prod.fst ∧ (as.map Prod.fst).Nodup := by
          rw [List.map] at hn
          exact List.nodup_cons.mp hn
        exact hn'.1 (hkey ▸ List.mem_map_of_mem Prod.fst hb_as)
      subst hab
      have htail : as.Perm bs := hp.cons_inv
      have hn' : a.1 ∉ as.map Prod.fst ∧ (as.map Prod.fst).Nodup := by
        rw [List.map] at hn
        exact List.nodup_cons.mp hn
      have : as = bs := eq_of_perm_sorted_nodupKeys htail hs₁'.2 hs₂'.2 hn'.2
      rw [this]

theorem sortKeys_perm (l : List (String × Json)) : (sortKeys l).Perm l :=
  List.perm_insertionSort keyLe l

theorem sortKeys_sorted (l : List (String × Json)) : (sortKeys l).Sorted keyLe :=
  List.sorted_insertionSort keyLe l

theorem sortKeys_eq_of_perm {l₁ l₂ : List (String × Json)} (h : l₁.Perm l₂)
    (hn : (l₁.map Prod.fst).Nodup) : sortKeys l₁ = sortKeys l₂ := by
  apply eq_of_perm_sorted_nodupKeys
    ((sortKeys_perm l₁).trans (h.trans (sortKeys_perm l₂).symm))
    (sortKeys_sorted l₁) (sortKeys_sorted l₂)
  exact (((sortKeys_perm l₁).map Prod.fst).nodup_iff).mpr hn

theorem normalizeList_eq_map : ∀ l : List Json, normalizeList l = l.map normalize
  | [] => rfl
  | j :: rest => by rw [normalizeList, List.map, normalizeList_eq_map rest]

theorem normalizeFields_eq_map :
    ∀ f : List (String × Json), normalizeFields f = f.map fun kv => (kv.1, normalize kv.2)
  | [] => rfl
  | (k, v) :: rest => by rw [normalizeFields, List.map, normalizeFields_eq_map rest]

theorem map_fst_normalizeFields :
    ∀ f : List (String × Json), (normalizeFields f).map Prod.fst = f.map Prod.fst
  | [] => rfl
  | (k, v) :: rest => by
    simp only [normalizeFields, List.map]
    rw [map_fst_normalizeFields rest]

theorem wellFormedList_iff :
    ∀ l : List Json, wellFormedList l = true ↔ ∀ j ∈ l, wellFormed j = true
  | [] => by simp [wellFormedList]
  | j :: rest => by
    simp [wellFormedList, Bool.and_eq_true, wellFormedList_iff rest]

theorem wellFormedFields_iff :
    ∀ f : List (String × Json), wellFormedFields f = true ↔ ∀ kv ∈ f, wellFormed kv.2 = true
  | [] => by simp [wellFormedFields]
  | (k, v) :: rest => by
    simp only [wellFormedFields, Bool.and_eq_true, wellFormedFields_iff rest]
    constructor
    · rintro ⟨h₁, h₂⟩ kv hkv
      rcases List.mem_cons.mp hkv with rfl | h
      · exact h₁
      · exact h₂ kv h
    · intro h
      exact ⟨h (k, v) (List.mem_cons_self _ _), fun kv hkv => h kv (List.mem_cons_of_mem _ hkv)⟩

theorem permEquivFields_keys :
    ∀ {f g : List (String × Json)}, PermEquivFields f g → f.map Prod.fst = g.map Prod.fst
  | _, _, .nil => rfl
  | _, _, .cons k hv hf => by
    simp only [List.map]
    rw [permEquivFields_keys hf]

mutual

theorem permEquiv_normalize :
    ∀ {a b : Json}, PermEquiv a b → wellFormed a = true → wellFormed b = true →
      normalize a = normalize b
  | _, _, .null, _, _ => rfl
  | _, _, .bool _, _, _ => rfl
  | _, _, .num _, _, _ => rfl
  | _, _, .str _, _, _ => rfl
  | _, _, .arr h, ha, hb => by
    simp only [normalize]
    rw [permEquivList_normalize h (by simpa [wellFormed] using ha)
      (by simpa [wellFormed] using hb)]
  | _, _, @PermEquiv.obj f₁ g f₂ hf hp, ha, hb => by
    simp only [normalize]
    have ha' : (f₁.map Prod.fst).Nodup ∧ wellFormedFields f₁ = true := by
      simpa [wellFormed] using ha
    have hb' : (f₂.map Prod.fst).Nodup ∧ wellFormedFields f₂ = true := by
      simpa [wellFormed] using hb
    have hwfg : wellFormedFields g = true := by
      rw [wellFormedFields_iff]
      intro kv hkv
      exact (wellFormedFields_iff f₂).mp hb'.2 kv (hp.mem_iff.mp hkv)
    have h₁ : normalizeFields f₁ = normalizeFields g :=
      permEquivFields_normalize hf ha'.2 hwfg
    have h₂ : sortKeys (normalizeFields g) = sortKeys (normalizeFields f₂) := by
      apply sortKeys_eq_of_perm
      · rw [normalizeFields_eq_map, normalizeFields_eq_map]
        exact hp.map _
      · rw [map_fst_normalizeFields]
        rw [← permEquivFields_keys hf]
        exact ha'.1
    rw [h₁, h₂]

theorem permEquivList_normalize :
    ∀ {l₁ l₂ : List Json}, PermEquivList l₁ l₂ → wellFormedList l₁ = true →
      wellFormedList l₂ = true → normalizeList l₁ = normalizeList l₂
  | _, _, .nil, _, _ => rfl
  | _, _, .cons h hl, ha, hb => by
    simp only [normalizeList]
    have ha' := (Bool.and_eq_true _ _).mp (by simpa [wellFormedList] using ha)
    have hb' := (Bool.and_eq_true _ _).mp (by simpa [wellFormedList] using hb)
    rw [permEquiv_normalize h ha'.1 hb'.1, permEquivList_normalize hl ha'.2 hb'.2]

theorem permEquivFields_normalize :
    ∀ {f₁ f₂ : List (String × Json)}, PermEquivFields f₁ f₂ → wellFormedFields f₁ = true →
      wellFormedFields f₂ = true → normalizeFields f₁ = normalizeFields f₂
  | _, _, .nil, _, _ => rfl
  | _, _, .cons k hv hf, ha, hb => by
    simp only [normalizeFields]
    have ha' := (Bool.and_eq_true _ _).mp (by simpa [wellFormedFields] using ha)
    have hb' := (Bool.and_eq_true _ _).mp (by simpa [wellFormedFields] using hb)
    rw [permEquiv_normalize hv ha'.1 hb'.1, permEquivFields_normalize hf ha'.2 hb'.2]

end

/-- Key-order permutation leaves the canonical form unchanged. -/
theorem permEquiv_build_cache_key {a b : Json} (t : String) (ha : wellFormed a = true)
    (hb : wellFormed b = true) (h : PermEquiv a b) :
    build_cache_key a t = build_cache_key b t := by
  unfold build_cache_key hash_spec canonicalPayload
  rw [permEquiv_normalize h ha hb]

/-! ## Idempotence of the canonical key sort -/

theorem normalizeFields_sortKeys (l : List (String × Json)) :
    normalizeFields (sortKeys l) = sortKeys (normalizeFields l) := by
  rw [normalizeFields_eq_map, normalizeFields_eq_map]
  exact List.map_insertionSort keyLe keyLe _ l fun a _ b _ => Iff.rfl

theorem sortKeys_idem (l : List (String × Json)) : sortKeys (sortKeys l) = sortKeys l :=
  (sortKeys_sorted l).insertionSort_eq

mutual

theorem normalize_idem : ∀ j : Json, normalize (normalize j) = normalize j
  | .null => rfl
  | .bool b => rfl
  | .num n => rfl
  | .str s => rfl
  | .arr items => by
    simp only [normalize]
    rw [normalizeList_idem items]
  | .obj fields => by
    simp only [normalize]
    rw [normalizeFields_sortKeys, normalizeFields_idem fields, sortKeys_idem]

theorem normalizeList_idem : ∀ l : List Json, normalizeList (normalizeList l) = normalizeList l
  | [] => rfl
  | j :: rest => by
    simp only [normalizeList]
    rw [normalize_idem j, normalizeList_idem rest]

theorem normalizeFields_idem :
    ∀ f : List (String × Json), normalizeFields (normalizeFields f) = normalizeFields f
  | [] => rfl
  | (k, v) :: rest => by
    simp only [normalizeFields]
    rw [normalize_idem v, normalizeFields_idem rest]

end

/-! ## Injectivity of the compact serialisation: decimal runs -/

theorem char_toNat_ofNat {m : Nat} (hv : m.isValidChar) : (Char.ofNat m).toNat = m := by
  simp [Char.ofNat, hv]
  rfl

theorem isValidChar_of_lt {n : Nat} (h : n < 55296) : n.isValidChar := Or.inl h

theorem digitsVal_append (l : List Char) (c : Char) :
    digitsVal (l ++ [c]) = digitsVal l * 10 + (c.toNat - 48) := by
  unfold digitsVal
  rw [List.foldl_append]
  rfl

theorem natCharsAux_spec :
    ∀ fuel n, 0 < n → n ≤ fuel →
      digitsVal (natCharsAux fuel n) = n ∧ natCharsAux fuel n ≠ [] ∧
        ∀ c ∈ natCharsAux fuel n, isDigitChar c
  | 0, n, hpos, hle => absurd (Nat.le_trans hpos hle) (by omega)
  | fuel + 1, n, hpos, hle => by
    have hne : ¬ n = 0 := by omega
    have hd : (Char.ofNat (48 + n % 10)).toNat = 48 + n % 10 :=
      char_toNat_ofNat (isValidChar_of_lt (by omega))
    simp only [natCharsAux, hne, if_false]
    by_cases hten : n < 10
    · have hdiv : n / 10 = 0 := Nat.div_eq_of_lt hten
      rw [hdiv]
      have hz : natCharsAux fuel 0 = [] := by cases fuel <;> rfl
      rw [hz]
      refine ⟨?_, by simp, ?_⟩
      · simp [digitsVal, hd]
        omega
      · intro c hc
        simp at hc
        subst hc
        constructor <;> omega
    · have hdivpos : 0 < n / 10 := Nat.div_pos (by omega) (by omega)
      have hdivle : n / 10 ≤ fuel := by
        have := Nat.div_lt_self hpos (show 1 < 10 by omega)
        omega
      obtain ⟨hval, hnil, hdig⟩ := natCharsAux_spec fuel (n / 10) hdivpos hdivle
      refine ⟨?_, by simp, ?_⟩
      · rw [digitsVal_append, hval, hd]
        omega
      · intro c hc
        rcases List.mem_append.mp hc with h | h
        · exact hdig c h
        · simp at h
          subst h
          constructor <;> omega

theorem natChars_spec (n : Nat) :
    digitsVal (natChars n) = n ∧ natChars n ≠ [] ∧ ∀ c ∈ natChars n, isDigitChar c := by
  by_cases h : n = 0
  · subst h
    refine ⟨rfl, by simp [natChars], ?_⟩
    intro c hc
    simp [natChars] at hc
    subst hc
    constructor <;> simp
  · simp only [natChars, h, if_false]
    exact natCharsAux_spec n n (by omega) le_rfl

theorem natChars_inj {a b : Nat} (h : natChars a = natChars b) : a = b := by
  have ha := (natChars_spec a).1
  have hb := (natChars_spec b).1
  rw [← ha, ← hb, h]

theorem digitRun :
    ∀ (d₁ : List Char) {d₂ r₁ r₂ : List Char},
      (∀ c ∈ d₁, isDigitChar c) → (∀ c ∈ d₂, isDigitChar c) →
      noDigitHead r₁ → noDigitHead r₂ → d₁ ++ r₁ = d₂ ++ r₂ → d₁ = d₂ ∧ r₁ = r₂
  | [], d₂, r₁, r₂, _, hd₂, hr₁, _, h => by
    cases d₂ with
    | nil => exact ⟨rfl, h⟩
    | cons e es =>
      exfalso
      simp only [List.nil_append, List.cons_append] at h
      subst h
      exact hr₁ (hd₂ e (List.mem_cons_self _ _))
  | c :: cs, d₂, r₁, r₂, hd₁, hd₂, hr₁, hr₂, h => by
    cases d₂ with
    | nil =>
      exfalso
      simp only [List.cons_append, List.nil_append] at h
      rw [← h] at hr₂
      exact hr₂ (hd₁ c (List.mem_cons_self _ _))
    | cons e es =>
      simp only [List.cons_append, List.cons.injEq] at h
      obtain ⟨hce, htail⟩ := h
      subst hce
      obtain ⟨h₁, h₂⟩ := digitRun cs (fun x hx => hd₁ x (List.mem_cons_of_mem _ hx))
        (fun x hx => hd₂ x (List.mem_cons_of_mem _ hx)) hr₁ hr₂ htail
      exact ⟨by rw [h₁], h₂⟩

theorem intChars_head (n : Int) :
    ∃ c t, intChars n = c :: t ∧ (c.toNat = 45 ∨ isDigitChar c) := by
  cases n with
  | ofNat m =>
    obtain ⟨-, hnil, hdig⟩ := natChars_spec m
    cases hnc : natChars m with
    | nil => exact absurd hnc hnil
    | cons c t =>
      exact ⟨c, t, hnc, Or.inr (hdig c (hnc ▸ List.mem_cons_self _ _))⟩
  | negSucc m =>
    exact ⟨'-', natChars (m + 1), rfl, Or.inl rfl⟩

theorem intChars_run {a b : Int} {r₁ r₂ : List Char}
    (hr₁ : noDigitHead r₁) (hr₂ : noDigitHead r₂)
    (h : intChars a ++ r₁ = intChars b ++ r₂) : a = b ∧ r₁ = r₂ := by
  cases a with
  | ofNat m =>
    cases b with
    | ofNat m' =>
      obtain ⟨h₁, h₂⟩ := digitRun (natChars m) (natChars_spec m).2.2 (natChars_spec m').2.2
        hr₁ hr₂ h
      exact ⟨by rw [natChars_inj h₁], h₂⟩
    | negSucc m' =>
      exfalso
      obtain ⟨-, hnil, hdig⟩ := natChars_spec m
      cases hnc : natChars m with
      | nil => exact hnil hnc
      | cons c t =>
        rw [show intChars (Int.ofNat m) = natChars m from rfl, hnc,
          show intChars (Int.negSucc m') = '-' :: natChars (m' + 1) from rfl] at h
        simp only [List.cons_append, List.cons.injEq] at h
        have hdc := hdig c (hnc ▸ List.mem_cons_self _ _)
        have hc45 : c = '-' := h.1
        subst hc45
        unfold isDigitChar at hdc
        have h45 : ('-').toNat = 45 := rfl
        omega
  | negSucc m' =>
      cases b with
      | ofNat m'' =>
        exfalso
        obtain ⟨-, hnil, hdig⟩ := natChars_spec m''
        cases hnc : natChars m'' with
        | nil => exact hnil hnc
        | cons c t =>
          rw [show intChars (Int.ofNat m'') = natChars m'' from rfl, hnc,
            show intChars (Int.negSucc m') = '-' :: natChars (m' + 1) from rfl] at h
          simp only [List.cons_append, List.cons.injEq] at h
          have hdc := hdig c (hnc ▸ List.mem_cons_self _ _)
          have hc45 : '-' = c := h.1
          rw [← hc45] at hdc
          unfold isDigitChar at hdc
          have h45 : ('-').toNat = 45 := rfl
          omega
      | negSucc m'' =>
        rw [show intChars (Int.negSucc m') = '-' :: natChars (m' + 1) from rfl,
          show intChars (Int.negSucc m'') = '-' :: natChars (m'' + 1) from rfl] at h
        simp only [List.cons_append, List.cons.injEq] at h
        obtain ⟨h₁, h₂⟩ := digitRun (natChars (m' + 1)) (natChars_spec (m' + 1)).2.2
          (natChars_spec (m'' + 1)).2.2 hr₁ hr₂ h.2
        have hmm : m' + 1 = m'' + 1 := natChars_inj h₁
        have hmm' : m' = m'' := by omega
        exact ⟨by rw [hmm'], h₂⟩

/-! ## Injectivity of the compact serialisation: string escapes -/

theorem hexVal_hexChar : ∀ d, d < 16 → hexVal (hexChar d) = d := by decide

theorem hex4_decode (n : Nat) (h : n < 65536) :
    ∃ h1 h2 h3 h4, hex4 n = [h1, h2, h3, h4] ∧
      hexVal h1 * 4096 + hexVal h2 * 256 + hexVal h3 * 16 + hexVal h4 = n := by
  refine ⟨_, _, _, _, rfl, ?_⟩
  rw [hexVal_hexChar _ (by omega), hexVal_hexChar _ (by omega),
    hexVal_hexChar _ (by omega), hexVal_hexChar _ (by omega)]
  omega

theorem decodeHex_eval (h1 h2 h3 h4 : Char) (r : List Char) :
    decodeHex (h1 :: h2 :: h3 :: h4 :: r) =
      (if 55296 ≤ hexVal h1 * 4096 + hexVal h2 * 256 + hexVal h3 * 16 + hexVal h4 ∧
          hexVal h1 * 4096 + hexVal h2 * 256 + hexVal h3 * 16 + hexVal h4 < 56320 then
        decodeLow (hexVal h1 * 4096 + hexVal h2 * 256 + hexVal h3 * 16 + hexVal h4) r
      else
        some (Char.ofNat (hexVal h1 * 4096 + hexVal h2 * 256 + hexVal h3 * 16 + hexVal h4),
          r)) := rfl

theorem decodeUnit_escChar (c : Char) (r : List Char) :
    decodeUnit (escChar c ++ r) = some (c, r) := by
  have hvalid : c.toNat < 55296 ∨ 57343 < c.toNat ∧ c.toNat < 1114112 := c.valid
  by_cases h34 : c.toNat = 34
  · have : c = '"' := char_eq_of_toNat_eq h34
    subst this
    rfl
  by_cases h92 : c.toNat = 92
  · have : c = '\\' := char_eq_of_toNat_eq h92
    subst this
    rfl
  by_cases h8 : c.toNat = 8
  · have : c = '\x08' := char_eq_of_toNat_eq h8
    subst this
    rfl
  by_cases h9 : c.toNat = 9
  · have : c = '\t' := char_eq_of_toNat_eq h9
    subst this
    rfl
  by_cases h10 : c.toNat = 10
  · have : c = '\n' := char_eq_of_toNat_eq h10
    subst this
    rfl
  by_cases h12 : c.toNat = 12
  · have : c = '\x0c' := char_eq_of_toNat_eq h12
    subst this
    rfl
  by_cases h13 : c.toNat = 13
  · have : c = '\r' := char_eq_of_toNat_eq h13
    subst this
    rfl
  have hesc : escChar c =
      (if 32 ≤ c.toNat ∧ c.toNat ≤ 126 then [c]
       else if c.toNat < 65536 then '\\' :: 'u' :: hex4 c.toNat
       else '\\' :: 'u' :: hex4 (55296 + (c.toNat - 65536) / 1024) ++
         '\\' :: 'u' :: hex4 (56320 + (c.toNat - 65536) % 1024)) := by
    simp only [escChar]
    rw [if_neg h34, if_neg h92, if_neg h8, if_neg h9, if_neg h10, if_neg h12, if_neg h13]
  rw [hesc]
  by_cases hprint : 32 ≤ c.toNat ∧ c.toNat ≤ 126
  · rw [if_pos hprint]
    show decodeUnit (c :: r) = some (c, r)
    simp only [decodeUnit]
    rw [if_neg h34, if_neg h92]
  rw [if_neg hprint]
  by_cases hbmp : c.toNat < 65536
  · rw [if_pos hbmp]
    obtain ⟨h1, h2, h3, h4, hhex, hval⟩ := hex4_decode c.toNat hbmp
    rw [hhex]
    show decodeHex (h1 :: h2 :: h3 :: h4 :: r) = some (c, r)
    rw [decodeHex_eval, hval]
    have hnosur : ¬ (55296 ≤ c.toNat ∧ c.toNat < 56320) := by omega
    rw [if_neg hnosur]
    rw [show Char.ofNat c.toNat = c from char_eq_of_toNat_eq (char_toNat_ofNat c.valid)]
  · rw [if_neg hbmp]
    obtain ⟨h1, h2, h3, h4, hhex1, hval1⟩ :=
      hex4_decode (55296 + (c.toNat - 65536) / 1024) (by omega)
    obtain ⟨g1, g2, g3, g4, hhex2, hval2⟩ :=
      hex4_decode (56320 + (c.toNat - 65536) % 1024) (by omega)
    rw [hhex1, hhex2]
    show decodeHex (h1 :: h2 :: h3 :: h4 :: '\\' :: 'u' :: g1 :: g2 :: g3 :: g4 :: r)
      = some (c, r)
    rw [decodeHex_eval, hval1]
    have hsur : 55296 ≤ 55296 + (c.toNat - 65536) / 1024 ∧
        55296 + (c.toNat - 65536) / 1024 < 56320 := by omega
    rw [if_pos hsur]
    show (if ('\\').toNat = 92 ∧ ('u').toNat = 117 then
        some (Char.ofNat (65536 + (55296 + (c.toNat - 65536) / 1024 - 55296) * 1024 +
          (hexVal g1 * 4096 + hexVal g2 * 256 + hexVal g3 * 16 + hexVal g4 - 56320)), r)
      else none) = some (c, r)
    rw [if_pos (by exact ⟨rfl, rfl⟩), hval2]
    have hn : 65536 + (55296 + (c.toNat - 65536) / 1024 - 55296) * 1024 +
        (56320 + (c.toNat - 65536) % 1024 - 56320) = c.toNat := by omega
    rw [hn]
    rw [show Char.ofNat c.toNat = c from char_eq_of_toNat_eq (char_toNat_ofNat c.valid)]

theorem escList_cons (c : Char) (l : List Char) :
    escList (c :: l) = escChar c ++ escList l := by
  unfold escList
  rw [List.map, List.flatten]

theorem decodeUnit_quote (r : List Char) : decodeUnit ('"' :: r) = none := rfl

theorem escList_run :
    ∀ (l₁ : List Char) {l₂ r₁ r₂ : List Char},
      escList l₁ ++ '"' :: r₁ = escList l₂ ++ '"' :: r₂ → l₁ = l₂ ∧ r₁ = r₂
  | [], l₂, r₁, r₂, h => by
    cases l₂ with
    | nil =>
      simp only [escList, List.map, List.flatten, List.nil_append, List.cons.injEq] at h
      exact ⟨rfl, h.2⟩
    | cons c cs =>
      exfalso
      rw [show escList [] = [] from rfl, escList_cons] at h
      simp only [List.nil_append, List.append_assoc] at h
      have := congrArg decodeUnit h
      rw [decodeUnit_quote, decodeUnit_escChar] at this
      exact Option.noConfusion this
  | c :: cs, l₂, r₁, r₂, h => by
    cases l₂ with
    | nil =>
      exfalso
      rw [show escList [] = [] from rfl, escList_cons] at h
      simp only [List.nil_append, List.append_assoc] at h
      have := congrArg decodeUnit h
      rw [decodeUnit_quote, decodeUnit_escChar] at this
      exact Option.noConfusion this
    | cons e es =>
      rw [escList_cons, escList_cons] at h
      simp only [List.append_assoc] at h
      have hdec := congrArg decodeUnit h
      rw [decodeUnit_escChar, decodeUnit_escChar] at hdec
      simp only [Option.some.injEq, Prod.mk.injEq] at hdec
      obtain ⟨hce, htail⟩ := hdec
      subst hce
      obtain ⟨h₁, h₂⟩ := escList_run cs htail
      exact ⟨by rw [h₁], h₂⟩

theorem escStr_run {s₁ s₂ : String} {r₁ r₂ : List Char}
    (h : escStr s₁ ++ '"' :: r₁ = escStr s₂ ++ '"' :: r₂) : s₁ = s₂ ∧ r₁ = r₂ := by
  cases s₁ with
  | mk l₁ =>
    cases s₂ with
    | mk l₂ =>
      have : escList l₁ ++ '"' :: r₁ = escList l₂ ++ '"' :: r₂ := h
      obtain ⟨h₁, h₂⟩ := escList_run l₁ this
      exact ⟨by rw [h₁], h₂⟩

/-! ## Injectivity of the compact serialisation: unambiguity -/

theorem serChars_head_bounds :
    ∀ j : Json, ∃ c t, serChars j = c :: t ∧ headLow j ≤ c.toNat ∧ c.toNat ≤ headHigh j
  | .null => ⟨'n', _, rfl, by decide, by decide⟩
  | .bool true => ⟨'t', _, rfl, by decide, by decide⟩
  | .bool false => ⟨'f', _, rfl, by decide, by decide⟩
  | .num n => by
    obtain ⟨c, t, e, p⟩ := intChars_head n
    refine ⟨c, t, e, ?_, ?_⟩ <;>
      · unfold isDigitChar at p
        simp only [headLow, headHigh]
        omega
  | .str s => ⟨'"', _, rfl, by simp only [headLow]; decide, by simp only [headHigh]; decide⟩
  | .arr l => ⟨'[', _, rfl, by simp only [headLow]; decide, by simp only [headHigh]; decide⟩
  | .obj f => ⟨'\x7b', _, rfl, by simp only [headLow]; decide, by simp only [headHigh]; decide⟩

theorem ser_ctor_eq {j₁ j₂ : Json} {r₁ r₂ : List Char}
    (h : serChars j₁ ++ r₁ = serChars j₂ ++ r₂) : ctorIdx j₁ = ctorIdx j₂ := by
  obtain ⟨c₁, t₁, e₁, lo₁, hi₁⟩ := serChars_head_bounds j₁
  obtain ⟨c₂, t₂, e₂, lo₂, hi₂⟩ := serChars_head_bounds j₂
  rw [e₁, e₂] at h
  simp only [List.cons_append, List.cons.injEq] at h
  have hc : c₁.toNat = c₂.toNat := by rw [h.1]
  rcases j₁ with _ | (_ | _) | n | s | l | f <;>
    rcases j₂ with _ | (_ | _) | n' | s' | l' | f' <;>
    first
      | rfl
      | (simp only [headLow, headHigh, ctorIdx] at lo₁ hi₁ lo₂ hi₂ ⊢
         omega)

theorem noDigitHead_cons {c : Char} (r : List Char) (h : c.toNat < 48 ∨ 57 < c.toNat) :
    noDigitHead (c :: r) := by
  unfold noDigitHead isDigitChar
  omega

theorem head_notin_ranges :
    ∀ j : Json, ¬ (headLow j ≤ 93 ∧ 93 ≤ headHigh j) ∧
      ¬ (headLow j ≤ 44 ∧ 44 ≤ headHigh j) ∧ ¬ (headLow j ≤ 125 ∧ 125 ≤ headHigh j) := by
  intro j
  rcases j with _ | (_ | _) | n | s | l | f <;>
    refine ⟨?_, ?_, ?_⟩ <;> simp only [headLow, headHigh] <;> omega

mutual

theorem ser_unamb :
    ∀ (j₁ j₂ : Json) (r₁ r₂ : List Char),
      (∀ n : Int, j₁ = .num n → noDigitHead r₁) →
      (∀ n : Int, j₂ = .num n → noDigitHead r₂) →
      serChars j₁ ++ r₁ = serChars j₂ ++ r₂ → j₁ = j₂ ∧ r₁ = r₂
  | .null, .null, r₁, r₂, _, _, h => by
    simp only [serChars, List.cons_append, List.nil_append, List.cons.injEq] at h
    exact ⟨rfl, h.2.2.2.2⟩
  | .bool true, .bool true, r₁, r₂, _, _, h => by
    simp only [serChars, List.cons_append, List.nil_append, List.cons.injEq] at h
    exact ⟨rfl, h.2.2.2.2⟩
  | .bool false, .bool false, r₁, r₂, _, _, h => by
    simp only [serChars, List.cons_append, List.nil_append, List.cons.injEq] at h
    exact ⟨rfl, h.2.2.2.2.2⟩
  | .num n, .num n', r₁, r₂, g₁, g₂, h => by
    obtain ⟨h₁, h₂⟩ := intChars_run (g₁ n rfl) (g₂ n' rfl) h
    exact ⟨by rw [h₁], h₂⟩
  | .str s, .str s', r₁, r₂, _, _, h => by
    simp only [serChars, List.cons_append, List.append_assoc, List.singleton_append,
      List.cons.injEq, true_and] at h
    obtain ⟨h₁, h₂⟩ := escStr_run h
    exact ⟨by rw [h₁], h₂⟩
  | .arr l₁, .arr l₂, r₁, r₂, _, _, h => by
    simp only [serChars, List.cons_append, List.append_assoc, List.singleton_append,
      List.cons.injEq, true_and] at h
    obtain ⟨h₁, h₂⟩ := serList_unamb l₁ l₂ r₁ r₂ h
    exact ⟨by rw [h₁], h₂⟩
  | .obj f₁, .obj f₂, r₁, r₂, _, _, h => by
    simp only [serChars, List.cons_append, List.append_assoc, List.singleton_append,
      List.cons.injEq, true_and] at h
    obtain ⟨h₁, h₂⟩ := serFields_unamb f₁ f₂ r₁ r₂ h
    exact ⟨by rw [h₁], h₂⟩
  | .null, .bool true, _, _, _, _, h => absurd (ser_ctor_eq h) (by simp [ctorIdx])
  | .null, .bool false, _, _, _, _, h => absurd (ser_ctor_eq h) (by simp [ctorIdx])
  | .null, .num _, _, _, _, _, h => absurd (ser_ctor_eq h) (by simp [ctorIdx])
  | .null, .str _, _, _, _, _, h => absurd (ser_ctor_eq h) (by simp [ctorIdx])
  | .null, .arr _, _, _, _, _, h => absurd (ser_ctor_eq h) (by simp [ctorIdx])
  | .null, .obj _, _, _, _, _, h => absurd (ser_ctor_eq h) (by simp [ctorIdx])
  | .bool true, .null, _, _, _, _, h => absurd (ser_ctor_eq h) (by simp [ctorIdx])
  | .bool true, .bool false, _, _, _, _, h => absurd (ser_ctor_eq h) (by simp [ctorIdx])
  | .bool true, .num _, _, _, _, _, h => absurd (ser_ctor_eq h) (by simp [ctorIdx])
  | .bool true, .str _, _, _, _, _, h => absurd (ser_ctor_eq h) (by simp [ctorIdx])
  | .bool true, .arr _, _, _, _, _, h => absurd (ser_ctor_eq h) (by simp [ctorIdx])
  | .bool true, .obj _, _, _, _, _, h => absurd (ser_ctor_eq h) (by simp [ctorIdx])
  | .bool false, .null, _, _, _, _, h => absurd (ser_ctor_eq h) (by simp [ctorIdx])
  | .bool false, .bool true, _, _, _, _, h => absurd (ser_ctor_eq h) (by simp [ctorIdx])
  | .bool false, .num _, _, _, _, _, h => absurd (ser_ctor_eq h) (by simp [ctorIdx])
  | .bool false, .str _, _, _, _, _, h => absurd (ser_ctor_eq h) (by simp [ctorIdx])
  | .bool false, .arr _, _, _, _, _, h => absurd (ser_ctor_eq h) (by simp [ctorIdx])
  | .bool false, .obj _, _, _, _, _, h => absurd (ser_ctor_eq h) (by simp [ctorIdx])
  | .num _, .null, _, _, _, _, h => absurd (ser_ctor_eq h) (by simp [ctorIdx])
  | .num _, .bool true, _, _, _, _, h => absurd (ser_ctor_eq h) (by simp [ctorIdx])
  | .num _, .bool false, _, _, _, _, h => absurd (ser_ctor_eq h) (by simp [ctorIdx])
  | .num _, .str _, _, _, _, _, h => absurd (ser_ctor_eq h) (by simp [ctorIdx])
  | .num _, .arr _, _, _, _, _, h => absurd (ser_ctor_eq h) (by simp [ctorIdx])
  | .num _, .obj _, _, _, _, _, h => absurd (ser_ctor_eq h) (by simp [ctorIdx])
  | .str _, .null, _, _, _, _, h => absurd (ser_ctor_eq h) (by simp [ctorIdx])
  | .str _, .bool true, _, _, _, _, h => absurd (ser_ctor_eq h) (by simp [ctorIdx])
  | .str _, .bool false, _, _, _, _, h => absurd (ser_ctor_eq h) (by simp [ctorIdx])
  | .str _, .num _, _, _, _, _, h => absurd (ser_ctor_eq h) (by simp [ctorIdx])
  | .str _, .arr _, _, _, _, _, h => absurd (ser_ctor_eq h) (by simp [ctorIdx])
  | .str _, .obj _, _, _, _, _, h => absurd (ser_ctor_eq h) (by simp [ctorIdx])
  | .arr _, .null, _, _, _, _, h => absurd (ser_ctor_eq h) (by simp [ctorIdx])
  | .arr _, .bool true, _, _, _, _, h => absurd (ser_ctor_eq h) (by simp [ctorIdx])
  | .arr _, .bool false, _, _, _, _, h => absurd (ser_ctor_eq h) (by simp [ctorIdx])
  | .arr _, .num _, _, _, _, _, h => absurd (ser_ctor_eq h) (by simp [ctorIdx])
  | .arr _, .str _, _, _, _, _, h => absurd (ser_ctor_eq h) (by simp [ctorIdx])
  | .arr _, .obj _, _, _, _, _, h => absurd (ser_ctor_eq h) (by simp [ctorIdx])
  | .obj _, .null, _, _, _, _, h => absurd (ser_ctor_eq h) (by simp [ctorIdx])
  | .obj _, .bool true, _, _, _, _, h => absurd (ser_ctor_eq h) (by simp [ctorIdx])
  | .obj _, .bool false, _, _, _, _, h => absurd (ser_ctor_eq h) (by simp [ctorIdx])
  | .obj _, .num _, _, _, _, _, h => absurd (ser_ctor_eq h) (by simp [ctorIdx])
  | .obj _, .str _, _, _, _, _, h => absurd (ser_ctor_eq h) (by simp [ctorIdx])
  | .obj _, .arr _, _, _, _, _, h => absurd (ser_ctor_eq h) (by simp [ctorIdx])

theorem serList_unamb :
    ∀ (l₁ l₂ : List Json) (r₁ r₂ : List Char),
      serList l₁ ++ ']' :: r₁ = serList l₂ ++ ']' :: r₂ → l₁ = l₂ ∧ r₁ = r₂
  | [], [], r₁, r₂, h => by
    simp only [serList, List.nil_append, List.cons.injEq] at h
    exact ⟨rfl, h.2⟩
  | [], j :: l₂, r₁, r₂, h => by
    exfalso
    obtain ⟨c, t, e, lo, hi⟩ := serChars_head_bounds j
    have hform : ∃ z, serList (j :: l₂) ++ ']' :: r₂ = serChars j ++ z := by
      cases l₂ with
      | nil => exact ⟨']' :: r₂, rfl⟩
      | cons x xs =>
        refine ⟨',' :: (serList (x :: xs) ++ ']' :: r₂), ?_⟩
        simp [serList, List.append_assoc]
    obtain ⟨z, hz⟩ := hform
    rw [hz, e] at h
    simp only [serList, List.nil_append, List.cons_append, List.cons.injEq] at h
    have : (']').toNat = c.toNat := by rw [h.1]
    have h93 : (']').toNat = 93 := rfl
    have := (head_notin_ranges j).1
    omega
  | j :: l₁, [], r₁, r₂, h => by
    exfalso
    obtain ⟨c, t, e, lo, hi⟩ := serChars_head_bounds j
    have hform : ∃ z, serList (j :: l₁) ++ ']' :: r₁ = serChars j ++ z := by
      cases l₁ with
      | nil => exact ⟨']' :: r₁, rfl⟩
      | cons x xs =>
        refine ⟨',' :: (serList (x :: xs) ++ ']' :: r₁), ?_⟩
        simp [serList, List.append_assoc]
    obtain ⟨z, hz⟩ := hform
    rw [hz, e] at h
    simp only [serList, List.nil_append, List.cons_append, List.cons.injEq] at h
    have : c.toNat = (']').toNat := by rw [h.1]
    have h93 : (']').toNat = 93 := rfl
    have := (head_notin_ranges j).1
    omega
  | j :: l₁, j' :: l₂, r₁, r₂, h => by
    have hform : ∀ (x : Json) (xs : List Json) (r : List Char), ∃ z,
        serList (x :: xs) ++ ']' :: r = serChars x ++ z ∧
          ((xs = [] ∧ z = ']' :: r) ∨
           (xs ≠ [] ∧ z = ',' :: (serList xs ++ ']' :: r))) := by
      intro x xs r
      cases xs with
      | nil => exact ⟨']' :: r, rfl, Or.inl ⟨rfl, rfl⟩⟩
      | cons y ys =>
        refine ⟨',' :: (serList (y :: ys) ++ ']' :: r), ?_, Or.inr ⟨by simp, rfl⟩⟩
        simp [serList, List.append_assoc]
    obtain ⟨z₁, hz₁, hc₁⟩ := hform j l₁ r₁
    obtain ⟨z₂, hz₂, hc₂⟩ := hform j' l₂ r₂
    rw [hz₁, hz₂] at h
    have hnd : ∀ (xs : List Json) (r : List Char) (z : List Char),
        (xs = [] ∧ z = ']' :: r) ∨ (xs ≠ [] ∧ z = ',' :: (serList xs ++ ']' :: r)) →
          noDigitHead z := by
      rintro xs r z (⟨-, rfl⟩ | ⟨-, rfl⟩)
      · exact noDigitHead_cons _ (by decide)
      · exact noDigitHead_cons _ (by decide)
    obtain ⟨hj, hzeq⟩ := ser_unamb j j' z₁ z₂
      (fun _ _ => hnd l₁ r₁ z₁ hc₁) (fun _ _ => hnd l₂ r₂ z₂ hc₂) h
    subst hj
    rcases hc₁ with ⟨he₁, rfl⟩ | ⟨hne₁, rfl⟩ <;> rcases hc₂ with ⟨he₂, rfl⟩ | ⟨hne₂, rfl⟩
    · subst he₁; subst he₂
      simp only [List.cons.injEq] at hzeq
      exact ⟨rfl, hzeq.2⟩
    · exfalso
      simp only [List.cons.injEq] at hzeq
      have : (']').toNat = (',').toNat := by rw [hzeq.1]
      revert this
      decide
    · exfalso
      simp only [List.cons.injEq] at hzeq
      have : (',').toNat = (']').toNat := by rw [hzeq.1]
      revert this
      decide
    · simp only [List.cons.injEq, true_and] at hzeq
      obtain ⟨h₁, h₂⟩ := serList_unamb l₁ l₂ r₁ r₂ hzeq
      exact ⟨by rw [h₁], h₂⟩

theorem serFields_unamb :
    ∀ (f₁ f₂ : List (String × Json)) (r₁ r₂ : List Char),
      serFields f₁ ++ '\x7d' :: r₁ = serFields f₂ ++ '\x7d' :: r₂ → f₁ = f₂ ∧ r₁ = r₂
  | [], [], r₁, r₂, h => by
    simp only [serFields, List.nil_append, List.cons.injEq] at h
    exact ⟨rfl, h.2⟩
  | [], (k, v) :: f₂, r₁, r₂, h => by
    exfalso
    have hform : ∃ z, serFields ((k, v) :: f₂) ++ '\x7d' :: r₂ = '"' :: z := by
      cases f₂ with
      | nil => exact ⟨escStr k ++ '"' :: ':' :: (serChars v ++ '\x7d' :: r₂), by
          simp [serFields, List.append_assoc]⟩
      | cons x xs =>
        exact ⟨escStr k ++ '"' :: ':' :: (serChars v ++ ',' ::
          (serFields (x :: xs) ++ '\x7d' :: r₂)), by simp [serFields, List.append_assoc]⟩
    obtain ⟨z, hz⟩ := hform
    rw [hz] at h
    simp only [serFields, List.nil_append, List.cons.injEq] at h
    have : ('\x7d').toNat = ('"').toNat := by rw [h.1]
    revert this
    decide
  | (k, v) :: f₁, [], r₁, r₂, h => by
    exfalso
    have hform : ∃ z, serFields ((k, v) :: f₁) ++ '\x7d' :: r₁ = '"' :: z := by
      cases f₁ with
      | nil => exact ⟨escStr k ++ '"' :: ':' :: (serChars v ++ '\x7d' :: r₁), by
          simp [serFields, List.append_assoc]⟩
      | cons x xs =>
        exact ⟨escStr k ++ '"' :: ':' :: (serChars v ++ ',' ::
          (serFields (x :: xs) ++ '\x7d' :: r₁)), by simp [serFields, List.append_assoc]⟩
    obtain ⟨z, hz⟩ := hform
    rw [hz] at h
    simp only [serFields, List.nil_append, List.cons.injEq] at h
    have : ('"').toNat = ('\x7d').toNat := by rw [h.1]
    revert this
    decide
  | (k, v) :: f₁, (k', v') :: f₂, r₁, r₂, h => by
    have hform : ∀ (key : String) (val : Json) (fs : List (String × Json)) (r : List Char),
        ∃ z, serFields ((key, val) :: fs) ++ '\x7d' :: r =
            '"' :: (escStr key ++ '"' :: ':' :: (serChars val ++ z)) ∧
          ((fs = [] ∧ z = '\x7d' :: r) ∨
           (fs ≠ [] ∧ z = ',' :: (serFields fs ++ '\x7d' :: r))) := by
      intro key val fs r
      cases fs with
      | nil =>
        exact ⟨'\x7d' :: r, by simp [serFields, List.append_assoc], Or.inl ⟨rfl, rfl⟩⟩
      | cons x xs =>
        exact ⟨',' :: (serFields (x :: xs) ++ '\x7d' :: r),
          by simp [serFields, List.append_assoc], Or.inr ⟨by simp, rfl⟩⟩
    obtain ⟨z₁, hz₁, hc₁⟩ := hform k v f₁ r₁
    obtain ⟨z₂, hz₂, hc₂⟩ := hform k' v' f₂ r₂
    rw [hz₁, hz₂] at h
    simp only [List.cons.injEq, true_and] at h
    obtain ⟨hk, htail⟩ := escStr_run h
    subst hk
    simp only [List.cons.injEq, true_and] at htail
    have hnd : ∀ (fs : List (String × Json)) (r : List Char) (z : List Char),
        (fs = [] ∧ z = '\x7d' :: r) ∨ (fs ≠ [] ∧ z = ',' :: (serFields fs ++ '\x7d' :: r)) →
          noDigitHead z := by
      rintro fs r z (⟨-, rfl⟩ | ⟨-, rfl⟩)
      · exact noDigitHead_cons _ (by decide)
      · exact noDigitHead_cons _ (by decide)
    obtain ⟨hv, hzeq⟩ := ser_unamb v v' z₁ z₂
      (fun _ _ => hnd f₁ r₁ z₁ hc₁) (fun _ _ => hnd f₂ r₂ z₂ hc₂) htail
    subst hv
    rcases hc₁ with ⟨he₁, rfl⟩ | ⟨hne₁, rfl⟩ <;> rcases hc₂ with ⟨he₂, rfl⟩ | ⟨hne₂, rfl⟩
    · subst he₁; subst he₂
      simp only [List.cons.injEq] at hzeq
      exact ⟨rfl, hzeq.2⟩
    · exfalso
      simp only [List.cons.injEq] at hzeq
      have : ('\x7d').toNat = (',').toNat := by rw [hzeq.1]
      revert this
      decide
    · exfalso
      simp only [List.cons.injEq] at hzeq
      have : (',').toNat = ('\x7d').toNat := by rw [hzeq.1]
      revert this
      decide
    · simp only [List.cons.injEq, true_and] at hzeq
      obtain ⟨h₁, h₂⟩ := serFields_unamb f₁ f₂ r₁ r₂ hzeq
      exact ⟨by rw [h₁], h₂⟩

end

/-- The compact serialisation is injective. -/
theorem serChars_injective {j₁ j₂ : Json} (h : serChars j₁ = serChars j₂) : j₁ = j₂ := by
  have h' : serChars j₁ ++ [] = serChars j₂ ++ [] := by simp [h]
  exact (ser_unamb j₁ j₂ [] [] (fun _ _ => trivial) (fun _ _ => trivial) h').1

/-- Equal canonical payloads mean equal canonical forms. -/
theorem canonicalPayload_inj {a b : Json} (h : canonicalPayload a = canonicalPayload b) :
    normalize a = normalize b := by
  unfold canonicalPayload dumps at h
  have hdata : serChars (normalize (normalize a)) = serChars (normalize (normalize b)) :=
    congrArg String.data h
  have := serChars_injective hdata
  rwa [normalize_idem, normalize_idem] at this

/-! ## Order sensitivity of arrays in the canonical payload -/

theorem lookupKey_normalizeFields :
    ∀ (f : List (String × Json)) (k : String),
      lookupKey (normalizeFields f) k = (lookupKey f k).map normalize
  | [], _ => rfl
  | (k', v) :: rest, k => by
    simp only [normalizeFields, lookupKey]
    by_cases h : k' = k
    · simp [h]
    · simp only [h, if_false]
      exact lookupKey_normalizeFields rest k

theorem lookupKey_perm {l₁ l₂ : List (String × Json)} (h : l₁.Perm l₂)
    (hn : (l₁.map Prod.fst).Nodup) (k : String) : lookupKey l₁ k = lookupKey l₂ k := by
  induction h with
  | nil => rfl
  | cons x h ih =>
    obtain ⟨x₁, x₂⟩ := x
    simp only [lookupKey]
    by_cases hx : x₁ = k
    · simp [hx]
    · simp only [hx, if_false]
      apply ih
      rw [List.map] at hn
      exact (List.nodup_cons.mp hn).2
  | swap x y l =>
    obtain ⟨x₁, x₂⟩ := x
    obtain ⟨y₁, y₂⟩ := y
    simp only [List.map, List.nodup_cons, List.mem_cons] at hn
    simp only [lookupKey]
    by_cases hx : x₁ = k <;> by_cases hy : y₁ = k
    · exact absurd (Or.inl (hy.trans hx.symm)) hn.1
    · simp [hx, hy]
    · simp [hx, hy]
    · simp [hx, hy]
  | trans h₁ h₂ ih₁ ih₂ =>
    rw [ih₁ hn, ih₂]
    rw [← (h₁.map Prod.fst).nodup_iff]
    exact hn

theorem map_fst_setKey (f : List (String × Json)) (k : String) (v : Json) :
    (setKey f k v).map Prod.fst = f.map Prod.fst := by
  unfold setKey
  rw [List.map_map]
  apply List.map_congr_left
  intro kv _
  by_cases h : kv.1 = k
  · simp [h]
  · simp [h]

theorem setKey_cons (k' : String) (v' : Json) (rest : List (String × Json)) (k : String)
    (v : Json) :
    setKey ((k', v') :: rest) k v =
      (if k' = k then (k, v) else (k', v')) :: setKey rest k v := rfl

theorem lookupKey_setKey :
    ∀ (f : List (String × Json)) (k : String) (v w : Json),
      lookupKey f k = some w → lookupKey (setKey f k v) k = some v
  | [], _, _, _, h => by cases h
  | (k', v') :: rest, k, v, w, h => by
    rw [setKey_cons]
    by_cases hk : k' = k
    · rw [if_pos hk]
      simp [lookupKey]
    · rw [if_neg hk]
      simp only [lookupKey, hk, if_false] at h ⊢
      exact lookupKey_setKey rest k v w h

theorem normalizeFields_setKey :
    ∀ (f : List (String × Json)) (k : String) (v : Json),
      normalizeFields (setKey f k v) = setKey (normalizeFields f) k (normalize v)
  | [], _, _ => rfl
  | (k', v') :: rest, k, v => by
    rw [setKey_cons]
    by_cases hk : k' = k
    · rw [if_pos hk]
      show (k, normalize v) :: normalizeFields (setKey rest k v) =
        setKey ((k', normalize v') :: normalizeFields rest) k (normalize v)
      rw [setKey_cons, if_pos hk, normalizeFields_setKey rest k v]
    · rw [if_neg hk]
      show (k', normalize v') :: normalizeFields (setKey rest k v) =
        setKey ((k', normalize v') :: normalizeFields rest) k (normalize v)
      rw [setKey_cons, if_neg hk, normalizeFields_setKey rest k v]

/-- Reordering an array stored in a spec changes the canonical payload the
hash is computed over (whenever the reordering changes the canonical form
of the array). -/
theorem measure_order_changes_payload (f : List (String × Json)) (k : String)
    (l l' : List Json) (hn : (f.map Prod.fst).Nodup)
    (hlook : lookupKey f k = some (.arr l)) (hperm : l.Perm l')
    (hne : normalizeList l ≠ normalizeList l') :
    canonicalPayload (.obj f) ≠ canonicalPayload (.obj (setKey f k (.arr l'))) := by
  intro heq
  have hnorm := canonicalPayload_inj heq
  simp only [normalize, Json.obj.injEq] at hnorm
  have hlhs : lookupKey (sortKeys (normalizeFields f)) k = some (normalize (.arr l)) := by
    have hnodup : ((normalizeFields f).map Prod.fst).Nodup := by
      rw [map_fst_normalizeFields]
      exact hn
    rw [lookupKey_perm (sortKeys_perm _)
      (((sortKeys_perm _).map Prod.fst).nodup_iff.mpr hnodup) k]
    rw [lookupKey_normalizeFields, hlook]
    rfl
  have hrhs : lookupKey (sortKeys (normalizeFields (setKey f k (.arr l')))) k =
      some (normalize (.arr l')) := by
    have hnsk : ((normalizeFields (setKey f k (.arr l'))).map Prod.fst).Nodup := by
      rw [map_fst_normalizeFields, map_fst_setKey]
      exact hn
    rw [lookupKey_perm (sortKeys_perm _)
      (((sortKeys_perm _).map Prod.fst).nodup_iff.mpr hnsk) k]
    rw [normalizeFields_setKey]
    apply lookupKey_setKey
    rw [lookupKey_normalizeFields, hlook]
    rfl
  rw [hnorm, hrhs] at hlhs
  simp only [Option.some.injEq, normalize, Json.arr.injEq] at hlhs
  exact hne hlhs.symm

/-- If an object and its `setKey` update at a present key have the same
canonical form, the stored value and the replacement have the same
canonical form (keys distinct). -/
theorem normalize_setKey_value (f : List (String × Json)) (k : String) (v w : Json)
    (hn : (f.map Prod.fst).Nodup) (hlook : lookupKey f k = some v)
    (hnorm : normalize (.obj f) = normalize (.obj (setKey f k w))) :
    normalize v = normalize w := by
  simp only [normalize, Json.obj.injEq] at hnorm
  have hlhs : lookupKey (sortKeys (normalizeFields f)) k = some (normalize v) := by
    have hnodup : ((normalizeFields f).map Prod.fst).Nodup := by
      rw [map_fst_normalizeFields]
      exact hn
    rw [lookupKey_perm (sortKeys_perm _)
      (((sortKeys_perm _).map Prod.fst).nodup_iff.mpr hnodup) k]
    rw [lookupKey_normalizeFields, hlook]
    rfl
  have hrhs : lookupKey (sortKeys (normalizeFields (setKey f k w))) k =
      some (normalize w) := by
    have hnsk : ((normalizeFields (setKey f k w)).map Prod.fst).Nodup := by
      rw [map_fst_normalizeFields, map_fst_setKey]
      exact hn
    rw [lookupKey_perm (sortKeys_perm _)
      (((sortKeys_perm _).map Prod.fst).nodup_iff.mpr hnsk) k]
    rw [normalizeFields_setKey]
    apply lookupKey_setKey
    rw [lookupKey_normalizeFields, hlook]
    rfl
  rw [hnorm, hrhs] at hlhs
  injection hlhs with hlhs
  exact hlhs.symm

/-- If mapping `normalize` over a list and over its update at index `i`
agree, the element at `i` and its replacement have the same canonical
form. -/
theorem map_normalize_set_get :
    ∀ (gs : List Json) (i : Nat) (x g : Json),
      gs[i]? = some g →
      gs.map normalize = (gs.set i x).map normalize →
      normalize g = normalize x
  | [], _, _, _, h, _ => by rw [List.getElem?_nil] at h; cases h
  | a :: rest, 0, x, g, h, hmap => by
    rw [List.getElem?_cons_zero] at h
    injection h with h
    subst h
    rw [List.set_cons_zero, List.map_cons, List.map_cons] at hmap
    exact (List.cons_eq_cons.mp hmap).1
  | a :: rest, i + 1, x, g, h, hmap => by
    rw [List.getElem?_cons_succ] at h
    rw [List.set_cons_succ, List.map_cons, List.map_cons] at hmap
    exact map_normalize_set_get rest i x g h (List.cons_eq_cons.mp hmap).2

/-- Reordering an array nested inside one element of an array value — the
`filters[i].conditions` shape — changes the canonical payload the hash is
computed over (whenever the reordering changes the canonical form of the
nested array). -/
theorem nested_order_changes_payload (f : List (String × Json)) (k₁ : String)
    (gs : List Json) (i : Nat) (g : List (String × Json)) (k₂ : String)
    (l l' : List Json)
    (hnf : (f.map Prod.fst).Nodup)
    (hlook₁ : lookupKey f k₁ = some (.arr gs))
    (hgi : gs[i]? = some (.obj g))
    (hng : (g.map Prod.fst).Nodup)
    (hlook₂ : lookupKey g k₂ = some (.arr l))
    (hne : normalizeList l ≠ normalizeList l') :
    canonicalPayload (.obj f) ≠
      canonicalPayload (.obj (setKey f k₁
        (.arr (gs.set i (.obj (setKey g k₂ (.arr l'))))))) := by
  intro heq
  have hnorm := canonicalPayload_inj heq
  have h₁ : normalize (.arr gs) =
      normalize (.arr (gs.set i (.obj (setKey g k₂ (.arr l'))))) :=
    normalize_setKey_value f k₁ _ _ hnf hlook₁ hnorm
  simp only [normalize, Json.arr.injEq] at h₁
  have hmap : gs.map normalize =
      (gs.set i (.obj (setKey g k₂ (.arr l')))).map normalize := by
    rw [← normalizeList_eq_map, ← normalizeList_eq_map]
    exact h₁
  have h₂ : normalize (.obj g) = normalize (.obj (setKey g k₂ (.arr l'))) :=
    map_normalize_set_get gs i _ _ hgi hmap
  have h₃ : normalize (.arr l) = normalize (.arr l') :=
    normalize_setKey_value g k₂ _ _ hng hlook₂ h₂
  simp only [normalize, Json.arr.injEq] at h₃
  exact hne h₃

/-- Adding a field the spec did not carry changes the canonical payload. -/
theorem unknown_field_changes_payload (f : List (String × Json)) (k : String) (v : Json)
    (habsent : lookupKey f k = none) :
    canonicalPayload (.obj f) ≠ canonicalPayload (.obj (f ++ [(k, v)])) := by
  intro heq
  have hnorm := canonicalPayload_inj heq
  simp only [normalize, Json.obj.injEq] at hnorm
  have hlen := congrArg List.length hnorm
  rw [(sortKeys_perm (normalizeFields f)).length_eq,
    (sortKeys_perm (normalizeFields (f ++ [(k, v)]))).length_eq,
    normalizeFields_eq_map, normalizeFields_eq_map, List.length_map, List.length_map,
    List.length_append] at hlen
  simp at hlen

end Hashing

/-! ## Reduction lemmas for `Except` binds -/

theorem exBind_ok {α β ε : Type} (a : α) (k : α → Except ε β) :
    (Except.ok a >>= k) = k a := rfl

theorem exBind_error {α β ε : Type} (e : ε) (k : α → Except ε β) :
    ((Except.error e : Except ε α) >>= k) = Except.error e := rfl

/-! ## Surge detection and the normalisers -/

namespace Engine

theorem varianceOf_nonneg (values : List ℚ) : 0 ≤ varianceOf values := by
  unfold varianceOf
  apply div_nonneg
  · apply List.sum_nonneg
    intro x hx
    rcases List.mem_map.mp hx with ⟨v, hv, rfl⟩
    positivity
  · exact_mod_cast Nat.zero_le _

theorem surgeTest_iff_sqrt (values : List ℚ) (v : ℚ) :
    surgeTest (meanOf values) (varianceOf values) v = true ↔ SurgeThresholdMet values v := by
  unfold surgeTest SurgeThresholdMet
  by_cases hvar : varianceOf values = 0
  · rw [if_pos hvar, hvar]
    simp only [Rat.cast_zero, Real.sqrt_zero, ne_eq, not_true_eq_false, false_and, or_false,
      and_true, true_and, decide_eq_true_eq, ge_iff_le]
    constructor
    · intro hq
      have hr : ((11 / 10 * meanOf values : ℚ) : ℝ) ≤ ((v : ℚ) : ℝ) := by exact_mod_cast hq
      push_cast at hr
      linarith
    · intro hr
      have hq : ((11 / 10 * meanOf values : ℚ) : ℝ) ≤ ((v : ℚ) : ℝ) := by push_cast; linarith
      exact_mod_cast hq
  · rw [if_neg hvar]
    have hpos : 0 < varianceOf values :=
      lt_of_le_of_ne (varianceOf_nonneg values) (Ne.symm hvar)
    have hposR : (0 : ℝ) < ((varianceOf values : ℚ) : ℝ) := by exact_mod_cast hpos
    have hsqpos : 0 < Real.sqrt (varianceOf values) := Real.sqrt_pos.mpr hposR
    have hsq : Real.sqrt (varianceOf values) ≠ 0 := ne_of_gt hsqpos
    simp only [hsq, false_and, false_or, ne_eq, not_false_eq_true, true_and,
      decide_eq_true_eq, ge_iff_le]
    constructor
    · rintro ⟨hm, hv2⟩
      have hmR : ((meanOf values : ℚ) : ℝ) ≤ ((v : ℚ) : ℝ) := by exact_mod_cast hm
      have hv2R : ((varianceOf values : ℚ) : ℝ) ≤ (((v : ℚ) : ℝ) - ((meanOf values : ℚ) : ℝ)) ^ 2 := by
        have h0 : ((varianceOf values : ℚ) : ℝ) ≤ (((v - meanOf values : ℚ)) : ℝ) ^ 2 := by
          exact_mod_cast hv2
        push_cast at h0
        convert h0 using 2
      have hs : Real.sqrt (varianceOf values) ≤ ((v : ℚ) : ℝ) - ((meanOf values : ℚ) : ℝ) := by
        calc Real.sqrt (varianceOf values)
            ≤ Real.sqrt ((((v : ℚ) : ℝ) - ((meanOf values : ℚ) : ℝ)) ^ 2) :=
              Real.sqrt_le_sqrt hv2R
          _ = ((v : ℚ) : ℝ) - ((meanOf values : ℚ) : ℝ) := Real.sqrt_sq (by linarith)
      linarith
    · intro hge
      have hm : ((meanOf values : ℚ) : ℝ) ≤ ((v : ℚ) : ℝ) := by linarith
      have hs : Real.sqrt (varianceOf values) ≤ ((v : ℚ) : ℝ) - ((meanOf values : ℚ) : ℝ) := by
        linarith
      have hsq2 : ((varianceOf values : ℚ) : ℝ) ≤ (((v : ℚ) : ℝ) - ((meanOf values : ℚ) : ℝ)) ^ 2 := by
        have h1 : Real.sqrt (varianceOf values) ^ 2 ≤
            (((v : ℚ) : ℝ) - ((meanOf values : ℚ) : ℝ)) ^ 2 :=
          pow_le_pow_left₀ (Real.sqrt_nonneg _) hs 2
        rwa [Real.sq_sqrt hposR.le] at h1
      refine ⟨by exact_mod_cast hm, ?_⟩
      have h2 : ((varianceOf values : ℚ) : ℝ) ≤ (((v - meanOf values : ℚ)) : ℝ) ^ 2 := by
        push_cast
        convert hsq2 using 2
      exact_mod_cast h2

theorem detect_surges_spec (measure_id : String) (points : List Point) (s : Surge) :
    s ∈ detect_surges measure_id points ↔
      (2 ≤ (points.filterMap Point.y).length ∧
       ∃ p ∈ points, p.y = some s.value ∧ s.x = p.x ∧ s.measure = measure_id ∧
         SurgeThresholdMet (points.filterMap Point.y) s.value) := by
  unfold detect_surges
  by_cases hlen : (points.filterMap Point.y).length < 2
  · rw [if_pos hlen]
    simp only [List.not_mem_nil, false_iff, not_and]
    intro h2
    omega
  · rw [if_neg hlen]
    rw [List.mem_filterMap]
    constructor
    · rintro ⟨p, hp, hfp⟩
      refine ⟨by omega, p, hp, ?_⟩
      rcases hy : p.y with _ | v
      · rw [hy] at hfp; cases hfp
      · rw [hy] at hfp
        dsimp only at hfp
        split at hfp
        · rename_i hcond
          injection hfp with hfp
          subst hfp
          exact ⟨rfl, rfl, rfl, (surgeTest_iff_sqrt _ _).mp hcond⟩
        · cases hfp
    · rintro ⟨hl2, p, hp, hyv, hx, hm, hth⟩
      refine ⟨p, hp, ?_⟩
      rw [hyv]
      dsimp only
      rw [if_pos ((surgeTest_iff_sqrt _ _).mpr hth)]
      rcases s with ⟨sm, sx, sv⟩
      dsimp only at hx hm
      rw [hx, hm]

theorem seriesStep_fold_ids (frame : Frame) (measures : List (String × String))
    (acc : List Series × List Surge) :
    (List.foldl (seriesStep frame) acc measures).1.map Series.id =
      acc.1.map Series.id ++ measures.map Prod.fst := by
  induction measures generalizing acc with
  | nil => simp
  | cons m ms ih =>
    rw [List.foldl_cons, ih]
    simp [seriesStep]

theorem seriesStep_fold_surges (frame : Frame) (measures : List (String × String))
    (acc : List Series × List Surge) :
    (List.foldl (seriesStep frame) acc measures).2 =
      acc.2 ++ measures.flatMap (fun m => detect_surges m.1 (measurePoints frame m.1)) := by
  induction measures generalizing acc with
  | nil => simp
  | cons m ms ih =>
    rw [List.foldl_cons, ih]
    simp [seriesStep, measurePoints]

theorem heatStep_fold_ids (bucket : String) (frame : Frame)
    (measures : List (String × String)) (acc : List Series) :
    (List.foldl (heatStep bucket frame) acc measures).map Series.id =
      acc.map Series.id ++ measures.map Prod.fst := by
  induction measures generalizing acc with
  | nil => simp
  | cons m ms ih =>
    rw [List.foldl_cons, ih]
    simp [heatStep]

theorem normalise_time_series_ok (spec : Json) (compiled : Compiler.CompiledQuery)
    (frame : Frame) (r : ChartResult)
    (h : normalise_time_series spec compiled frame = .ok r) :
    r.chartType = "composed_time" ∧
      r.series.map Series.id = compiled.measures.map Prod.fst ∧
      r.meta.surges =
        compiled.measures.flatMap (fun m => detect_surges m.1 (measurePoints frame m.1)) := by
  unfold normalise_time_series at h
  have final : ∀ (xd : XDimension) (tz : Json),
      (Except.ok (ChartResult.mk "composed_time" xd
        (List.foldl (seriesStep frame) ([], []) compiled.measures).1
        ⟨tz, coverage_meta frame,
         (List.foldl (seriesStep frame) ([], []) compiled.measures).2,
         ⟨frame.length, compiled.measures.map Prod.fst⟩⟩) : Except EngineError ChartResult) = .ok r →
      (r.chartType = "composed_time" ∧
        r.series.map Series.id = compiled.measures.map Prod.fst ∧
        r.meta.surges =
          compiled.measures.flatMap (fun m => detect_surges m.1 (measurePoints frame m.1))) := by
    intro xd tz hh
    injection hh with hh
    subst hh
    refine ⟨rfl, ?_, ?_⟩
    · exact (seriesStep_fold_ids frame compiled.measures ([], [])).trans (by simp)
    · exact (seriesStep_fold_surges frame compiled.measures ([], [])).trans (by simp)
  rcases htw : Json.jGet spec "timeWindow" with _ | tw
  · rw [htw] at h; exact Except.noConfusion h
  · rw [htw] at h
    simp only [exBind_ok] at h
    cases tw with
    | null => exact Except.noConfusion h
    | bool b => exact Except.noConfusion h
    | num n => exact Except.noConfusion h
    | str s => exact Except.noConfusion h
    | arr l => exact Except.noConfusion h
    | obj twf =>
      simp only [exBind_ok] at h
      rcases hdims : Json.jGet spec "dimensions" with _ | dv
      · rw [hdims] at h; exact Except.noConfusion h
      · rw [hdims] at h
        cases dv with
        | null => exact Except.noConfusion h
        | bool b2 => exact Except.noConfusion h
        | num n2 => exact Except.noConfusion h
        | str s2 => exact Except.noConfusion h
        | obj df => exact Except.noConfusion h
        | arr dl =>
          cases dl with
          | nil => exact Except.noConfusion h
          | cons d rest =>
            simp only [exBind_ok] at h
            cases d with
            | null => exact Except.noConfusion h
            | bool b3 => exact Except.noConfusion h
            | num n3 => exact Except.noConfusion h
            | str s3 => exact Except.noConfusion h
            | arr l3 => exact Except.noConfusion h
            | obj dfields =>
              simp only [exBind_ok] at h
              rcases hid : Json.jGet (Json.obj dfields) "id" with _ | dimid
              · rw [hid] at h; exact Except.noConfusion h
              · rw [hid] at h
                simp only [exBind_ok] at h
                by_cases hbt :
                    Json.truthy ((Json.pyGet (Json.obj dfields) "bucket").getD Json.null) = true
                · rw [if_pos hbt] at h
                  exact final _ _ h
                · rw [if_neg hbt] at h
                  rcases hcol : Json.jGet (Json.obj dfields) "column" with _ | cv
                  · rw [hcol] at h; exact Except.noConfusion h
                  · rw [hcol] at h
                    cases cv with
                    | null => exact final _ _ h
                    | bool b4 => exact final _ _ h
                    | num n4 => exact final _ _ h
                    | arr l4 => exact final _ _ h
                    | obj o4 => exact final _ _ h
                    | str s4 =>
                      split at h
                      all_goals
                        first
                          | exact final _ _ h
                          | exact Except.noConfusion h

theorem normalise_heatmap_ok (spec : Json) (compiled : Compiler.CompiledQuery)
    (frame : Frame) (r : ChartResult)
    (h : normalise_heatmap spec compiled frame = .ok r) :
    r.chartType = "heatmap" ∧ r.meta.surges = [] ∧
      r.series.map Series.id = compiled.measures.map Prod.fst := by
  unfold normalise_heatmap at h
  have final : ∀ (xd : XDimension) (tz : Json),
      (Except.ok (ChartResult.mk "heatmap" xd
        (List.foldl (heatStep compiled.bucket frame) [] compiled.measures)
        ⟨tz, coverage_meta frame, [],
         ⟨frame.length, compiled.measures.map Prod.fst⟩⟩) :
        Except EngineError ChartResult) = .ok r →
      (r.chartType = "heatmap" ∧ r.meta.surges = [] ∧
        r.series.map Series.id = compiled.measures.map Prod.fst) := by
    intro xd tz hh
    injection hh with hh
    subst hh
    refine ⟨rfl, rfl, ?_⟩
    exact (heatStep_fold_ids compiled.bucket frame compiled.measures []).trans (by simp)
  rcases htw : Json.jGet spec "timeWindow" with _ | tw
  · rw [htw] at h; exact Except.noConfusion h
  · rw [htw] at h
    simp only [exBind_ok] at h
    cases tw with
    | null => exact Except.noConfusion h
    | bool b => exact Except.noConfusion h
    | num n => exact Except.noConfusion h
    | str s => exact Except.noConfusion h
    | arr l => exact Except.noConfusion h
    | obj twf =>
      simp only [exBind_ok] at h
      rcases hdims : Json.jGet spec "dimensions" with _ | dv
      · rw [hdims] at h; exact Except.noConfusion h
      · rw [hdims] at h
        cases dv with
        | null => exact Except.noConfusion h
        | bool b2 => exact Except.noConfusion h
        | num n2 => exact Except.noConfusion h
        | str s2 => exact Except.noConfusion h
        | obj df => exact Except.noConfusion h
        | arr dl =>
          cases dl with
          | nil => exact Except.noConfusion h
          | cons d rest =>
            simp only [exBind_ok] at h
            cases d with
            | null => exact Except.noConfusion h
            | bool b3 => exact Except.noConfusion h
            | num n3 => exact Except.noConfusion h
            | str s3 => exact Except.noConfusion h
            | arr l3 => exact Except.noConfusion h
            | obj dfields =>
              simp only [exBind_ok] at h
              rcases hid : Json.jGet (Json.obj dfields) "id" with _ | dimid
              · rw [hid] at h; exact Except.noConfusion h
              · rw [hid] at h
                simp only [exBind_ok] at h
                exact final _ _ h

theorem normalise_series_ids (spec : Json) (compiled : Compiler.CompiledQuery)
    (frame : Frame) (r : ChartResult)
    (h : normalise spec compiled frame = .ok r) :
    r.series.map Series.id = compiled.measures.map Prod.fst := by
  unfold normalise at h
  rcases hct : Json.jGet spec "chartType" with _ | ct
  · rw [hct] at h; exact Except.noConfusion h
  · rw [hct] at h
    simp only [exBind_ok] at h
    split at h
    · exact (normalise_time_series_ok _ _ _ _ h).2.1
    · exact (normalise_heatmap_ok _ _ _ _ h).2.2
    · exact (normalise_heatmap_ok _ _ _ _ h).2.2
    · exact Except.noConfusion h

end Engine

/-! ## The compiler measure map -/

namespace Compiler

theorem dictInsert_fst_new {α : Type} (l : List (String × α)) (k : String) (v : α)
    (hk : k ∉ l.map Prod.fst) :
    (dictInsert l k v).map Prod.fst = l.map Prod.fst ++ [k] := by
  induction l with
  | nil => rfl
  | cons p rest ih =>
    rcases p with ⟨k1, v1⟩
    simp only [List.map_cons, List.mem_cons, not_or] at hk
    rw [show dictInsert ((k1, v1) :: rest) k v =
        (if k1 = k then (k, v) :: rest else (k1, v1) :: dictInsert rest k v) from rfl]
    rw [if_neg (fun hh => hk.1 hh.symm)]
    simp only [List.map_cons, ih hk.2, List.cons_append]

theorem measureMapStep_fold (measures : List Json) (acc mm : List (String × String))
    (h : List.foldlM measureMapStep acc measures = .ok mm)
    (hnd : (measures.filterMap measureIdOf).Nodup)
    (hdisj : ∀ i ∈ measures.filterMap measureIdOf, i ∉ acc.map Prod.fst) :
    mm.map Prod.fst = acc.map Prod.fst ++ measures.filterMap measureIdOf := by
  induction measures generalizing acc with
  | nil =>
    rw [List.foldlM_nil] at h
    injection h with h
    subst h
    simp
  | cons m ms ih =>
    rw [List.foldlM_cons] at h
    rcases hid : Json.jGet m "id" with _ | j
    · rw [show measureMapStep acc m = measureMapStep acc m from rfl] at h
      unfold measureMapStep at h
      rw [hid] at h
      exact Except.noConfusion h
    · unfold measureMapStep at h
      rw [hid] at h
      cases j with
      | null => exact Except.noConfusion h
      | bool b => exact Except.noConfusion h
      | num n => exact Except.noConfusion h
      | arr l => exact Except.noConfusion h
      | obj o => exact Except.noConfusion h
      | str mid =>
        simp only [exBind_ok] at h
        rcases hagg : Json.jGet m "aggregation" with _ | j2
        · rw [hagg] at h; exact Except.noConfusion h
        · rw [hagg] at h
          cases j2 with
          | null => exact Except.noConfusion h
          | bool b => exact Except.noConfusion h
          | num n => exact Except.noConfusion h
          | arr l => exact Except.noConfusion h
          | obj o => exact Except.noConfusion h
          | str agg =>
            simp only [exBind_ok] at h
            have hmid : measureIdOf m = some mid := by
              unfold measureIdOf
              rw [hid]
            rw [List.filterMap_cons, hmid] at hnd hdisj ⊢
            have hmidnew : mid ∉ acc.map Prod.fst :=
              hdisj mid (List.mem_cons_self _ _)
            have ih2 := ih (dictInsert acc mid agg) h
              (by exact (List.nodup_cons.mp hnd).2)
              (by
                intro i hi
                rw [dictInsert_fst_new acc mid agg hmidnew]
                simp only [List.mem_append, List.mem_singleton, not_or]
                exact ⟨fun hia => hdisj i (List.mem_cons_of_mem _ hi) hia,
                  fun hieq => (List.nodup_cons.mp hnd).1 (hieq ▸ hi)⟩)
            rw [ih2, dictInsert_fst_new acc mid agg hmidnew]
            simp

theorem measure_map_fst (measures : List Json) (mm : List (String × String))
    (h : measure_map measures = .ok mm)
    (hnd : (measures.filterMap measureIdOf).Nodup) :
    mm.map Prod.fst = measures.filterMap measureIdOf := by
  have := measureMapStep_fold measures [] mm h hnd (by simp)
  simpa using this

theorem compile_retention_measures (spec : Json) (context : CompilerContext)
    (compiled : CompiledQuery)
    (h : compile_retention_chart spec context = .ok compiled) :
    ∃ ms, Json.jGet spec "measures" = some (.arr ms) ∧
      measure_map ms = .ok compiled.measures := by
  unfold compile_retention_chart at h
  have cont : ∀ (b fs : String) (ps : List (String × Json)) (mv : List Json),
      ((render_retention_calendar b >>= fun rc =>
        measureLoop mv b retention_measures ps >>= fun t =>
          measure_map mv >>= fun mm =>
            Except.ok (CompiledQuery.mk
              (assemble_sql [render_scoped context.table_name fs, rc]
                (t.1.map Prod.snd) t.2.1 "bucket_start, lag_weeks, measure_id")
              t.2.2 mm b)) : Except EngineError CompiledQuery) = .ok compiled →
      measure_map mv = .ok compiled.measures := by
    intro b fs ps mv hh
    rcases hrc : render_retention_calendar b with e1 | rc
    · rw [hrc] at hh; exact Except.noConfusion hh
    · rw [hrc] at hh
      simp only [exBind_ok] at hh
      rcases hml : measureLoop mv b retention_measures ps with e2 | t
      · rw [hml] at hh; exact Except.noConfusion hh
      · rw [hml] at hh
        simp only [exBind_ok] at hh
        rcases hmm : measure_map mv with e3 | mm
        · rw [hmm] at hh; exact Except.noConfusion hh
        · rw [hmm] at hh
          simp only [exBind_ok] at hh
          injection hh with hh
          subst hh
          rfl
  rcases htw : Json.jGet spec "timeWindow" with _ | tw
  · rw [htw] at h; exact Except.noConfusion h
  · rw [htw] at h
    try simp only [exBind_ok] at h
    try dsimp only at h
    cases tw with
    | null => exact Except.noConfusion h
    | bool b0 => exact Except.noConfusion h
    | num n0 => exact Except.noConfusion h
    | str s0 => exact Except.noConfusion h
    | arr l0 => exact Except.noConfusion h
    | obj twf =>
      try simp only [exBind_ok] at h
      try dsimp only at h
      generalize hgb : (Json.jGet (Json.obj twf) "bucket").getD (Json.str "WEEK") = gb at h
      cases gb with
      | null => exact Except.noConfusion h
      | bool b1 => exact Except.noConfusion h
      | num n1 => exact Except.noConfusion h
      | arr l1 => exact Except.noConfusion h
      | obj o1 => exact Except.noConfusion h
      | str b =>
        try simp only [exBind_ok] at h
        try dsimp only at h
        by_cases hbk : b = "WEEK" ∨ b = "MONTH"
        · rw [if_pos hbk] at h
          try simp only [exBind_ok] at h
          try dsimp only at h
          rcases hfrom : Json.jGet (Json.obj twf) "from" with _ | sv
          · rw [hfrom] at h; exact Except.noConfusion h
          · rw [hfrom] at h
            try simp only [exBind_ok] at h
            try dsimp only at h
            rcases hto : Json.jGet (Json.obj twf) "to" with _ | ev
            · rw [hto] at h; exact Except.noConfusion h
            · rw [hto] at h
              try simp only [exBind_ok] at h
              try dsimp only at h
              rcases hbf : build_filters ((Json.jGet spec "filters").getD (Json.arr []))
                  (dictInsert (dictInsert [] "start_ts" sv) "end_ts" ev) with e4 | p
              · rw [hbf] at h; exact Except.noConfusion h
              · rw [hbf] at h
                obtain ⟨fs, ps⟩ := p
                try simp only [exBind_ok] at h
                try dsimp only at h
                rcases hms : Json.jGet spec "measures" with _ | mv
                · rw [hms] at h; exact Except.noConfusion h
                · rw [hms] at h
                  cases mv with
                  | null => exact Except.noConfusion h
                  | bool b2 => exact Except.noConfusion h
                  | num n2 => exact Except.noConfusion h
                  | str s2 => exact Except.noConfusion h
                  | obj o2 => exact Except.noConfusion h
                  | arr msl =>
                    try simp only [exBind_ok] at h
                    try dsimp only at h
                    exact ⟨msl, rfl, cont b fs ps msl h⟩
        · rw [if_neg hbk] at h
          exact Except.noConfusion h

theorem compile_measures (spec : Json) (context : CompilerContext)
    (compiled : CompiledQuery)
    (h : compile spec context = .ok compiled) :
    ∃ ms, Json.jGet spec "measures" = some (.arr ms) ∧
      measure_map ms = .ok compiled.measures := by
  unfold compile at h
  have cont : ∀ (bc : List String) (b : String) (ps : List (String × Json)) (mv : List Json),
      ((measureLoop mv b time_series_measures ps >>= fun t =>
          measure_map mv >>= fun mm =>
            Except.ok (CompiledQuery.mk
              (assemble_sql bc (t.1.map Prod.snd) t.2.1 "bucket_start, measure_id")
              t.2.2 mm b)) : Except EngineError CompiledQuery) = .ok compiled →
      measure_map mv = .ok compiled.measures := by
    intro bc b ps mv hh
    rcases hml : measureLoop mv b time_series_measures ps with e2 | t
    · rw [hml] at hh; exact Except.noConfusion hh
    · rw [hml] at hh
      simp only [exBind_ok] at hh
      rcases hmm : measure_map mv with e3 | mm
      · rw [hmm] at hh; exact Except.noConfusion hh
      · rw [hmm] at hh
        simp only [exBind_ok] at hh
        injection hh with hh
        subst hh
        rfl
  rcases hv : Contracts.validate_chart_spec spec with e0 | u
  · rw [hv] at h; exact Except.noConfusion h
  · rw [hv] at h
    try simp only [exBind_ok] at h
    try dsimp only at h
    rcases hct : Json.jGet spec "chartType" with _ | ct
    · rw [hct] at h; exact Except.noConfusion h
    · rw [hct] at h
      try simp only [exBind_ok] at h
      try dsimp only at h
      cases ct with
      | null => exact Except.noConfusion h
      | bool cb => exact Except.noConfusion h
      | num cn => exact Except.noConfusion h
      | arr cl => exact Except.noConfusion h
      | obj co => exact Except.noConfusion h
      | str s =>
        try simp only [exBind_ok] at h
        try dsimp only at h
        by_cases hsup :
            (["composed_time", "categorical", "single_value", "heatmap", "retention"].contains s
              = true)
        · rw [if_pos hsup] at h
          try simp only [exBind_ok] at h
          try dsimp only at h
          by_cases hret : s = "heatmap" ∨ s = "retention"
          · rw [if_pos hret] at h
            exact compile_retention_measures spec context compiled h
          · rw [if_neg hret] at h
            rcases htw : Json.jGet spec "timeWindow" with _ | tw
            · rw [htw] at h; exact Except.noConfusion h
            · rw [htw] at h
              try simp only [exBind_ok] at h
              try dsimp only at h
              cases tw with
              | null => exact Except.noConfusion h
              | bool b0 => exact Except.noConfusion h
              | num n0 => exact Except.noConfusion h
              | str s0 => exact Except.noConfusion h
              | arr l0 => exact Except.noConfusion h
              | obj twf =>
                try simp only [exBind_ok] at h
                try dsimp only at h
                generalize hgb : (Json.jGet (Json.obj twf) "bucket").getD (Json.str "RAW") = gb at h
                cases gb with
                | null => exact Except.noConfusion h
                | bool b1 => exact Except.noConfusion h
                | num n1 => exact Except.noConfusion h
                | arr l1 => exact Except.noConfusion h
                | obj o1 => exact Except.noConfusion h
                | str b =>
                  try simp only [exBind_ok] at h
                  try dsimp only at h
                  by_cases hbk : bucketKnown b = true
                  · rw [if_pos hbk] at h
                    try simp only [exBind_ok] at h
                    try dsimp only at h
                    rcases hfrom : Json.jGet (Json.obj twf) "from" with _ | sv
                    · rw [hfrom] at h; exact Except.noConfusion h
                    · rw [hfrom] at h
                      try simp only [exBind_ok] at h
                      try dsimp only at h
                      rcases hto : Json.jGet (Json.obj twf) "to" with _ | ev
                      · rw [hto] at h; exact Except.noConfusion h
                      · rw [hto] at h
                        try simp only [exBind_ok] at h
                        try dsimp only at h
                        rcases hbf : build_filters ((Json.jGet spec "filters").getD (Json.arr []))
                            (dictInsert (dictInsert [] "start_ts" sv) "end_ts" ev) with e4 | p
                        · rw [hbf] at h; exact Except.noConfusion h
                        · rw [hbf] at h
                          obtain ⟨fs, ps⟩ := p
                          try simp only [exBind_ok] at h
                          try dsimp only at h
                          rcases hms : Json.jGet spec "measures" with _ | mv
                          · rw [hms] at h; exact Except.noConfusion h
                          · rw [hms] at h
                            cases mv with
                            | null => exact Except.noConfusion h
                            | bool b2 => exact Except.noConfusion h
                            | num n2 => exact Except.noConfusion h
                            | str s2 => exact Except.noConfusion h
                            | obj o2 => exact Except.noConfusion h
                            | arr msl =>
                              try simp only [exBind_ok] at h
                              try dsimp only at h
                              by_cases hraw : ¬ b = "RAW"
                              · rw [if_pos hraw] at h
                                rcases hrc : render_calendar b with e5 | cal
                                · rw [hrc] at h; exact Except.noConfusion h
                                · rw [hrc] at h
                                  try simp only [exBind_ok] at h
                                  try dsimp only at h
                                  exact ⟨msl, rfl, cont [render_scoped context.table_name fs, cal]
                                    b ps msl h⟩
                              · rw [if_neg hraw] at h
                                try simp only [exBind_ok] at h
                                try dsimp only at h
                                exact ⟨msl, rfl, cont [render_scoped context.table_name fs]
                                  b ps msl h⟩
                  · rw [if_neg hbk] at h
                    exact Except.noConfusion h
        · rw [if_neg hsup] at h
          exact Except.noConfusion h

end Compiler

/-! ## `AnalyticsEngine.execute` paths -/

namespace Engine

theorem execute_bigquery_error (eng : AnalyticsEngine) (spec : Json) (org : String)
    (bypass : Bool) (ttl : Option Nat) (cache : Cache) (table_name : String)
    (e : BigQueryDataFrameError)
    (hroute : Router.resolve eng.table_router org = .ok table_name)
    (hmiss : (if bypass then none
        else cacheGet cache (Hashing.build_cache_key spec table_name)) = none)
    (hcomp : (Compiler.compile spec ⟨table_name, "UTC"⟩).isOk = true)
    (hbq : ∀ sql params job, eng.bigquery_client sql params job = .error e) :
    execute eng spec org bypass ttl cache = (.error (.bigquery e), cache) := by
  unfold execute
  rcases hc : Compiler.compile spec ⟨table_name, "UTC"⟩ with e2 | compiled
  · rw [hc] at hcomp; simp [Except.isOk, Except.toBool] at hcomp
  · simp only [hroute, hmiss, hc, hbq]

theorem execute_cache_hit (eng : AnalyticsEngine) (spec : Json) (org : String)
    (ttl : Option Nat) (cache : Cache) (table_name : String) (v : ChartResult)
    (hroute : Router.resolve eng.table_router org = .ok table_name)
    (hhit : cacheGet cache (Hashing.build_cache_key spec table_name) = some v) :
    execute eng spec org false ttl cache = (.ok v, cache) := by
  unfold execute
  simp only [hroute, Bool.false_eq_true, if_false, hhit]

end Engine

/-! ## The validator and `between` arity -/

namespace Contracts

theorem between_arity_not_checked (f : String) (items : List Json)
    (hsc : items.all isScalar = true) :
    validate_filter_condition
      (.obj [("field", .str f), ("op", .str "between"), ("value", .arr items)]) = .ok () := by
  unfold validate_filter_condition
  simp [ensure, Json.jGet, Json.lookupKey, strMem, FILTER_OPERATORS, isScalar, hsc]
  rfl

end Contracts

/-! ## Claims -/

section Claims

open Hashing Json

set_option maxRecDepth 40000

/-- C1: permuting mapping keys at any nesting depth of a ChartSpec-like
dictionary leaves `build_cache_key` unchanged; reordering an array value —
the `measures` list directly under a top-level key, or a
`filters[i].conditions` list nested inside an element of the `filters`
array — changes the canonical serialisation the SHA-256 digest is computed
over; and at the concrete measure-swapped and condition-swapped pairs the
cache keys indeed differ. -/
theorem C1_cache_key_canonicalisation :
    (∀ (a b : Json) (t : String), wellFormed a = true → wellFormed b = true →
      PermEquiv a b → build_cache_key a t = build_cache_key b t)
    ∧ (∀ (f : List (String × Json)) (k : String) (l l' : List Json),
        (f.map Prod.fst).Nodup → lookupKey f k = some (.arr l) → l.Perm l' →
        normalizeList l ≠ normalizeList l' →
        canonicalPayload (.obj f) ≠ canonicalPayload (.obj (setKey f k (.arr l'))))
    ∧ (∀ (f : List (String × Json)) (k₁ : String) (gs : List Json) (i : Nat)
        (g : List (String × Json)) (k₂ : String) (l l' : List Json),
        (f.map Prod.fst).Nodup → lookupKey f k₁ = some (.arr gs) →
        gs[i]? = some (.obj g) → (g.map Prod.fst).Nodup →
        lookupKey g k₂ = some (.arr l) → l.Perm l' →
        normalizeList l ≠ normalizeList l' →
        canonicalPayload (.obj f) ≠ canonicalPayload (.obj (setKey f k₁
          (.arr (gs.set i (.obj (setKey g k₂ (.arr l'))))))))
    ∧ build_cache_key Examples.c1specA "nigzsu.analytics.client0" ≠
        build_cache_key Examples.c1specB "nigzsu.analytics.client0"
    ∧ build_cache_key Examples.c1condA "nigzsu.analytics.client0" ≠
        build_cache_key Examples.c1condB "nigzsu.analytics.client0" := by
  refine ⟨?_, ?_, ?_, ?_, ?_⟩
  · intro a b t ha hb h
    exact permEquiv_build_cache_key t ha hb h
  · intro f k l l' hn hlook hperm hne
    exact measure_order_changes_payload f k l l' hn hlook hperm hne
  · intro f k₁ gs i g k₂ l l' hnf hlook₁ hgi hng hlook₂ hperm hne
    exact nested_order_changes_payload f k₁ gs i g k₂ l l' hnf hlook₁ hgi hng hlook₂ hne
  · decide
  · decide

/-- Witness for C1 at concrete inputs: the nested key-permuted pair
`c1permA`/`c1permB` collides, swapping the `measures` array of `c1specA`
produces a different canonical payload, and so does swapping the
`conditions` array nested inside `filters[0]` of `c1condA`. -/
theorem C1_cache_key_canonicalisation_witness :
    (build_cache_key Examples.c1permA "nigzsu.analytics.client0" =
      build_cache_key Examples.c1permB "nigzsu.analytics.client0")
    ∧ canonicalPayload Examples.c1specA ≠ canonicalPayload Examples.c1specB
    ∧ canonicalPayload Examples.c1condA ≠ canonicalPayload Examples.c1condB := by
  refine ⟨?_, ?_, ?_⟩
  · apply C1_cache_key_canonicalisation.1 Examples.c1permA Examples.c1permB
      "nigzsu.analytics.client0" (by decide) (by decide)
    exact PermEquiv.obj
      (PermEquivFields.cons "a" (PermEquiv.num 1)
        (PermEquivFields.cons "b"
          (PermEquiv.obj
            (PermEquivFields.cons "x" (PermEquiv.str "u")
              (PermEquivFields.cons "y" PermEquiv.null PermEquivFields.nil))
            (List.Perm.swap ("y", Json.null) ("x", Json.str "u") []))
          PermEquivFields.nil))
      (List.Perm.swap ("b", Json.obj [("y", Json.null), ("x", Json.str "u")])
        ("a", Json.num 1) [])
  · have h := C1_cache_key_canonicalisation.2.1
      [("chartType", Json.str "composed_time"),
       ("measures", Json.arr [Json.str "m1", Json.str "m2"])]
      "measures" [Json.str "m1", Json.str "m2"] [Json.str "m2", Json.str "m1"]
      (by decide) rfl
      (List.Perm.swap (Json.str "m2") (Json.str "m1") [])
      (by decide)
    exact h
  · have h := C1_cache_key_canonicalisation.2.2.1
      [("chartType", Json.str "composed_time"),
       ("filters", Json.arr [Json.obj Examples.c1group])]
      "filters" [Json.obj Examples.c1group] 0 Examples.c1group "conditions"
      [Examples.c1condSite, Examples.c1condCam]
      [Examples.c1condCam, Examples.c1condSite]
      (by decide) rfl rfl (by decide) rfl
      (List.Perm.swap Examples.c1condCam Examples.c1condSite [])
      (by decide)
    exact h

/-- C2 counterexample: the engine hashes the raw spec, so a spec carrying
one additional unknown field gets a different cache key. -/
theorem C2_unknown_fields_counterexample :
    build_cache_key (.obj Examples.c2fields) "nigzsu.analytics.client0" ≠
      build_cache_key (.obj Examples.c2fieldsExtra) "nigzsu.analytics.client0" := by
  decide

/-- C2 (amended): nothing in the execute path drops unknown fields before
hashing; adding a field the spec did not carry always changes the
canonical payload `hash_spec` digests, and at the concrete pair the cache
keys differ. -/
theorem C2_unknown_fields_alter_cache_key :
    (∀ (f : List (String × Json)) (k : String) (v : Json), lookupKey f k = none →
      canonicalPayload (.obj f) ≠ canonicalPayload (.obj (f ++ [(k, v)])))
    ∧ build_cache_key (.obj Examples.c2fields) "nigzsu.analytics.client0" ≠
        build_cache_key (.obj Examples.c2fieldsExtra) "nigzsu.analytics.client0" := by
  constructor
  · intro f k v habsent
    exact unknown_field_changes_payload f k v habsent
  · decide

/-- Witness for C2 at the concrete spec: `unknownField` is absent from
`c2fields`, and appending it changes the canonical payload. -/
theorem C2_unknown_fields_alter_cache_key_witness :
    lookupKey Examples.c2fields "unknownField" = none ∧
      canonicalPayload (.obj Examples.c2fields) ≠
        canonicalPayload (.obj (Examples.c2fields ++ [("unknownField", Json.num 1)])) := by
  refine ⟨rfl, ?_⟩
  exact C2_unknown_fields_alter_cache_key.1 Examples.c2fields "unknownField" (Json.num 1) rfl

/-- C3: when the warehouse call fails with its typed error, `execute`
returns that error wrapped as-is and leaves the cache untouched, for every
spec and organisation that reach the executor (route resolves, no cache
hit, compilation succeeds). -/
theorem C3_bigquery_errors_propagate_uncached (eng : Engine.AnalyticsEngine)
    (spec : Json) (org : String) (bypass : Bool)
    (ttl : Option Nat) (cache : Engine.Cache) (table_name : String)
    (e : BigQueryDataFrameError)
    (hroute : Router.resolve eng.table_router org = .ok table_name)
    (hmiss : (if bypass then none
        else Engine.cacheGet cache (Hashing.build_cache_key spec table_name)) = none)
    (hcomp : (Compiler.compile spec ⟨table_name, "UTC"⟩).isOk = true)
    (hbq : ∀ sql params job, eng.bigquery_client sql params job = .error e) :
    Engine.execute eng spec org bypass ttl cache = (.error (.bigquery e), cache) :=
  Engine.execute_bigquery_error eng spec org bypass ttl cache table_name e
    hroute hmiss hcomp hbq

/-- Witness for C3: a stub client that always fails makes `execute` on the
test fixture return the wrapped error with the (empty) cache unchanged. -/
theorem C3_bigquery_errors_propagate_uncached_witness :
    Engine.execute ⟨Examples.mapping, fun _ _ _ => .error Examples.bqError⟩ Examples.chartSpec
        "client0" true none [] = (.error (.bigquery Examples.bqError), []) :=
  C3_bigquery_errors_propagate_uncached
    ⟨Examples.mapping, fun _ _ _ => .error Examples.bqError⟩
    Examples.chartSpec "client0" true none [] "nigzsu.dataset.client0" Examples.bqError
    rfl rfl (by decide) (fun _ _ _ => rfl)

/-- C4: whenever the compile→normalise pipeline succeeds on a spec whose
declared measure ids are distinct, the result holds exactly one series per
declared measure id, in declaration order. -/
theorem C4_series_order_matches_measures (spec : Json)
    (context : Compiler.CompilerContext)
    (frame : Engine.Frame) (r : Engine.ChartResult)
    (hnd : (specMeasureIds spec).Nodup)
    (h : compileAndNormalise spec context frame = .ok r) :
    r.series.map Engine.Series.id = specMeasureIds spec := by
  unfold compileAndNormalise at h
  rcases hc : Compiler.compile spec context with e | compiled
  · rw [hc] at h; exact Except.noConfusion h
  · rw [hc] at h
    simp only [Except.bind] at h
    obtain ⟨ms, hms, hmm⟩ := Compiler.compile_measures spec context compiled hc
    have hids := Engine.normalise_series_ids spec compiled frame r h
    have hspec : specMeasureIds spec = ms.filterMap measureIdOf := by
      unfold specMeasureIds
      rw [hms]
    rw [hspec] at hnd ⊢
    rw [hids, Compiler.measure_map_fst ms compiled.measures hmm hnd]

/-- Witness for C4 on the engine-test fixture: the two series come out as
`occupancy` then `activity`, matching the spec order. -/
theorem C4_series_order_matches_measures_witness :
    (specMeasureIds Examples.chartSpec).Nodup ∧
      Examples.c4result.series.map Engine.Series.id = specMeasureIds Examples.chartSpec := by
  constructor
  · decide
  · exact C4_series_order_matches_measures Examples.chartSpec
      ⟨"nigzsu.analytics.client0", "UTC"⟩
      Examples.c4frame Examples.c4result (by decide) rfl

unseal Rat.add Rat.mul Rat.inv Rat.sub in
/-- C5 counterexample: a single-point series whose point meets the
zero-stddev threshold (`0 ≥ 1.1·0`) is nevertheless never annotated, since
`_detect_surges` returns `[]` below two non-null values. -/
theorem C5_single_point_counterexample :
    Engine.detect_surges "m" Examples.c5singlePoint = [] ∧
      Engine.SurgeThresholdMet (Examples.c5singlePoint.filterMap Engine.Point.y) 0 := by
  refine ⟨rfl, Or.inl ⟨?_, ?_⟩⟩
  · have hv : Engine.varianceOf (Examples.c5singlePoint.filterMap Engine.Point.y) = 0 := by
      decide
    rw [hv]
    simp
  · have hm : Engine.meanOf (Examples.c5singlePoint.filterMap Engine.Point.y) = 0 := by decide
    rw [hm]
    norm_num

/-- C5 (amended): `meta.surges` of a time-series result concatenates
`_detect_surges` output per measure; membership there is equivalent to the
`mean + stddev` (or `1.1·mean` at zero stddev) threshold TOGETHER WITH the
series holding at least two non-null values — a single-point series is
never annotated; heatmap results carry no surges. -/
theorem C5_surge_annotation_criterion :
    (∀ (spec : Json) (compiled : Compiler.CompiledQuery) (frame : Engine.Frame)
        (r : Engine.ChartResult),
      Engine.normalise_time_series spec compiled frame = .ok r →
      r.meta.surges = compiled.measures.flatMap
        (fun m => Engine.detect_surges m.1 (Engine.measurePoints frame m.1))) ∧
    (∀ (measure_id : String) (points : List Engine.Point) (s : Engine.Surge),
      s ∈ Engine.detect_surges measure_id points ↔
        (2 ≤ (points.filterMap Engine.Point.y).length ∧
         ∃ p ∈ points, p.y = some s.value ∧ s.x = p.x ∧ s.measure = measure_id ∧
           Engine.SurgeThresholdMet (points.filterMap Engine.Point.y) s.value)) ∧
    (∀ (spec : Json) (compiled : Compiler.CompiledQuery) (frame : Engine.Frame)
        (r : Engine.ChartResult),
      Engine.normalise_heatmap spec compiled frame = .ok r → r.meta.surges = []) := by
  refine ⟨?_, ?_, ?_⟩
  · intro spec compiled frame r h
    exact (Engine.normalise_time_series_ok spec compiled frame r h).2.2
  · intro measure_id points s
    exact Engine.detect_surges_spec measure_id points s
  · intro spec compiled frame r h
    exact (Engine.normalise_heatmap_ok spec compiled frame r h).2.1

/-- Witness for C5 at concrete inputs: the all-zero two-point result, the
two-point series with a genuine surge, and an empty heatmap result. -/
theorem C5_surge_annotation_criterion_witness :
    (Examples.c5tsResult.meta.surges =
      Examples.c5compiled.measures.flatMap
        (fun m => Engine.detect_surges m.1 (Engine.measurePoints Examples.c6frame m.1))) ∧
    ((⟨"m", "2024-01-01T01:00:00Z", 2⟩ : Engine.Surge) ∈
        Engine.detect_surges "m" Examples.c5twoPoints ↔
      (2 ≤ (Examples.c5twoPoints.filterMap Engine.Point.y).length ∧
       ∃ p ∈ Examples.c5twoPoints,
         p.y = some (⟨"m", "2024-01-01T01:00:00Z", (2 : ℚ)⟩ : Engine.Surge).value ∧
         (⟨"m", "2024-01-01T01:00:00Z", (2 : ℚ)⟩ : Engine.Surge).x = p.x ∧
         (⟨"m", "2024-01-01T01:00:00Z", (2 : ℚ)⟩ : Engine.Surge).measure = "m" ∧
         Engine.SurgeThresholdMet (Examples.c5twoPoints.filterMap Engine.Point.y)
           (⟨"m", "2024-01-01T01:00:00Z", (2 : ℚ)⟩ : Engine.Surge).value)) ∧
    Examples.heatResult.meta.surges = [] :=
  ⟨C5_surge_annotation_criterion.1 Examples.c6spec Examples.c5compiled Examples.c6frame
    Examples.c5tsResult rfl,
   C5_surge_annotation_criterion.2.1 "m" Examples.c5twoPoints ⟨"m", "2024-01-01T01:00:00Z", 2⟩,
   C5_surge_annotation_criterion.2.2 Examples.heatSpec Examples.heatCompiled []
    Examples.heatResult rfl⟩

unseal Rat.add Rat.mul Rat.inv Rat.sub in
/-- C6 (code bug): on the all-zero empty-window frame the spec's scenario
§8.2 demands `meta.surges = []`, but every zero bucket satisfies
`0 ≥ 1.1·0`, so the pipeline flags them all. -/
theorem C6_zero_window_flags_all_buckets :
    (compileAndNormalise Examples.c6spec ⟨"nigzsu.dataset.client0", "UTC"⟩
        Examples.c6frame).toOption.map (fun r => r.meta.surges) =
      some [⟨"m", "2024-01-01T00:00:00Z", 0⟩, ⟨"m", "2024-01-01T01:00:00Z", 0⟩] ∧
    ([⟨"m", "2024-01-01T00:00:00Z", 0⟩, ⟨"m", "2024-01-01T01:00:00Z", 0⟩] :
      List Engine.Surge) ≠ [] := by
  exact ⟨rfl, by simp⟩

/-- C7 counterexample: a spec whose only irregularity is a `between`
filter with a three-element value passes `validate_chart_spec` untouched —
the validator raises nothing. -/
theorem C7_validator_accepts_counterexample :
    Contracts.validate_chart_spec Examples.c7spec = .ok () := rfl

/-- C7 (amended): the validator never inspects the arity of a `between`
value (any all-scalar list passes `_validate_filter_condition`); the
arity error is raised later by the compiler, which rejects the same spec
with `Unsupported filter operator: between`. -/
theorem C7_between_arity_checked_in_compiler :
    (∀ (f : String) (items : List Json), items.all Contracts.isScalar = true →
      Contracts.validate_filter_condition
        (.obj [("field", .str f), ("op", .str "between"), ("value", .arr items)]) = .ok ()) ∧
    Compiler.compile Examples.c7spec ⟨"nigzsu.analytics.client0", "UTC"⟩ =
      .error (.validationError "Unsupported filter operator: between") := by
  constructor
  · intro f items hsc
    exact Contracts.between_arity_not_checked f items hsc
  · rfl

/-- Witness for C7 at the concrete three-element value `[1, 2, 3]`. -/
theorem C7_between_arity_checked_in_compiler_witness :
    Contracts.validate_filter_condition
      (.obj [("field", .str "index"), ("op", .str "between"),
        ("value", .arr [.num 1, .num 2, .num 3])]) = .ok () :=
  C7_between_arity_checked_in_compiler.1 "index" [.num 1, .num 2, .num 3] (by decide)

/-- C8 counterexample: the WEEK time-series spec compiles, and its SQL
nowhere truncates to Monday. -/
theorem C8_sunday_week_counterexample :
    (Compiler.compile Examples.c8spec ⟨"nigzsu.analytics.client0", "UTC"⟩).isOk = true ∧
      ((Compiler.compile Examples.c8spec ⟨"nigzsu.analytics.client0", "UTC"⟩).toOption.map
        (fun c => Compiler.hasSubstring c.sql "WEEK(MONDAY)")) = some false := by
  exact ⟨by decide, by decide⟩

/-- C8 (amended): the time-series calendar truncates WEEK buckets with
BigQuery's default `TIMESTAMP_TRUNC(@start_ts, WEEK)` (Sunday-aligned);
only the retention cohort truncation uses `WEEK(MONDAY)`. -/
theorem C8_week_truncation_not_monday :
    Compiler.bucket_trunc_expression "WEEK" = .ok "TIMESTAMP_TRUNC(@start_ts, WEEK)" ∧
    Compiler.retention_cohort_trunc "WEEK" = .ok "TIMESTAMP_TRUNC(timestamp, WEEK(MONDAY))" ∧
    ((Compiler.compile Examples.c8spec ⟨"nigzsu.analytics.client0", "UTC"⟩).toOption.map
      (fun c => Compiler.hasSubstring c.sql "TIMESTAMP_TRUNC(@start_ts, WEEK)")) = some true := by
  exact ⟨rfl, rfl, by decide⟩

/-- C9: a cache hit under the raw spec's key returns the cached value with
the cache unchanged, for every warehouse client — nothing is validated,
compiled or executed; and the spec used in the witness indeed fails
validation. -/
theorem C9_cache_hit_short_circuits :
    (∀ (eng : Engine.AnalyticsEngine) (spec : Json) (org : String) (ttl : Option Nat)
        (cache : Engine.Cache) (table_name : String) (v : Engine.ChartResult),
      Router.resolve eng.table_router org = .ok table_name →
      Engine.cacheGet cache (Hashing.build_cache_key spec table_name) = some v →
      Engine.execute eng spec org false ttl cache = (.ok v, cache)) ∧
    (Contracts.validate_chart_spec Examples.c9spec).isOk = false := by
  refine ⟨?_, by decide⟩
  intro eng spec org ttl cache table_name v hroute hhit
  exact Engine.execute_cache_hit eng spec org ttl cache table_name v hroute hhit

/-- Witness for C9: with an always-failing client and an invalid spec, a
seeded cache entry is returned as-is. -/
theorem C9_cache_hit_short_circuits_witness :
    Engine.execute ⟨Examples.mapping, fun _ _ _ => .error Examples.bqError⟩ Examples.c9spec
        "client0" false none Examples.c9cache = (.ok Examples.c9result, Examples.c9cache) :=
  C9_cache_hit_short_circuits.1
    ⟨Examples.mapping, fun _ _ _ => .error Examples.bqError⟩ Examples.c9spec
    "client0" none Examples.c9cache "nigzsu.dataset.client0" Examples.c9result
    rfl (by simp [Examples.c9cache, Engine.cacheGet])

/-- C10: any spec whose `chartType` is `retention` or `heatmap` is routed
to the heatmap normaliser, whose result is always labelled `heatmap`. -/
theorem C10_retention_chartType_heatmap (spec : Json)
    (compiled : Compiler.CompiledQuery) (frame : Engine.Frame)
    (r : Engine.ChartResult)
    (hct : Json.jGet spec "chartType" = some (.str "retention") ∨
           Json.jGet spec "chartType" = some (.str "heatmap"))
    (h : Engine.normalise spec compiled frame = .ok r) :
    r.chartType = "heatmap" := by
  unfold Engine.normalise at h
  rcases hct with hct | hct <;> rw [hct] at h <;> simp only [exBind_ok] at h <;>
    exact (Engine.normalise_heatmap_ok _ _ _ _ h).1

/-- Witness for C10 on the minimal `retention` spec. -/
theorem C10_retention_chartType_heatmap_witness :
    Examples.heatResult.chartType = "heatmap" :=
  C10_retention_chartType_heatmap Examples.heatSpec Examples.heatCompiled []
    Examples.heatResult (Or.inl rfl) rfl

end Claims

end Portal
